import Mathlib


/-!
# A shallow embedding of the PSPEmu CCPv5 device model

This file embeds the CCPv5 cryptographic co-processor device model of
`src/psp-dev-ccp-v5.c` (PSPEmu) in Lean 4 and proves properties of its
queue executor, MMIO front-end, LSB transfer engine and the PASSTHRU,
SHA and RSA engine request processors.

Conventions of the embedding:

* Machine integers become `Nat` with explicit `% 2 ^ 32` (or masking)
  where the C code can overflow; bytes are `Nat` values.
* Fallible C functions returning `0`/`-1` status codes become
  `Option`-valued Lean functions (`none` is the `-1` path).
* The local storage buffer (LSB) is a `List Nat` of 4096 bytes.
* PSP-local memory, reached through the external I/O manager
  (`PSPEmuIoMgrPspAddrRead`/`Write`, not part of this translation unit),
  is modelled as a total byte function `Nat → Nat` over 32-bit
  addresses; accesses through it always succeed.
* The constants of the `psp/ccp.h` header are not part of the source
  tree; they are modelled from the specification (distinct register
  offsets, distinct single-bit masks, the documented engine numbering
  and descriptor bit layout).
* The AES, zlib-decompress and ECC engines delegate their core work to
  external libraries (OpenSSL EVP / zlib); the queue-level development
  is parametric in an arbitrary per-request processing function, and the
  concrete dispatcher takes those three engine processors as parameters.
-/

/-! ## Bytes and integer encodings -/

/-- A byte buffer: a list of byte values. -/
abbrev Bytes := List Nat

/-- Truncation to 32 bits (`uint32_t` arithmetic). -/
def u32 (x : Nat) : Nat := x % 4294967296

/-- Bitwise complement within 32 bits (`~x` on a `uint32_t`). -/
def u32Not (x : Nat) : Nat := 4294967295 ^^^ x

/-- Little-endian interpretation of a byte list as a natural number
(`BN_lebin2bn`). -/
def natFromLE : Bytes → Nat
  | [] => 0
  | b :: bs => b % 256 + 256 * natFromLE bs

/-- Big-endian interpretation of a byte list as a natural number
(the order `RSA_public_encrypt` consumes buffers in). -/
def natFromBE (bs : Bytes) : Nat := natFromLE bs.reverse

/-- The `n`-byte little-endian encoding of `v % 2 ^ (8 n)`. -/
def natToLE : Nat → Nat → Bytes
  | 0, _ => []
  | n + 1, v => v % 256 :: natToLE n (v / 256)

/-- The `n`-byte big-endian encoding of `v % 2 ^ (8 n)`. -/
def natToBE (n v : Nat) : Bytes := (natToLE n v).reverse

/-- Overwrite the segment of `l` starting at index `a` with `src`
(a `memcpy` into a buffer). -/
def listWriteSeg (l : List Nat) (a : Nat) (src : List Nat) : List Nat :=
  l.take a ++ src ++ l.drop (a + src.length)

/-! ## Constants of `psp/ccp.h`

Modelled from the spec: the `psp/ccp.h` header is not under `src/`; the
register offsets, bit masks and field layouts below follow §3/§6 of the
specification (per-queue registers `CTRL, HEAD, TAIL, STATUS, IEN, ISTS`,
control bits `RUN`/`HALT`, interrupt-status bits
`COMPLETION`/`ERROR`/`Q_STOP`/`Q_EMPTY`, status values
`SUCCESS`/`ERROR`, the engine enumeration, and the documented bit
positions of the descriptor's dword 0 and function sub-fields). -/

def CCP_V5_Q_OFFSET : Nat := 0x1000
def CCP_V5_Q_SIZE : Nat := 0x1000

def CCP_V5_Q_REG_CTRL : Nat := 0x0
def CCP_V5_Q_REG_TAIL : Nat := 0x4
def CCP_V5_Q_REG_HEAD : Nat := 0x8
def CCP_V5_Q_REG_IEN : Nat := 0xc
def CCP_V5_Q_REG_ISTS : Nat := 0x10
def CCP_V5_Q_REG_STATUS : Nat := 0x100

def CCP_V5_Q_REG_CTRL_RUN : Nat := 0x1
def CCP_V5_Q_REG_CTRL_HALT : Nat := 0x2

def CCP_V5_Q_REG_ISTS_COMPLETION : Nat := 0x1
def CCP_V5_Q_REG_ISTS_ERROR : Nat := 0x2
def CCP_V5_Q_REG_ISTS_Q_STOP : Nat := 0x4
def CCP_V5_Q_REG_ISTS_Q_EMPTY : Nat := 0x8

def CCP_V5_Q_REG_STATUS_SUCCESS : Nat := 0x0
def CCP_V5_Q_REG_STATUS_ERROR : Nat := 0x1

def CCP_V5_ENGINE_AES : Nat := 0
def CCP_V5_ENGINE_XTS_AES128 : Nat := 1
def CCP_V5_ENGINE_DES3 : Nat := 2
def CCP_V5_ENGINE_SHA : Nat := 3
def CCP_V5_ENGINE_RSA : Nat := 4
def CCP_V5_ENGINE_PASSTHRU : Nat := 5
def CCP_V5_ENGINE_ZLIB_DECOMP : Nat := 6
def CCP_V5_ENGINE_ECC : Nat := 7

/-- Engine field of descriptor dword 0 (bits 20..23). -/
def CCP_V5_ENGINE_GET (dw0 : Nat) : Nat := (dw0 >>> 20) &&& 0xf

/-- Engine-specific function field of dword 0 (bits 5..19). -/
def CCP_V5_ENGINE_FUNC_GET (dw0 : Nat) : Nat := (dw0 >>> 5) &&& 0x7fff

/-- `init` flag of dword 0 (bit 3). -/
def CCP_V5_ENGINE_INIT_GET (dw0 : Nat) : Bool := (dw0 >>> 3) &&& 1 = 1

/-- `eom` flag of dword 0 (bit 4). -/
def CCP_V5_ENGINE_EOM_GET (dw0 : Nat) : Bool := (dw0 >>> 4) &&& 1 = 1

/-- Memory-type kind sub-field of a mem-type word. -/
def CCP_V5_MEM_TYPE_GET (v : Nat) : Nat := v &&& 0x3

/-- LSB context (slot) id sub-field of a mem-type word. -/
def CCP_V5_MEM_LSB_CTX_ID_GET (v : Nat) : Nat := (v >>> 2) &&& 0xff

def CCP_V5_MEM_TYPE_SYSTEM : Nat := 0
def CCP_V5_MEM_TYPE_SB : Nat := 1
def CCP_V5_MEM_TYPE_LOCAL : Nat := 2

/-- SHA type sub-field of the SHA function bits. -/
def CCP_V5_ENGINE_SHA_TYPE_GET (f : Nat) : Nat := (f >>> 10) &&& 0xf

def CCP_V5_ENGINE_SHA_TYPE_1 : Nat := 1
def CCP_V5_ENGINE_SHA_TYPE_224 : Nat := 2
def CCP_V5_ENGINE_SHA_TYPE_256 : Nat := 3
def CCP_V5_ENGINE_SHA_TYPE_384 : Nat := 4
def CCP_V5_ENGINE_SHA_TYPE_512 : Nat := 5

/-- PASSTHRU byteswap sub-field (bits 0..1 of the function bits). -/
def CCP_V5_ENGINE_PASSTHRU_BYTESWAP_GET (f : Nat) : Nat := f &&& 0x3

/-- PASSTHRU bitwise sub-field (bits 2..4 of the function bits). -/
def CCP_V5_ENGINE_PASSTHRU_BITWISE_GET (f : Nat) : Nat := (f >>> 2) &&& 0x7

/-- PASSTHRU reflect sub-field (bits 5..6 of the function bits). -/
def CCP_V5_ENGINE_PASSTHRU_REFLECT_GET (f : Nat) : Nat := (f >>> 5) &&& 0x3

def CCP_V5_ENGINE_PASSTHRU_BYTESWAP_NOOP : Nat := 0
def CCP_V5_ENGINE_PASSTHRU_BYTESWAP_32BIT : Nat := 1
def CCP_V5_ENGINE_PASSTHRU_BYTESWAP_256BIT : Nat := 2
def CCP_V5_ENGINE_PASSTHRU_BITWISE_NOOP : Nat := 0

/-- RSA mode sub-field (bits 0..2 of the function bits). -/
def CCP_V5_ENGINE_RSA_MODE_GET (f : Nat) : Nat := f &&& 0x7

/-- RSA size sub-field (bits 3..14 of the function bits). -/
def CCP_V5_ENGINE_RSA_SZ_GET (f : Nat) : Nat := (f >>> 3) &&& 0xfff

/-- A 48-bit CCP address built from the 16-bit high and 32-bit low
descriptor halves (`CCP_ADDR_CREATE_FROM_HI_LO`). -/
def CCP_ADDR_CREATE_FROM_HI_LO (hi lo : Nat) : Nat := (hi <<< 32) ||| lo

/-! ## Device state -/

/-- A single CCP queue (`CCPQUEUE`). -/
structure CCPQUEUE where
  u32RegCtrl : Nat
  u32RegReqTail : Nat
  u32RegReqHead : Nat
  u32RegSts : Nat
  u32RegIen : Nat
  u32RegIsts : Nat
  fEnabled : Bool
deriving DecidableEq, Repr

/-- The streaming SHA context (`pOsslShaCtx`): the OpenSSL digest
context is modelled by the SHA type it was created with together with
the accumulated message bytes. -/
structure SHACTX where
  shaType : Nat
  acc : Bytes
deriving DecidableEq, Repr

/-- The non-queue part of the device instance data: the LSB, the
streaming SHA context, the PSP-local memory seen through the I/O
manager (modelled as a byte function) and `cbWrittenLast`. -/
structure DEVCORE where
  Lsb : List Nat
  pOsslShaCtx : Option SHACTX
  localMem : Nat → Nat
  cbWrittenLast : Nat

/-- A call to the interrupt interface
(`pfnIrqSet(idPrio, idDev, fAssert)`). -/
structure IrqCall where
  idPrio : Nat
  idDev : Nat
  fAssert : Bool
deriving DecidableEq, Repr

/-- The full device state: the two queues, the core, and the state of
the shared interrupt line (the line latches the last `pfnIrqSet`
call; the interrupt controller itself is external). -/
structure PSPDEVCCP where
  q0 : CCPQUEUE
  q1 : CCPQUEUE
  core : DEVCORE
  irqAsserted : Bool

/-! ## The LSB and local-memory transfer primitives -/

/-- `pspDevCcpXferMemLsbRead`: bounds-checked read of `cbRead` bytes at
LSB byte offset `CcpAddr` (the LSB is 4096 bytes). -/
def pspDevCcpXferMemLsbRead (lsb : List Nat) (CcpAddr cbRead : Nat) : Option Bytes :=
  if CcpAddr < 4096 ∧ CcpAddr + cbRead ≤ 4096 then
    some ((lsb.drop CcpAddr).take cbRead)
  else
    none

/-- `pspDevCcpXferMemLsbWrite`: bounds-checked write of `pvSrc` at LSB
byte offset `CcpAddr`. -/
def pspDevCcpXferMemLsbWrite (lsb : List Nat) (CcpAddr : Nat) (pvSrc : Bytes) : Option (List Nat) :=
  if CcpAddr < 4096 ∧ CcpAddr + pvSrc.length ≤ 4096 then
    some (listWriteSeg lsb CcpAddr pvSrc)
  else
    none

/-- `pspDevCcpXferMemLocalRead`: read of PSP-local memory through the
I/O manager. The C code truncates the CCP address to 32 bits; the
external I/O manager is modelled as a total byte function, so the read
always succeeds. -/
def pspDevCcpXferMemLocalRead (mem : Nat → Nat) (CcpAddr cbRead : Nat) : Bytes :=
  (List.range cbRead).map fun i => mem ((CcpAddr + i) % 4294967296)

/-- `pspDevCcpXferMemLocalWrite`: write to PSP-local memory through the
I/O manager (always succeeds in the model; `cbWrittenLast` accounting is
done by the caller `devWrite`). -/
def pspDevCcpXferMemLocalWrite : (Nat → Nat) → Nat → Bytes → (Nat → Nat)
  | mem, _, [] => mem
  | mem, addr, b :: bs =>
      pspDevCcpXferMemLocalWrite (fun a => if a = addr % 4294967296 then b else mem a) (addr + 1) bs

/-! ## The descriptor and the transfer context -/

/-- A decoded 32-byte CCP request descriptor (`CCP5REQ`). The SHA view
of the destination union reinterprets `u32AddrDstLow` and
`u16AddrDstHigh`/`u16DstMemType` as the 64-bit message bit length; the
device only logs those, so the embedding keeps the non-SHA field
names. -/
structure CCP5REQ where
  u32Dw0 : Nat
  cbSrc : Nat
  u32AddrSrcLow : Nat
  u16AddrSrcHigh : Nat
  u16SrcMemType : Nat
  u32AddrDstLow : Nat
  u16AddrDstHigh : Nat
  u16DstMemType : Nat
  u32AddrKeyLow : Nat
  u16AddrKeyHigh : Nat
  u16KeyMemType : Nat
deriving DecidableEq, Repr

/-- The three memory spaces a transfer-context callback can address
(the tag replaces the C function pointers `pfnRead`/`pfnWrite`). -/
inductive CCPMEMSPACE where
  | sys
  | sb
  | loc
deriving DecidableEq, Repr

/-- Select the memory space for a mem-type word, the `switch` of
`pspDevCcpXferCtxInit` (the default arm makes the init fail). -/
def ccpMemSpaceOf (v : Nat) : Option CCPMEMSPACE :=
  if CCP_V5_MEM_TYPE_GET v = CCP_V5_MEM_TYPE_SYSTEM then some .sys
  else if CCP_V5_MEM_TYPE_GET v = CCP_V5_MEM_TYPE_SB then some .sb
  else if CCP_V5_MEM_TYPE_GET v = CCP_V5_MEM_TYPE_LOCAL then some .loc
  else none

/-- Dispatch a read to the selected space: `pspDevCcpXferMemSysRead`
always fails (`return -1`), the LSB read is bounds checked, the local
read goes through the I/O manager. Reads do not change the core. -/
def devRead (core : DEVCORE) (sp : CCPMEMSPACE) (addr n : Nat) : Option Bytes :=
  match sp with
  | .sys => none
  | .sb => pspDevCcpXferMemLsbRead core.Lsb addr n
  | .loc => some (pspDevCcpXferMemLocalRead core.localMem addr n)

/-- Dispatch a write to the selected space; a successful local write
adds to `cbWrittenLast` (`pspDevCcpXferMemLocalWrite`). -/
def devWrite (core : DEVCORE) (sp : CCPMEMSPACE) (addr : Nat) (bs : Bytes) : Option DEVCORE :=
  match sp with
  | .sys => none
  | .sb =>
    match pspDevCcpXferMemLsbWrite core.Lsb addr bs with
    | none => none
    | some lsb' => some { core with Lsb := lsb' }
  | .loc =>
    some { core with localMem := pspDevCcpXferMemLocalWrite core.localMem addr bs,
                     cbWrittenLast := core.cbWrittenLast + bs.length }

/-- A data transfer context (`CCPXFERCTX`); the C structure's read and
write function pointers are represented by the space tags. -/
structure CCPXFERCTX where
  srcSpace : CCPMEMSPACE
  dstSpace : CCPMEMSPACE
  CcpAddrSrc : Nat
  cbReadLeft : Nat
  CcpAddrDst : Nat
  cbWriteLeft : Nat
  fWriteRev : Bool
deriving DecidableEq, Repr

/-- `pspDevCcpXferCtxInit`: zero `cbWrittenLast`, select the reader by
the source mem-type, select the writer by the destination mem-type —
except that a SHA transfer always writes to the LSB slot named by the
LSB-context-id of the *source* mem-type — and pre-advance the write
cursor to the end of the window for reverse writes. -/
def pspDevCcpXferCtxInit (core0 : DEVCORE) (pReq : CCP5REQ) (fSha : Bool)
    (cbWrite : Nat) (fWriteRev : Bool) : Option (DEVCORE × CCPXFERCTX) :=
  let core := { core0 with cbWrittenLast := 0 }
  match ccpMemSpaceOf pReq.u16SrcMemType with
  | none => none
  | some srcSpace =>
    let addrSrc := CCP_ADDR_CREATE_FROM_HI_LO pReq.u16AddrSrcHigh pReq.u32AddrSrcLow
    if fSha then
      -- SHA always writes to the LSB.
      let uLsbCtxId := CCP_V5_MEM_LSB_CTX_ID_GET pReq.u16SrcMemType
      if uLsbCtxId < 128 then
        some (core,
          { srcSpace := srcSpace, dstSpace := .sb,
            CcpAddrSrc := addrSrc, cbReadLeft := pReq.cbSrc,
            CcpAddrDst := uLsbCtxId * 32 + (if fWriteRev then cbWrite else 0),
            cbWriteLeft := cbWrite, fWriteRev := fWriteRev })
      else none
    else
      match ccpMemSpaceOf pReq.u16DstMemType with
      | none => none
      | some dstSpace =>
        let addrDst := CCP_ADDR_CREATE_FROM_HI_LO pReq.u16AddrDstHigh pReq.u32AddrDstLow
        some (core,
          { srcSpace := srcSpace, dstSpace := dstSpace,
            CcpAddrSrc := addrSrc, cbReadLeft := pReq.cbSrc,
            CcpAddrDst := addrDst + (if fWriteRev then cbWrite else 0),
            cbWriteLeft := cbWrite, fWriteRev := fWriteRev })

/-- `pspDevCcpXferCtxRead` with a null `pcbRead` (the only way the
engines call it): the clamped length must be non-zero and equal to the
request, then the read advances the cursor and the remaining budget. -/
def pspDevCcpXferCtxRead (core : DEVCORE) (ctx : CCPXFERCTX) (cbRead : Nat) :
    Option (Bytes × CCPXFERCTX) :=
  let cbThisRead := min cbRead ctx.cbReadLeft
  if cbThisRead ≠ 0 ∧ cbThisRead = cbRead then
    match devRead core ctx.srcSpace ctx.CcpAddrSrc cbThisRead with
    | none => none
    | some bs =>
      some (bs, { ctx with cbReadLeft := ctx.cbReadLeft - cbThisRead,
                           CcpAddrSrc := ctx.CcpAddrSrc + cbThisRead })
  else none

/-- The reverse-write loop of `pspDevCcpXferCtxWrite`: the cursor is
decremented before each single-byte write, so the bytes land in reverse
order below the initial cursor. Returns the written core and the final
cursor. (On a mid-loop failure the C code keeps the partial writes but
reports `-1`; the `Option` model drops the partially written state,
which no theorem below observes.) -/
def ccpWriteRevLoop (core : DEVCORE) (sp : CCPMEMSPACE) :
    Nat → Bytes → Option (DEVCORE × Nat)
  | addr, [] => some (core, addr)
  | addr, b :: bs =>
    match devWrite core sp (addr - 1) [b] with
    | none => none
    | some core' => ccpWriteRevLoop core' sp (addr - 1) bs

/-- `pspDevCcpXferCtxWrite` with a null `pcbWritten`: the clamped length
must be non-zero and equal to the request. A forward write advances the
cursor and shrinks the budget; a reverse write walks the cursor down
byte by byte (and, as in the source, leaves `cbWriteLeft` untouched). -/
def pspDevCcpXferCtxWrite (core : DEVCORE) (ctx : CCPXFERCTX) (bs : Bytes) :
    Option (DEVCORE × CCPXFERCTX) :=
  let cbThisWrite := min bs.length ctx.cbWriteLeft
  if cbThisWrite ≠ 0 ∧ cbThisWrite = bs.length then
    if ctx.fWriteRev then
      match ccpWriteRevLoop core ctx.dstSpace ctx.CcpAddrDst bs with
      | none => none
      | some (core', addr') => some (core', { ctx with CcpAddrDst := addr' })
    else
      match devWrite core ctx.dstSpace ctx.CcpAddrDst bs with
      | none => none
      | some core' =>
        some (core', { ctx with cbWriteLeft := ctx.cbWriteLeft - cbThisWrite,
                                CcpAddrDst := ctx.CcpAddrDst + cbThisWrite })
  else none

/-- `pspDevCcpCopyFromLsb`: bounds-checked copy out of the LSB. -/
def pspDevCcpCopyFromLsb (core : DEVCORE) (CcpAddrLsb cb : Nat) : Option Bytes :=
  if CcpAddrLsb < 4096 ∧ CcpAddrLsb + cb ≤ 4096 then
    some ((core.Lsb.drop CcpAddrLsb).take cb)
  else none

/-- `pspDevCcpKeyCopyFromReq`: fetch `cbKey` bytes of key material from
the request's key address, from local memory or from the LSB. For any
other key mem-type the C code returns success with the caller's buffer
untouched (uninitialised stack bytes); the model returns zeros there,
and every theorem below restricts to the two real arms. -/
def pspDevCcpKeyCopyFromReq (core : DEVCORE) (pReq : CCP5REQ) (cbKey : Nat) : Option Bytes :=
  let CcpAddrKey := CCP_ADDR_CREATE_FROM_HI_LO pReq.u16AddrKeyHigh pReq.u32AddrKeyLow
  if CCP_V5_MEM_TYPE_GET pReq.u16KeyMemType = CCP_V5_MEM_TYPE_LOCAL then
    some (pspDevCcpXferMemLocalRead core.localMem CcpAddrKey cbKey)
  else if CCP_V5_MEM_TYPE_GET pReq.u16KeyMemType = CCP_V5_MEM_TYPE_SB then
    if CcpAddrKey < 4096 ∧ CcpAddrKey + cbKey ≤ 4096 then
      some ((core.Lsb.drop CcpAddrKey).take cbKey)
    else none
  else
    some (List.replicate cbKey 0)

/-! ## SHA-256 and SHA-384 (FIPS 180-4)

The device delegates hashing to OpenSSL (`EVP_sha256`/`EVP_sha384`);
the primitives are implemented here so that the SHA engine's model is
executable. -/

/-- Rotate a 32-bit word right by `n`. -/
def rotr32 (x n : Nat) : Nat := u32 ((x >>> n) ||| (x <<< (32 - n)))

/-- Truncation to 64 bits. -/
def u64 (x : Nat) : Nat := x % 18446744073709551616

/-- Rotate a 64-bit word right by `n`. -/
def rotr64 (x n : Nat) : Nat := u64 ((x >>> n) ||| (x <<< (64 - n)))

/-- SHA-2 `Ch` on `w`-bit words (`w` = 32 or 64, mask passed in). -/
def shaCh (mask x y z : Nat) : Nat := (x &&& y) ^^^ ((mask ^^^ x) &&& z)

/-- SHA-2 `Maj`. -/
def shaMaj (x y z : Nat) : Nat := (x &&& y) ^^^ (x &&& z) ^^^ (y &&& z)

/-- Big-endian byte encoding, most significant first. -/
def beBytes (n v : Nat) : Bytes := (List.range n).map fun i => (v >>> (8 * (n - 1 - i))) % 256

/-- Group a byte list into big-endian `w`-byte words. -/
def wordsBE (w : Nat) (bs : Bytes) : List Nat :=
  (List.range (bs.length / w)).map fun i =>
    (List.range w).foldl (fun acc j => acc * 256 + bs.getD (i * w + j) 0 % 256) 0

/-- Split a list into chunks of `sz` elements. -/
def chunksOf (sz : Nat) (bs : Bytes) : List Bytes :=
  if bs = [] ∨ sz = 0 then []
  else bs.take sz :: chunksOf sz (bs.drop sz)
termination_by bs.length
decreasing_by
  rename_i h
  push_neg at h
  have h1 : bs.length ≠ 0 := fun hl => h.1 (List.eq_nil_of_length_eq_zero hl)
  have h2 : sz ≠ 0 := h.2
  simp only [List.length_drop]
  omega

/-- SHA-2 message padding: `0x80`, zeros, then the bit length as a
big-endian field of `lenBytes` bytes, to a multiple of `blockSize`. -/
def shaPad (blockSize lenBytes : Nat) (msg : Bytes) : Bytes :=
  let L := msg.length
  let zeros := (blockSize - (L + 1 + lenBytes) % blockSize) % blockSize
  msg ++ 0x80 :: List.replicate zeros 0 ++ beBytes lenBytes (8 * L)

/-- Constants 0..11 of `K256`. -/
def K256seg0 : List Nat := [
  0x428a2f98, 0x71374491, 0xb5c0fbcf, 0xe9b5dba5,
  0x3956c25b, 0x59f111f1, 0x923f82a4, 0xab1c5ed5,
  0xd807aa98, 0x12835b01, 0x243185be, 0x550c7dc3]

/-- Constants 12..23 of `K256`. -/
def K256seg1 : List Nat := [
  0x72be5d74, 0x80deb1fe, 0x9bdc06a7, 0xc19bf174,
  0xe49b69c1, 0xefbe4786, 0x0fc19dc6, 0x240ca1cc,
  0x2de92c6f, 0x4a7484aa, 0x5cb0a9dc, 0x76f988da]

/-- Constants 24..35 of `K256`. -/
def K256seg2 : List Nat := [
  0x983e5152, 0xa831c66d, 0xb00327c8, 0xbf597fc7,
  0xc6e00bf3, 0xd5a79147, 0x06ca6351, 0x14292967,
  0x27b70a85, 0x2e1b2138, 0x4d2c6dfc, 0x53380d13]

/-- Constants 36..47 of `K256`. -/
def K256seg3 : List Nat := [
  0x650a7354, 0x766a0abb, 0x81c2c92e, 0x92722c85,
  0xa2bfe8a1, 0xa81a664b, 0xc24b8b70, 0xc76c51a3,
  0xd192e819, 0xd6990624, 0xf40e3585, 0x106aa070]

/-- Constants 48..59 of `K256`. -/
def K256seg4 : List Nat := [
  0x19a4c116, 0x1e376c08, 0x2748774c, 0x34b0bcb5,
  0x391c0cb3, 0x4ed8aa4a, 0x5b9cca4f, 0x682e6ff3,
  0x748f82ee, 0x78a5636f, 0x84c87814, 0x8cc70208]

/-- Constants 60..63 of `K256`. -/
def K256seg5 : List Nat := [
  0x90befffa, 0xa4506ceb, 0xbef9a3f7, 0xc67178f2]

/-- The SHA-256 round constants. -/
def K256 : List Nat :=
  K256seg0 ++ K256seg1 ++ K256seg2 ++ K256seg3 ++ K256seg4 ++ K256seg5

/-- The SHA-256 initial hash value. -/
def H0_256 : List Nat := [
  0x6a09e667, 0xbb67ae85, 0x3c6ef372, 0xa54ff53a,
  0x510e527f, 0x9b05688c, 0x1f83d9ab, 0x5be0cd19]

/-- Constants 0..11 of `K512`. -/
def K512seg0 : List Nat := [
  0x428a2f98d728ae22, 0x7137449123ef65cd, 0xb5c0fbcfec4d3b2f, 0xe9b5dba58189dbbc,
  0x3956c25bf348b538, 0x59f111f1b605d019, 0x923f82a4af194f9b, 0xab1c5ed5da6d8118,
  0xd807aa98a3030242, 0x12835b0145706fbe, 0x243185be4ee4b28c, 0x550c7dc3d5ffb4e2]

/-- Constants 12..23 of `K512`. -/
def K512seg1 : List Nat := [
  0x72be5d74f27b896f, 0x80deb1fe3b1696b1, 0x9bdc06a725c71235, 0xc19bf174cf692694,
  0xe49b69c19ef14ad2, 0xefbe4786384f25e3, 0x0fc19dc68b8cd5b5, 0x240ca1cc77ac9c65,
  0x2de92c6f592b0275, 0x4a7484aa6ea6e483, 0x5cb0a9dcbd41fbd4, 0x76f988da831153b5]

/-- Constants 24..35 of `K512`. -/
def K512seg2 : List Nat := [
  0x983e5152ee66dfab, 0xa831c66d2db43210, 0xb00327c898fb213f, 0xbf597fc7beef0ee4,
  0xc6e00bf33da88fc2, 0xd5a79147930aa725, 0x06ca6351e003826f, 0x142929670a0e6e70,
  0x27b70a8546d22ffc, 0x2e1b21385c26c926, 0x4d2c6dfc5ac42aed, 0x53380d139d95b3df]

/-- Constants 36..47 of `K512`. -/
def K512seg3 : List Nat := [
  0x650a73548baf63de, 0x766a0abb3c77b2a8, 0x81c2c92e47edaee6, 0x92722c851482353b,
  0xa2bfe8a14cf10364, 0xa81a664bbc423001, 0xc24b8b70d0f89791, 0xc76c51a30654be30,
  0xd192e819d6ef5218, 0xd69906245565a910, 0xf40e35855771202a, 0x106aa07032bbd1b8]

/-- Constants 48..59 of `K512`. -/
def K512seg4 : List Nat := [
  0x19a4c116b8d2d0c8, 0x1e376c085141ab53, 0x2748774cdf8eeb99, 0x34b0bcb5e19b48a8,
  0x391c0cb3c5c95a63, 0x4ed8aa4ae3418acb, 0x5b9cca4f7763e373, 0x682e6ff3d6b2b8a3,
  0x748f82ee5defb2fc, 0x78a5636f43172f60, 0x84c87814a1f0ab72, 0x8cc702081a6439ec]

/-- Constants 60..71 of `K512`. -/
def K512seg5 : List Nat := [
  0x90befffa23631e28, 0xa4506cebde82bde9, 0xbef9a3f7b2c67915, 0xc67178f2e372532b,
  0xca273eceea26619c, 0xd186b8c721c0c207, 0xeada7dd6cde0eb1e, 0xf57d4f7fee6ed178,
  0x06f067aa72176fba, 0x0a637dc5a2c898a6, 0x113f9804bef90dae, 0x1b710b35131c471b]

/-- Constants 72..79 of `K512`. -/
def K512seg6 : List Nat := [
  0x28db77f523047d84, 0x32caab7b40c72493, 0x3c9ebe0a15c9bebc, 0x431d67c49c100d4c,
  0x4cc5d4becb3e42b6, 0x597f299cfc657e2a, 0x5fcb6fab3ad6faec, 0x6c44198c4a475817]

/-- The SHA-384/SHA-512 round constants. -/
def K512 : List Nat :=
  K512seg0 ++ K512seg1 ++ K512seg2 ++ K512seg3 ++ K512seg4 ++ K512seg5 ++ K512seg6

/-- The SHA-384 initial hash value. -/
def H0_384 : List Nat := [
  0xcbbb9d5dc1059ed8, 0x629a292a367cd507, 0x9159015a3070dd17, 0x152fecd8f70e5939,
  0x67332667ffc00b31, 0x8eb44a8768581511, 0xdb0c2e0d64f98fa7, 0x47b5481dbefa4fa4]

/-- Extend a 16-word SHA-256 message schedule to 64 words. -/
def shaSchedule256 : Nat → List Nat → List Nat
  | 0, w => w
  | n + 1, w =>
    let t := u32 ((rotr32 (w.getD (w.length - 2) 0) 17 ^^^ rotr32 (w.getD (w.length - 2) 0) 19 ^^^
                    (w.getD (w.length - 2) 0 >>> 10)) +
                  w.getD (w.length - 7) 0 +
                  (rotr32 (w.getD (w.length - 15) 0) 7 ^^^ rotr32 (w.getD (w.length - 15) 0) 18 ^^^
                    (w.getD (w.length - 15) 0 >>> 3)) +
                  w.getD (w.length - 16) 0)
    shaSchedule256 n (w ++ [t])

/-- One SHA-256 round. -/
def shaRound256 (st : List Nat) (kw : Nat × Nat) : List Nat :=
  match st with
  | [a, b, c, d, e, f, g, h] =>
    let t1 := u32 (h + (rotr32 e 6 ^^^ rotr32 e 11 ^^^ rotr32 e 25) +
                   shaCh 0xffffffff e f g + kw.1 + kw.2)
    let t2 := u32 ((rotr32 a 2 ^^^ rotr32 a 13 ^^^ rotr32 a 22) + shaMaj a b c)
    [u32 (t1 + t2), a, b, c, u32 (d + t1), e, f, g]
  | st => st

/-- Compress one 64-byte SHA-256 block into the hash state. -/
def shaCompress256 (h : List Nat) (block : Bytes) : List Nat :=
  let w := shaSchedule256 48 (wordsBE 4 block)
  let st := (K256.zip w).foldl shaRound256 h
  (h.zip st).map fun p => u32 (p.1 + p.2)

/-- SHA-256 of a byte message (32-byte digest). -/
def sha256 (msg : Bytes) : Bytes :=
  let H := (chunksOf 64 (shaPad 64 8 msg)).foldl shaCompress256 H0_256
  (H.map (beBytes 4)).flatten

/-- Extend a 16-word SHA-512 message schedule to 80 words. -/
def shaSchedule512 : Nat → List Nat → List Nat
  | 0, w => w
  | n + 1, w =>
    let t := u64 ((rotr64 (w.getD (w.length - 2) 0) 19 ^^^ rotr64 (w.getD (w.length - 2) 0) 61 ^^^
                    (w.getD (w.length - 2) 0 >>> 6)) +
                  w.getD (w.length - 7) 0 +
                  (rotr64 (w.getD (w.length - 15) 0) 1 ^^^ rotr64 (w.getD (w.length - 15) 0) 8 ^^^
                    (w.getD (w.length - 15) 0 >>> 7)) +
                  w.getD (w.length - 16) 0)
    shaSchedule512 n (w ++ [t])

/-- One SHA-512 round. -/
def shaRound512 (st : List Nat) (kw : Nat × Nat) : List Nat :=
  match st with
  | [a, b, c, d, e, f, g, h] =>
    let t1 := u64 (h + (rotr64 e 14 ^^^ rotr64 e 18 ^^^ rotr64 e 41) +
                   shaCh 0xffffffffffffffff e f g + kw.1 + kw.2)
    let t2 := u64 ((rotr64 a 28 ^^^ rotr64 a 34 ^^^ rotr64 a 39) + shaMaj a b c)
    [u64 (t1 + t2), a, b, c, u64 (d + t1), e, f, g]
  | st => st

/-- Compress one 128-byte SHA-512 block into the hash state. -/
def shaCompress512 (h : List Nat) (block : Bytes) : List Nat :=
  let w := shaSchedule512 64 (wordsBE 8 block)
  let st := (K512.zip w).foldl shaRound512 h
  (h.zip st).map fun p => u64 (p.1 + p.2)

/-- SHA-384 of a byte message (48-byte digest: the first six 64-bit
words of the SHA-512 state seeded with the SHA-384 IV). -/
def sha384 (msg : Bytes) : Bytes :=
  let H := (chunksOf 128 (shaPad 128 16 msg)).foldl shaCompress512 H0_384
  ((H.take 6).map (beBytes 8)).flatten

/-! ## The PASSTHRU engine -/

/-- The streaming loop of `pspDevCcpReqPassthruProcess`: move the
remaining bytes through the transfer context in chunks of at most 4096
bytes, reading each chunk before writing it. -/
def ccpPassthruLoop (core : DEVCORE) (ctx : CCPXFERCTX) (cbLeft : Nat) :
    Option (DEVCORE × CCPXFERCTX) :=
  if cbLeft = 0 then some (core, ctx)
  else
    let cbThisProc := min cbLeft 4096
    match pspDevCcpXferCtxRead core ctx cbThisProc with
    | none => none
    | some (bs, ctx1) =>
      match pspDevCcpXferCtxWrite core ctx1 bs with
      | none => none
      | some (core2, ctx2) => ccpPassthruLoop core2 ctx2 (cbLeft - cbThisProc)
termination_by cbLeft
decreasing_by omega

/-- `pspDevCcpReqPassthruProcess`: only `bitwise = NOOP`, `reflect = 0`
and `byteswap ∈ {NOOP, 256BIT with cbSrc == 32}` are implemented; the
256-bit byteswap is realised by a reverse-writing transfer context. -/
def pspDevCcpReqPassthruProcess (core : DEVCORE) (pReq : CCP5REQ) (uFunc : Nat) :
    Option DEVCORE :=
  let uByteSwap := CCP_V5_ENGINE_PASSTHRU_BYTESWAP_GET uFunc
  let uBitwise := CCP_V5_ENGINE_PASSTHRU_BITWISE_GET uFunc
  let uReflect := CCP_V5_ENGINE_PASSTHRU_REFLECT_GET uFunc
  if uBitwise = CCP_V5_ENGINE_PASSTHRU_BITWISE_NOOP ∧
      (uByteSwap = CCP_V5_ENGINE_PASSTHRU_BYTESWAP_NOOP ∨
        (uByteSwap = CCP_V5_ENGINE_PASSTHRU_BYTESWAP_256BIT ∧ pReq.cbSrc = 32)) ∧
      uReflect = 0 then
    match pspDevCcpXferCtxInit core pReq false pReq.cbSrc
        (uByteSwap = CCP_V5_ENGINE_PASSTHRU_BYTESWAP_256BIT) with
    | none => none
    | some (core1, ctx) =>
      match ccpPassthruLoop core1 ctx pReq.cbSrc with
      | none => none
      | some (core2, _) => some core2
  else none

/-! ## The SHA engine -/

/-- The update loop of `pspDevCcpReqShaProcess`: read the source in
chunks of at most 256 bytes, feeding each chunk to the digest context
(`EVP_DigestUpdate` is modelled by appending to the accumulator). -/
def ccpShaUpdateLoop (core : DEVCORE) (ctx : CCPXFERCTX) (acc : Bytes) (cbLeft : Nat) :
    Option (Bytes × CCPXFERCTX) :=
  if cbLeft = 0 then some (acc, ctx)
  else
    let cbThisProc := min cbLeft 256
    match pspDevCcpXferCtxRead core ctx cbThisProc with
    | none => none
    | some (bs, ctx1) => ccpShaUpdateLoop core ctx1 (acc ++ bs) (cbLeft - cbThisProc)
termination_by cbLeft
decreasing_by omega

/-- Finalise a digest context (`EVP_DigestFinal_ex`): the digest of the
accumulated message for the SHA type the context was created with. -/
def ccpShaFinal (t : Nat) (acc : Bytes) : Bytes :=
  if t = CCP_V5_ENGINE_SHA_TYPE_256 then sha256 acc else sha384 acc

/-- `pspDevCcpReqShaProcess`: only SHA-256 and SHA-384 are implemented.
A missing digest context is created (for the type of the current
descriptor); each descriptor streams `cbSrc` source bytes into the
context; on `eom` the digest is finalised, written to the destination
LSB slot through the reverse-writing transfer context, and the context
is freed. The C code finalises into an `alloca(cbDigest)` buffer and
writes `cbDigest` bytes of it, where `cbDigest` comes from the current
descriptor's SHA type; if that type differs from the context's the
excess bytes are uninitialised stack memory, modelled as zeros. -/
def pspDevCcpReqShaProcess (core : DEVCORE) (pReq : CCP5REQ) (uFunc : Nat)
    (fInit fEom : Bool) : Option DEVCORE :=
  let uShaType := CCP_V5_ENGINE_SHA_TYPE_GET uFunc
  if uShaType = CCP_V5_ENGINE_SHA_TYPE_256 ∨ uShaType = CCP_V5_ENGINE_SHA_TYPE_384 then
    let cbDigest := if uShaType = CCP_V5_ENGINE_SHA_TYPE_256 then 32 else 48
    match pspDevCcpXferCtxInit core pReq true cbDigest true with
    | none => none
    | some (core1, ctx) =>
      let shaCtx :=
        match core1.pOsslShaCtx with
        | none => { shaType := uShaType, acc := [] : SHACTX }
        | some c => c
      match ccpShaUpdateLoop core1 ctx shaCtx.acc pReq.cbSrc with
      | none => none
      | some (acc', ctx') =>
        let core2 := { core1 with pOsslShaCtx := some { shaCtx with acc := acc' } }
        if fEom then
          let digest := (ccpShaFinal shaCtx.shaType acc' ++ List.replicate cbDigest 0).take cbDigest
          match pspDevCcpXferCtxWrite core2 ctx' digest with
          | none => none
          | some (core3, _) => some { core3 with pOsslShaCtx := none }
        else some core2
  else none

/-! ## The RSA engine -/

/-- `pspDevCcpReqRsaProcess`: only `mode == 0` with
`sz ∈ {256, 512}` and `cbSrc == 2·sz` is implemented. The key area
provides the exponent, of which only `sz/2` little-endian bytes are
used (`BN_lebin2bn(abExp, uSz / 2)`); the source holds the
little-endian modulus (`cbSrc/2` bytes) followed by the message, which
is byte-reversed in place before the exponentiation and whose result is
byte-reversed again before being written back.

Modelled from the spec: `RSA_public_encrypt(..., RSA_NO_PADDING)` is
OpenSSL code; per the spec it computes `message ^ exponent mod modulus`
with no padding on big-endian buffers. It yields a result of exactly
the modulus size (the source checks `cbEnc == uSz`) and fails when the
input length does not match the modulus size or the message is not
below the modulus. -/
def pspDevCcpReqRsaProcess (core : DEVCORE) (pReq : CCP5REQ) (uFunc : Nat) :
    Option DEVCORE :=
  let uSz := CCP_V5_ENGINE_RSA_SZ_GET uFunc
  let uMode := CCP_V5_ENGINE_RSA_MODE_GET uFunc
  if uMode = 0 ∧ ((uSz = 256 ∧ pReq.cbSrc = 512) ∨ (uSz = 512 ∧ pReq.cbSrc = 1024)) then
    match pspDevCcpKeyCopyFromReq core pReq uSz with
    | none => none
    | some abExp =>
      let e := natFromLE (abExp.take (uSz / 2))
      match pspDevCcpXferCtxInit core pReq false uSz false with
      | none => none
      | some (core1, ctx) =>
        match pspDevCcpXferCtxRead core1 ctx pReq.cbSrc with
        | none => none
        | some (abData, ctx1) =>
          let n := natFromLE (abData.take (pReq.cbSrc / 2))
          let msgBE := (abData.drop uSz).reverse
          let m := natFromBE msgBE
          if 256 ^ (uSz - 1) ≤ n ∧ n < 256 ^ uSz ∧ m < n then
            let abResult := natToBE uSz (m ^ e % n)
            match pspDevCcpXferCtxWrite core1 ctx1 abResult.reverse with
            | none => none
            | some (core2, _) => some core2
          else none
  else none

/-! ## The request dispatcher -/

/-- The type of an engine request processor acting on the device core
(engines never touch the queue registers). -/
abbrev EngineFn := DEVCORE → CCP5REQ → Option DEVCORE

/-- Decode a raw 32-byte descriptor into a `CCP5REQ` (all fields are
little-endian, as read by `PSPEmuIoMgrPspAddrRead` into the packed C
struct). -/
def ccpDecodeReq (bs : Bytes) : CCP5REQ :=
  { u32Dw0 := natFromLE (bs.take 4)
    cbSrc := natFromLE ((bs.drop 4).take 4)
    u32AddrSrcLow := natFromLE ((bs.drop 8).take 4)
    u16AddrSrcHigh := natFromLE ((bs.drop 12).take 2)
    u16SrcMemType := natFromLE ((bs.drop 14).take 2)
    u32AddrDstLow := natFromLE ((bs.drop 16).take 4)
    u16AddrDstHigh := natFromLE ((bs.drop 20).take 2)
    u16DstMemType := natFromLE ((bs.drop 22).take 2)
    u32AddrKeyLow := natFromLE ((bs.drop 24).take 4)
    u16AddrKeyHigh := natFromLE ((bs.drop 28).take 2)
    u16KeyMemType := natFromLE ((bs.drop 30).take 2) }

/-- `pspDevCcpReqProcess`: dispatch on the engine field of dword 0.
The AES, zlib-decompress and ECC arms delegate to external libraries
(OpenSSL EVP / zlib) and are taken as parameters; `XTS_AES_128`,
`DES3` and out-of-range engines fall through to the failing default. -/
def pspDevCcpReqProcess (hAes hZlib hEcc : EngineFn) (core : DEVCORE) (pReq : CCP5REQ) :
    Option DEVCORE :=
  let uEngine := CCP_V5_ENGINE_GET pReq.u32Dw0
  let uFunction := CCP_V5_ENGINE_FUNC_GET pReq.u32Dw0
  let fInit := CCP_V5_ENGINE_INIT_GET pReq.u32Dw0
  let fEom := CCP_V5_ENGINE_EOM_GET pReq.u32Dw0
  if uEngine = CCP_V5_ENGINE_PASSTHRU then pspDevCcpReqPassthruProcess core pReq uFunction
  else if uEngine = CCP_V5_ENGINE_SHA then pspDevCcpReqShaProcess core pReq uFunction fInit fEom
  else if uEngine = CCP_V5_ENGINE_AES then hAes core pReq
  else if uEngine = CCP_V5_ENGINE_ZLIB_DECOMP then hZlib core pReq
  else if uEngine = CCP_V5_ENGINE_RSA then pspDevCcpReqRsaProcess core pReq uFunction
  else if uEngine = CCP_V5_ENGINE_ECC then hEcc core pReq
  else none

/-! ## The queue executor -/

/-- The loop state of the drain loop in `pspDevCcpQueueRunMaybe`: the
core, the in-place updated status and interrupt-status registers, the
local head cursor, and whether the loop was left by `break`. -/
structure QDRAINST where
  core : DEVCORE
  u32RegSts : Nat
  u32RegIsts : Nat
  u32ReqHead : Nat
  stopped : Bool

/-- Fetch the 32-byte descriptor at the head cursor from guest local
memory (the `PSPEmuIoMgrPspAddrRead` of the drain loop; the external
I/O manager is modelled as always succeeding). -/
def ccpFetchReq (core : DEVCORE) (head : Nat) : CCP5REQ :=
  ccpDecodeReq (pspDevCcpXferMemLocalRead core.localMem head 32)

/-- One iteration of the drain loop: process the descriptor at the head
cursor; on success record `SUCCESS` and the `COMPLETION` bit and
advance the head by 32 bytes; on failure record `ERROR`, set the
`ERROR` bit and stop (the C `break` fires *before* the
`u32ReqHead += sizeof(Req)`). -/
def ccpDrainStep (process : EngineFn) (s : QDRAINST) : QDRAINST :=
  match process s.core (ccpFetchReq s.core s.u32ReqHead) with
  | some core' =>
    { s with core := core'
             u32RegSts := CCP_V5_Q_REG_STATUS_SUCCESS
             u32RegIsts := s.u32RegIsts ||| CCP_V5_Q_REG_ISTS_COMPLETION
             u32ReqHead := u32 (s.u32ReqHead + 32) }
  | none =>
    { s with u32RegSts := CCP_V5_Q_REG_STATUS_ERROR
             u32RegIsts := s.u32RegIsts ||| CCP_V5_Q_REG_ISTS_ERROR
             stopped := true }

/-- Run up to `n` drain iterations, stopping once `stopped` is set. -/
def ccpDrainN (process : EngineFn) : Nat → QDRAINST → QDRAINST
  | 0, s => s
  | n + 1, s => if s.stopped then s else ccpDrainN process n (ccpDrainStep process s)

/-- `pspDevCcpQueueRunMaybe`: if the queue is enabled, clear `HALT`,
drain the ring from head to tail, write back the head cursor, set
`HALT` and `Q_STOP`, additionally set `Q_EMPTY` when the final head
equals the tail, and issue an interrupt-assert when an enabled
interrupt-status bit is pending. Returns the core, the queue and the
interrupt calls made.

The C loop iterates `while (tail != head)` with a 32-bit head cursor
stepping by 32; the model runs `(tail - head) / 32` iterations, which
coincides with the loop for the linear (no wraparound, 32-byte aligned)
rings the claims quantify over — the source never masks the head
against the ring size (see the `#if 0` wraparound note in the code). -/
def pspDevCcpQueueRunMaybe (process : EngineFn) (core : DEVCORE) (pQueue : CCPQUEUE) :
    DEVCORE × CCPQUEUE × List IrqCall :=
  if pQueue.fEnabled then
    let ctrlNoHalt := pQueue.u32RegCtrl &&& u32Not CCP_V5_Q_REG_CTRL_HALT
    let u32ReqTail := pQueue.u32RegReqTail
    let nSteps := (u32ReqTail - pQueue.u32RegReqHead) / 32
    let s := ccpDrainN process nSteps
      { core := core, u32RegSts := pQueue.u32RegSts, u32RegIsts := pQueue.u32RegIsts,
        u32ReqHead := pQueue.u32RegReqHead, stopped := false }
    let pQueue' : CCPQUEUE :=
      { pQueue with
          u32RegReqHead := s.u32ReqHead
          u32RegCtrl := ctrlNoHalt ||| CCP_V5_Q_REG_CTRL_HALT
          u32RegSts := s.u32RegSts
          u32RegIsts := (s.u32RegIsts ||| CCP_V5_Q_REG_ISTS_Q_STOP) |||
            (if u32ReqTail = s.u32ReqHead then CCP_V5_Q_REG_ISTS_Q_EMPTY else 0) }
    (s.core, pQueue',
      if pQueue'.u32RegIen &&& pQueue'.u32RegIsts ≠ 0 then
        [{ idPrio := 0, idDev := 0x15, fAssert := true }]
      else [])
  else (core, pQueue, [])

/-! ## The MMIO front-end -/

/-- The register-update switch of `pspDevCcpMmioQueueRegWrite` (without
the deferred queue run): a `CTRL` write latches the `RUN` bit into
`fEnabled` and stores the value with `RUN` cleared; an `ISTS` write
clears the interrupt-status bits that are set in the value and
deasserts the interrupt line when nothing enabled is pending anymore. -/
def pspDevCcpQueueRegWriteReg (pQueue : CCPQUEUE) (offRegQ u32Val : Nat) :
    CCPQUEUE × List IrqCall :=
  if offRegQ = CCP_V5_Q_REG_CTRL then
    let fEnabled :=
      if u32Val &&& CCP_V5_Q_REG_CTRL_RUN ≠ 0 ∧ ¬pQueue.fEnabled then true
      else if u32Val &&& CCP_V5_Q_REG_CTRL_RUN = 0 ∧ pQueue.fEnabled then false
      else pQueue.fEnabled
    ({ pQueue with fEnabled := fEnabled,
                   u32RegCtrl := u32Val &&& u32Not CCP_V5_Q_REG_CTRL_RUN }, [])
  else if offRegQ = CCP_V5_Q_REG_HEAD then ({ pQueue with u32RegReqHead := u32Val }, [])
  else if offRegQ = CCP_V5_Q_REG_TAIL then ({ pQueue with u32RegReqTail := u32Val }, [])
  else if offRegQ = CCP_V5_Q_REG_STATUS then ({ pQueue with u32RegSts := u32Val }, [])
  else if offRegQ = CCP_V5_Q_REG_IEN then ({ pQueue with u32RegIen := u32Val }, [])
  else if offRegQ = CCP_V5_Q_REG_ISTS then
    let ists' := pQueue.u32RegIsts &&& u32Not u32Val
    ({ pQueue with u32RegIsts := ists' },
      if pQueue.u32RegIen &&& ists' = 0 then
        [{ idPrio := 0, idDev := 0x15, fAssert := false }]
      else [])
  else (pQueue, [])

/-- `pspDevCcpMmioQueueRegWrite`: update the register, then run the
queue executor only when at least one interrupt is enabled afterwards
(the deferral policy). The final `Bool` records whether the executor
was invoked. -/
def pspDevCcpMmioQueueRegWrite (process : EngineFn) (core : DEVCORE) (pQueue : CCPQUEUE)
    (offRegQ u32Val : Nat) : DEVCORE × CCPQUEUE × List IrqCall × Bool :=
  let qc := pspDevCcpQueueRegWriteReg pQueue offRegQ u32Val
  if qc.1.u32RegIen ≠ 0 then
    let r := pspDevCcpQueueRunMaybe process core qc.1
    (r.1, r.2.1, qc.2 ++ r.2.2, true)
  else (core, qc.1, qc.2, false)

/-- The register-read switch of `pspDevCcpMmioQueueRegRead` (unknown
offsets read zero). -/
def pspDevCcpQueueRegReadReg (pQueue : CCPQUEUE) (offRegQ : Nat) : Nat :=
  if offRegQ = CCP_V5_Q_REG_CTRL then pQueue.u32RegCtrl
  else if offRegQ = CCP_V5_Q_REG_HEAD then pQueue.u32RegReqHead
  else if offRegQ = CCP_V5_Q_REG_TAIL then pQueue.u32RegReqTail
  else if offRegQ = CCP_V5_Q_REG_STATUS then pQueue.u32RegSts
  else if offRegQ = CCP_V5_Q_REG_IEN then pQueue.u32RegIen
  else if offRegQ = CCP_V5_Q_REG_ISTS then pQueue.u32RegIsts
  else 0

/-- `pspDevCcpMmioQueueRegRead`: read the register value, then always
run the queue executor (this is where deferred requests execute; see
the long comment in the source about the on-chip bootloader's stack).
The final `Bool` records that the executor was invoked. -/
def pspDevCcpMmioQueueRegRead (process : EngineFn) (core : DEVCORE) (pQueue : CCPQUEUE)
    (offRegQ : Nat) : Nat × DEVCORE × CCPQUEUE × List IrqCall × Bool :=
  let r := pspDevCcpQueueRunMaybe process core pQueue
  (pspDevCcpQueueRegReadReg pQueue offRegQ, r.1, r.2.1, r.2.2, true)

/-- Read a queue of the device state by index (the device has two). -/
def ccpGetQueue (st : PSPDEVCCP) (uQueue : Nat) : CCPQUEUE :=
  if uQueue = 0 then st.q0 else st.q1

/-- Replace a queue of the device state by index. -/
def ccpSetQueue (st : PSPDEVCCP) (uQueue : Nat) (q : CCPQUEUE) : PSPDEVCCP :=
  if uQueue = 0 then { st with q0 := q } else { st with q1 := q }

/-- Apply emitted interrupt calls to the latched state of the shared
interrupt line (the line follows the last `pfnIrqSet`). -/
def ccpApplyIrq (b : Bool) (calls : List IrqCall) : Bool :=
  calls.foldl (fun _ c => c.fAssert) b

/-- `pspDevCcpMmioRead`: only 32-bit accesses are served (anything else
is logged and leaves the caller's zero-initialised buffer untouched —
modelled from the spec: reads of other widths "log and return zero").
Offsets at or above the queue window route to the per-queue handler;
global registers and out-of-range queues read zero. Returns the new
state and the value delivered to the caller. -/
def pspDevCcpMmioRead (process : EngineFn) (st : PSPDEVCCP) (offMmio cbRead : Nat) :
    PSPDEVCCP × Nat :=
  if cbRead ≠ 4 then (st, 0)
  else if CCP_V5_Q_OFFSET ≤ offMmio then
    let offQ := offMmio - CCP_V5_Q_OFFSET
    let uQueue := offQ / CCP_V5_Q_SIZE
    let offRegQ := offQ % CCP_V5_Q_SIZE
    if uQueue < 2 then
      let r := pspDevCcpMmioQueueRegRead process st.core (ccpGetQueue st uQueue) offRegQ
      ({ ccpSetQueue st uQueue r.2.2.1 with
          core := r.2.1
          irqAsserted := ccpApplyIrq st.irqAsserted r.2.2.2.1 }, r.1)
    else (st, 0)
  else (st, 0)

/-- `pspDevCcpMmioWrite`: only 32-bit accesses are served (anything
else is logged and ignored); queue-window writes route to the per-queue
handler, global-register writes are ignored. -/
def pspDevCcpMmioWrite (process : EngineFn) (st : PSPDEVCCP) (offMmio cbWrite u32Val : Nat) :
    PSPDEVCCP :=
  if cbWrite ≠ 4 then st
  else if CCP_V5_Q_OFFSET ≤ offMmio then
    let offQ := offMmio - CCP_V5_Q_OFFSET
    let uQueue := offQ / CCP_V5_Q_SIZE
    let offRegQ := offQ % CCP_V5_Q_SIZE
    if uQueue < 2 then
      let r := pspDevCcpMmioQueueRegWrite process st.core (ccpGetQueue st uQueue) offRegQ u32Val
      { ccpSetQueue st uQueue r.2.1 with
        core := r.1
        irqAsserted := ccpApplyIrq st.irqAsserted r.2.2.1 }
    else st
  else st

/-! ## Device initialisation and MMIO traces -/

/-- The queue state established by `pspDevCcpInit`: `HALT` set,
status `SUCCESS`, interrupts disabled and clear, not enabled. -/
def ccpInitQueue : CCPQUEUE :=
  { u32RegCtrl := CCP_V5_Q_REG_CTRL_HALT
    u32RegReqTail := 0
    u32RegReqHead := 0
    u32RegSts := CCP_V5_Q_REG_STATUS_SUCCESS
    u32RegIen := 0
    u32RegIsts := 0
    fEnabled := false }

/-- The freshly initialised device (`pspDevCcpInit`), with an all-zero
LSB and local memory and the interrupt line deasserted. -/
def ccpInitState : PSPDEVCCP :=
  { q0 := ccpInitQueue
    q1 := ccpInitQueue
    core := { Lsb := List.replicate 4096 0, pOsslShaCtx := none,
              localMem := fun _ => 0, cbWrittenLast := 0 }
    irqAsserted := false }

/-- One guest MMIO access to the CCP queue window. -/
inductive CCPMMIOOP where
  | read (offMmio cbRead : Nat)
  | write (offMmio cbWrite u32Val : Nat)
deriving DecidableEq, Repr

/-- Run a list of guest MMIO accesses against the device (read results
are discarded; they do not influence the device state). -/
def ccpRunOps (process : EngineFn) (st : PSPDEVCCP) : List CCPMMIOOP → PSPDEVCCP
  | [] => st
  | .read off cb :: ops => ccpRunOps process (pspDevCcpMmioRead process st off cb).1 ops
  | .write off cb v :: ops => ccpRunOps process (pspDevCcpMmioWrite process st off cb v) ops

/-- A device state is reachable when some MMIO trace leads to it from
the freshly initialised device. -/
def ccpReachable (process : EngineFn) (st : PSPDEVCCP) : Prop :=
  ∃ ops : List CCPMMIOOP, ccpRunOps process ccpInitState ops = st

/-- The failing engine processor: used to instantiate the parametric
engine arms (AES/zlib/ECC) in concrete traces that never dispatch to
them. -/
def ccpEngineFail : EngineFn := fun _ _ => none

/-! ## Helper lemmas about buffer segments -/

theorem listWriteSeg_length (l src : List Nat) (a : Nat) (h : a + src.length ≤ l.length) :
    (listWriteSeg l a src).length = l.length := by
  simp only [listWriteSeg, List.length_append, List.length_take, List.length_drop]
  omega

theorem listWriteSeg_getElem_lt (l src : List Nat) (a j : Nat) (ha : a ≤ l.length)
    (hj : j < a) : (listWriteSeg l a src)[j]? = l[j]? := by
  unfold listWriteSeg
  rw [List.append_assoc, List.getElem?_append_left (by simp only [List.length_take]; omega),
    List.getElem?_take_of_lt hj]

theorem listWriteSeg_getElem_mid (l src : List Nat) (a i : Nat) (ha : a ≤ l.length)
    (hi : i < src.length) : (listWriteSeg l a src)[a + i]? = src[i]? := by
  unfold listWriteSeg
  rw [List.getElem?_append_left (by simp only [List.length_append, List.length_take]; omega),
    List.getElem?_append_right (by simp only [List.length_take]; omega)]
  congr 1
  simp only [List.length_take]
  omega

theorem listWriteSeg_getElem_ge (l src : List Nat) (a j : Nat) (ha : a ≤ l.length)
    (hj : a + src.length ≤ j) : (listWriteSeg l a src)[j]? = l[j]? := by
  unfold listWriteSeg
  rw [List.getElem?_append_right (by simp only [List.length_append, List.length_take]; omega),
    List.getElem?_drop]
  congr 1
  simp only [List.length_append, List.length_take]
  omega

/-! ## C4: LSB access bounds -/

/-- C4. For every LSB read or write with start address `a` and length
`n`: when `a ≥ 4096` or `a + n > 4096` the operation returns an error —
and, the write being rejected before any `memcpy`, the LSB is unchanged
(a rejected read trivially changes nothing: reads never modify the
LSB) — and otherwise it succeeds as a plain `memcpy` of `n` bytes at
offset `a`, leaving all bytes outside `[a, a+n)` unchanged. -/
theorem ccp_lsb_access_bounds (lsb src : List Nat) (a n : Nat)
    (hlen : lsb.length = 4096) (hsrc : src.length = n) :
    ((4096 ≤ a ∨ 4096 < a + n) →
      pspDevCcpXferMemLsbRead lsb a n = none ∧
      pspDevCcpXferMemLsbWrite lsb a src = none) ∧
    (a < 4096 → a + n ≤ 4096 →
      pspDevCcpXferMemLsbRead lsb a n = some ((lsb.drop a).take n) ∧
      ∃ lsb', pspDevCcpXferMemLsbWrite lsb a src = some lsb' ∧
        lsb'.length = 4096 ∧
        (∀ i, i < n → lsb'[a + i]? = src[i]?) ∧
        (∀ j, j < a ∨ a + n ≤ j → lsb'[j]? = lsb[j]?)) := by
  constructor
  · intro hout
    have hc : ¬(a < 4096 ∧ a + n ≤ 4096) := by rcases hout with h | h <;> omega
    constructor
    · simp only [pspDevCcpXferMemLsbRead, if_neg hc]
    · simp only [pspDevCcpXferMemLsbWrite, hsrc, if_neg hc]
  · intro h1 h2
    have hc : a < 4096 ∧ a + n ≤ 4096 := ⟨h1, h2⟩
    constructor
    · simp only [pspDevCcpXferMemLsbRead, if_pos hc]
    · refine ⟨listWriteSeg lsb a src, ?_, ?_, ?_, ?_⟩
      · simp only [pspDevCcpXferMemLsbWrite, hsrc, if_pos hc]
      · rw [listWriteSeg_length lsb src a (by omega)]; exact hlen
      · intro i hi
        exact listWriteSeg_getElem_mid lsb src a i (by omega) (by omega)
      · intro j hj
        rcases hj with hj | hj
        · exact listWriteSeg_getElem_lt lsb src a j (by omega) hj
        · exact listWriteSeg_getElem_ge lsb src a j (by omega) (by omega)

/-- Witness for C4 at a concrete input: `lsb` all zeros, `a = 4090`,
`n = 3`, `src = [1, 2, 3]` (both the rejected case at `a = 4095` and
the accepted case at `a = 4090` are exercised through the theorem). -/
theorem ccp_lsb_access_bounds_witness :
    (List.replicate 4096 0 : List Nat).length = 4096 ∧ ([1, 2, 3] : List Nat).length = 3 ∧
    (pspDevCcpXferMemLsbRead (List.replicate 4096 0) 4095 3 = none ∧
      pspDevCcpXferMemLsbWrite (List.replicate 4096 0) 4095 [1, 2, 3] = none) ∧
    pspDevCcpXferMemLsbRead (List.replicate 4096 0) 4090 3 =
      some (((List.replicate 4096 (0 : Nat)).drop 4090).take 3) := by
  refine ⟨List.length_replicate 4096 0, by simp only [List.length_cons, List.length_nil], ?_, ?_⟩
  · exact (ccp_lsb_access_bounds (List.replicate 4096 0) [1, 2, 3] 4095 3
      (List.length_replicate 4096 0) (by simp only [List.length_cons, List.length_nil])).1 (by omega)
  · exact (((ccp_lsb_access_bounds (List.replicate 4096 0) [1, 2, 3] 4090 3
      (List.length_replicate 4096 0) (by simp only [List.length_cons, List.length_nil])).2
      (by omega) (by omega)).1)

/-! ## C9: non-32-bit MMIO accesses -/

/-- C9. For every MMIO access to the queue window with an access width
other than 32 bits (4 bytes): the handler logs and returns before
dispatching, so a read delivers zero to the caller (the I/O manager's
buffer, zero-initialised, is never written), a write is ignored, and
the device state — every queue register, the core and the interrupt
line — is unchanged. -/
theorem ccp_mmio_width_reject (process : EngineFn) (st : PSPDEVCCP) (offMmio cb v : Nat)
    (h : cb ≠ 4) :
    pspDevCcpMmioRead process st offMmio cb = (st, 0) ∧
    pspDevCcpMmioWrite process st offMmio cb v = st := by
  constructor
  · simp only [pspDevCcpMmioRead, if_pos h]
  · simp only [pspDevCcpMmioWrite, if_pos h]

/-- Witness for C9: a 2-byte read and write at queue offset `0x1000` of
the fresh device. -/
theorem ccp_mmio_width_reject_witness :
    (2 : Nat) ≠ 4 ∧
    pspDevCcpMmioRead ccpEngineFail ccpInitState 0x1000 2 = (ccpInitState, 0) ∧
    pspDevCcpMmioWrite ccpEngineFail ccpInitState 0x1000 2 0xffffffff = ccpInitState := by
  refine ⟨by decide, ?_, ?_⟩
  · exact (ccp_mmio_width_reject ccpEngineFail ccpInitState 0x1000 2 0xffffffff (by decide)).1
  · exact (ccp_mmio_width_reject ccpEngineFail ccpInitState 0x1000 2 0xffffffff (by decide)).2

/-! ## C10: interrupt-status writes -/

/-- C10. For every 32-bit value `v` written to a queue's
interrupt-status register: exactly the bits set in `v` are cleared in
`interrupt-status` (bit `i` of the result is set iff it was set before
and is not set in `v`), every other register of the queue and its
enabled flag are unchanged (the other queue is not touched at all by a
single-queue register write), and the handler emits a deassert of the
shared IRQ line exactly when `interrupt-enable AND interrupt-status`
is zero after the clear. -/
theorem ccp_ists_write_clears (q : CCPQUEUE) (v : Nat)
    (hv : v < 4294967296) (hists : q.u32RegIsts < 4294967296) :
    (∀ i, ((pspDevCcpQueueRegWriteReg q CCP_V5_Q_REG_ISTS v).1.u32RegIsts).testBit i =
        ((q.u32RegIsts).testBit i ∧ ¬v.testBit i)) ∧
    (pspDevCcpQueueRegWriteReg q CCP_V5_Q_REG_ISTS v).1.u32RegCtrl = q.u32RegCtrl ∧
    (pspDevCcpQueueRegWriteReg q CCP_V5_Q_REG_ISTS v).1.u32RegReqHead = q.u32RegReqHead ∧
    (pspDevCcpQueueRegWriteReg q CCP_V5_Q_REG_ISTS v).1.u32RegReqTail = q.u32RegReqTail ∧
    (pspDevCcpQueueRegWriteReg q CCP_V5_Q_REG_ISTS v).1.u32RegSts = q.u32RegSts ∧
    (pspDevCcpQueueRegWriteReg q CCP_V5_Q_REG_ISTS v).1.u32RegIen = q.u32RegIen ∧
    (pspDevCcpQueueRegWriteReg q CCP_V5_Q_REG_ISTS v).1.fEnabled = q.fEnabled ∧
    (pspDevCcpQueueRegWriteReg q CCP_V5_Q_REG_ISTS v).2 =
      (if q.u32RegIen &&& (q.u32RegIsts &&& u32Not v) = 0 then
        [{ idPrio := 0, idDev := 0x15, fAssert := false }] else []) := by
  have hoff : pspDevCcpQueueRegWriteReg q CCP_V5_Q_REG_ISTS v =
      ({ q with u32RegIsts := q.u32RegIsts &&& u32Not v },
        if q.u32RegIen &&& (q.u32RegIsts &&& u32Not v) = 0 then
          [{ idPrio := 0, idDev := 0x15, fAssert := false }] else []) := by
    rfl
  rw [hoff]
  refine ⟨?_, rfl, rfl, rfl, rfl, rfl, rfl, rfl⟩
  intro i
  have hmask : (4294967295 : Nat) = 2 ^ 32 - 1 := by norm_num
  by_cases hi : i < 32
  · simp only [u32Not, Nat.testBit_land, Nat.testBit_xor, hmask,
      Nat.testBit_two_pow_sub_one]
    simp [hi]
  · have h1 : q.u32RegIsts.testBit i = false :=
      Nat.testBit_lt_two_pow (by calc q.u32RegIsts < 4294967296 := hists
                                   _ = 2 ^ 32 := by norm_num
                                   _ ≤ 2 ^ i := Nat.pow_le_pow_right (by omega) (by omega))
    have h2 : v.testBit i = false :=
      Nat.testBit_lt_two_pow (by calc v < 4294967296 := hv
                                   _ = 2 ^ 32 := by norm_num
                                   _ ≤ 2 ^ i := Nat.pow_le_pow_right (by omega) (by omega))
    simp [Nat.testBit_land, h1, h2]

/-- Witness for C10: clearing bit 1 (`ERROR`) of an interrupt-status
value `0b0110` with interrupts disabled. -/
theorem ccp_ists_write_clears_witness :
    (2 : Nat) < 4294967296 ∧
    ({ ccpInitQueue with u32RegIsts := 6 } : CCPQUEUE).u32RegIsts < 4294967296 ∧
    ((pspDevCcpQueueRegWriteReg { ccpInitQueue with u32RegIsts := 6 }
        CCP_V5_Q_REG_ISTS 2).1.u32RegIsts).testBit 1 =
      ((6 : Nat).testBit 1 ∧ ¬(2 : Nat).testBit 1) := by
  refine ⟨by decide, by decide, ?_⟩
  exact (ccp_ists_write_clears { ccpInitQueue with u32RegIsts := 6 } 2
    (by decide) (by decide)).1 1

/-! ## C2: the executor deferral policy -/

/-- C2. The queue executor is invoked on every 32-bit MMIO read of a
queue register (the returned flag of the read handler is always
`true`); it is invoked by a 32-bit queue register write exactly when
interrupt-enable is non-zero after the write; in particular a
control-register write with interrupt-enable zero never invokes the
executor directly. -/
theorem ccp_executor_deferral (process : EngineFn) (core : DEVCORE) (q : CCPQUEUE)
    (offRegQ u32Val : Nat) :
    (pspDevCcpMmioQueueRegRead process core q offRegQ).2.2.2.2 = true ∧
    ((pspDevCcpMmioQueueRegWrite process core q offRegQ u32Val).2.2.2 = true ↔
      (pspDevCcpQueueRegWriteReg q offRegQ u32Val).1.u32RegIen ≠ 0) ∧
    (offRegQ = CCP_V5_Q_REG_CTRL → q.u32RegIen = 0 →
      (pspDevCcpMmioQueueRegWrite process core q offRegQ u32Val).2.2.2 = false) := by
  refine ⟨rfl, ?_, ?_⟩
  · simp only [pspDevCcpMmioQueueRegWrite]
    split
    · rename_i h; simpa using h
    · rename_i h; simpa using h
  · intro hoff hien
    subst hoff
    have hq : (pspDevCcpQueueRegWriteReg q CCP_V5_Q_REG_CTRL u32Val).1.u32RegIen =
        q.u32RegIen := rfl
    simp only [pspDevCcpMmioQueueRegWrite, hq, hien]
    simp

/-- Witness for C2: a `CTRL` write on the fresh queue (interrupt-enable
zero) does not invoke the executor, while a register read does. -/
theorem ccp_executor_deferral_witness :
    (pspDevCcpMmioQueueRegRead ccpEngineFail ccpInitState.core ccpInitQueue
      CCP_V5_Q_REG_CTRL).2.2.2.2 = true ∧
    (pspDevCcpMmioQueueRegWrite ccpEngineFail ccpInitState.core ccpInitQueue
      CCP_V5_Q_REG_CTRL 1).2.2.2 = false := by
  refine ⟨?_, ?_⟩
  · exact (ccp_executor_deferral ccpEngineFail ccpInitState.core ccpInitQueue
      CCP_V5_Q_REG_CTRL 1).1
  · exact (ccp_executor_deferral ccpEngineFail ccpInitState.core ccpInitQueue
      CCP_V5_Q_REG_CTRL 1).2.2 rfl rfl

/-! ## Bitwise helper lemmas -/

theorem nat_or_ne_zero_of_right (a b : Nat) (hb : b ≠ 0) : a ||| b ≠ 0 := by
  intro h
  apply hb
  refine Nat.eq_of_testBit_eq fun i => ?_
  have hbit := congrArg (fun x => x.testBit i) h
  simp only [Nat.testBit_lor, Nat.zero_testBit] at hbit
  simp only [Nat.zero_testBit]
  exact (Bool.or_eq_false_iff.mp hbit).2

theorem nat_or_ne_zero_of_left (a b : Nat) (ha : a ≠ 0) : a ||| b ≠ 0 := by
  intro h
  apply ha
  refine Nat.eq_of_testBit_eq fun i => ?_
  have hbit := congrArg (fun x => x.testBit i) h
  simp only [Nat.testBit_lor, Nat.zero_testBit] at hbit
  simp only [Nat.zero_testBit]
  exact (Bool.or_eq_false_iff.mp hbit).1

theorem nat_and_or_vanish (x c m : Nat) (h : c &&& m = 0) : (x ||| c) &&& m = x &&& m := by
  rw [Nat.and_distrib_right, h, Nat.or_zero]

theorem nat_or_bit_and_ne_zero (x c : Nat) (hc : c &&& c = c) (h0 : c ≠ 0) :
    (x ||| c) &&& c ≠ 0 := by
  rw [Nat.and_distrib_right, hc]
  exact nat_or_ne_zero_of_right _ _ h0

/-! ## Drain-loop lemmas -/

/-- A drain step only ORs the `COMPLETION` or `ERROR` bit into the
interrupt-status accumulator, so the `Q_EMPTY` bit (mask 8) is
untouched. -/
theorem ccpDrainStep_ists_and_eight (p : EngineFn) (s : QDRAINST) :
    (ccpDrainStep p s).u32RegIsts &&& 8 = s.u32RegIsts &&& 8 := by
  rcases hp : p s.core (ccpFetchReq s.core s.u32ReqHead) with _ | core'
  · simp only [ccpDrainStep, hp]
    exact nat_and_or_vanish _ _ _ (by decide)
  · simp only [ccpDrainStep, hp]
    exact nat_and_or_vanish _ _ _ (by decide)

/-- The whole drain loop leaves the `Q_EMPTY` bit of the accumulator
unchanged. -/
theorem ccpDrainN_ists_and_eight (p : EngineFn) :
    ∀ (n : Nat) (s : QDRAINST), (ccpDrainN p n s).u32RegIsts &&& 8 = s.u32RegIsts &&& 8 := by
  intro n
  induction n with
  | zero => intro s; rfl
  | succ n ih =>
    intro s
    simp only [ccpDrainN]
    split
    · rfl
    · rw [ih, ccpDrainStep_ists_and_eight]

/-! ## C3: state after a queue executor run -/

/-- C3. For every run of the queue executor on an enabled queue, after
draining: the `HALT` bit is set in the control register, the `Q_STOP`
bit is set in interrupt-status, the `Q_EMPTY` bit is additionally set
when the final head equals the tail — and when they differ the
executor leaves the `Q_EMPTY` bit exactly as it was before — and the
run asserts the shared IRQ line towards device id `0x15` exactly when
some bit of `interrupt-enable AND interrupt-status` is set at that
point (when nothing is pending the run makes no interrupt call, so the
line keeps its previous latched state). -/
theorem ccp_queue_run_post (process : EngineFn) (core : DEVCORE) (q : CCPQUEUE)
    (hq : q.fEnabled = true) :
    (pspDevCcpQueueRunMaybe process core q).2.1.u32RegCtrl &&& CCP_V5_Q_REG_CTRL_HALT ≠ 0 ∧
    (pspDevCcpQueueRunMaybe process core q).2.1.u32RegIsts &&& CCP_V5_Q_REG_ISTS_Q_STOP ≠ 0 ∧
    ((pspDevCcpQueueRunMaybe process core q).2.1.u32RegReqHead =
        (pspDevCcpQueueRunMaybe process core q).2.1.u32RegReqTail →
      (pspDevCcpQueueRunMaybe process core q).2.1.u32RegIsts &&&
        CCP_V5_Q_REG_ISTS_Q_EMPTY ≠ 0) ∧
    ((pspDevCcpQueueRunMaybe process core q).2.1.u32RegReqHead ≠
        (pspDevCcpQueueRunMaybe process core q).2.1.u32RegReqTail →
      (pspDevCcpQueueRunMaybe process core q).2.1.u32RegIsts &&& CCP_V5_Q_REG_ISTS_Q_EMPTY =
        q.u32RegIsts &&& CCP_V5_Q_REG_ISTS_Q_EMPTY) ∧
    (pspDevCcpQueueRunMaybe process core q).2.2 =
      (if (pspDevCcpQueueRunMaybe process core q).2.1.u32RegIen &&&
          (pspDevCcpQueueRunMaybe process core q).2.1.u32RegIsts ≠ 0 then
        [{ idPrio := 0, idDev := 0x15, fAssert := true }] else []) := by
  unfold pspDevCcpQueueRunMaybe
  rw [hq]
  simp only [if_true]
  refine ⟨?_, ?_, ?_, ?_, ?_⟩
  · exact nat_or_bit_and_ne_zero _ _ (by decide) (by decide)
  · simp only [CCP_V5_Q_REG_ISTS_Q_STOP]
    rw [Nat.and_distrib_right]
    refine nat_or_ne_zero_of_left _ _ ?_
    exact nat_or_bit_and_ne_zero _ _ (by decide) (by decide)
  · intro h
    rw [if_pos h.symm]
    simp only [CCP_V5_Q_REG_ISTS_Q_EMPTY]
    exact nat_or_bit_and_ne_zero _ 8 (by decide) (by decide)
  · intro h
    rw [if_neg fun he => h he.symm]
    simp only [CCP_V5_Q_REG_ISTS_Q_EMPTY, Nat.or_zero]
    rw [nat_and_or_vanish _ _ _ (by decide)]
    exact ccpDrainN_ists_and_eight process _ _
  · trivial

/-- Witness for C3: running the fresh queue, enabled, with an empty
ring (`head = tail = 0`): `Q_STOP` ends up set. -/
theorem ccp_queue_run_post_witness :
    ({ ccpInitQueue with fEnabled := true } : CCPQUEUE).fEnabled = true ∧
    (pspDevCcpQueueRunMaybe ccpEngineFail ccpInitState.core
      { ccpInitQueue with fEnabled := true }).2.1.u32RegIsts &&&
      CCP_V5_Q_REG_ISTS_Q_STOP ≠ 0 := by
  exact ⟨rfl, (ccp_queue_run_post ccpEngineFail ccpInitState.core
    { ccpInitQueue with fEnabled := true } rfl).2.1⟩

/-- A stopped drain state absorbs any further iterations. -/
theorem ccpDrainN_stopped (p : EngineFn) (n : Nat) (s : QDRAINST) (h : s.stopped = true) :
    ccpDrainN p n s = s := by
  cases n with
  | zero => rfl
  | succ n => simp only [ccpDrainN, h, if_true]

/-- Drain iterations compose additively. -/
theorem ccpDrainN_add (p : EngineFn) (m n : Nat) :
    ∀ s : QDRAINST, ccpDrainN p (m + n) s = ccpDrainN p n (ccpDrainN p m s) := by
  induction m with
  | zero => intro s; rw [Nat.zero_add]; rfl
  | succ m ih =>
    intro s
    have hsucc : m + 1 + n = (m + n) + 1 := by omega
    rw [hsucc]
    simp only [ccpDrainN]
    by_cases hs : s.stopped
    · rw [if_pos hs, if_pos hs, ccpDrainN_stopped p n s hs]
    · rw [if_neg hs, if_neg hs, ih]

/-- As long as the drain loop has not stopped, each iteration advanced
the head cursor by exactly 32 bytes (stated below the 32-bit wrap
boundary, where the `% 2^32` is the identity). -/
theorem ccpDrainN_head (p : EngineFn) :
    ∀ (k : Nat) (s : QDRAINST), (ccpDrainN p k s).stopped = false →
      s.u32ReqHead + 32 * k < 4294967296 →
      (ccpDrainN p k s).u32ReqHead = s.u32ReqHead + 32 * k := by
  intro k
  induction k with
  | zero => intro s _ _; simp [ccpDrainN]
  | succ k ih =>
    intro s hstop hbound
    by_cases hs : s.stopped
    · rw [ccpDrainN_stopped p (k + 1) s hs] at hstop
      rw [hstop] at hs
      exact absurd hs (by simp)
    · simp only [ccpDrainN, if_neg hs] at hstop ⊢
      rcases hp : p s.core (ccpFetchReq s.core s.u32ReqHead) with _ | core'
      · have hstep : (ccpDrainStep p s).stopped = true := by
          simp only [ccpDrainStep, hp]
        rw [ccpDrainN_stopped p k _ hstep] at hstop
        rw [hstop] at hstep
        exact absurd hstep (by simp)
      · have hstep : ccpDrainStep p s =
            { s with core := core'
                     u32RegSts := CCP_V5_Q_REG_STATUS_SUCCESS
                     u32RegIsts := s.u32RegIsts ||| CCP_V5_Q_REG_ISTS_COMPLETION
                     u32ReqHead := u32 (s.u32ReqHead + 32) } := by
          simp only [ccpDrainStep, hp]
        rw [hstep] at hstop ⊢
        have hu : u32 (s.u32ReqHead + 32) = s.u32ReqHead + 32 :=
          Nat.mod_eq_of_lt (by omega)
        rw [ih _ hstop (by simp only [hu]; omega)]
        simp only [hu]
        omega

/-! ## C1: a failing descriptor stops the drain -/

/-- C1 (amended). For every queue drain on an enabled queue whose ring
holds a failing descriptor at index `k` (the first `k` iterations have
not stopped and processing the descriptor at `head + 32k` fails, with
the ring linear: head below tail, 32-byte aligned length, tail below
the 32-bit wrap): after the run the queue status is `ERROR`, the
`ERROR` bit is set in interrupt-status, and draining stopped
immediately — the failing iteration is absorbing, and the head
register is left *pointing at* the failing descriptor (`head + 32k`),
not advanced past it. -/
theorem ccp_queue_drain_failure (process : EngineFn) (core : DEVCORE) (q : CCPQUEUE)
    (k : Nat) (hen : q.fEnabled = true)
    (hbound : q.u32RegReqHead + 32 * k < q.u32RegReqTail)
    (htail : q.u32RegReqTail < 4294967296)
    (hal : 32 ∣ (q.u32RegReqTail - q.u32RegReqHead))
    (hpre : (ccpDrainN process k
      { core := core, u32RegSts := q.u32RegSts, u32RegIsts := q.u32RegIsts,
        u32ReqHead := q.u32RegReqHead, stopped := false }).stopped = false)
    (hfail : process
      (ccpDrainN process k
        { core := core, u32RegSts := q.u32RegSts, u32RegIsts := q.u32RegIsts,
          u32ReqHead := q.u32RegReqHead, stopped := false }).core
      (ccpFetchReq
        (ccpDrainN process k
          { core := core, u32RegSts := q.u32RegSts, u32RegIsts := q.u32RegIsts,
            u32ReqHead := q.u32RegReqHead, stopped := false }).core
        (q.u32RegReqHead + 32 * k)) = none) :
    (pspDevCcpQueueRunMaybe process core q).2.1.u32RegSts = CCP_V5_Q_REG_STATUS_ERROR ∧
    (pspDevCcpQueueRunMaybe process core q).2.1.u32RegIsts &&&
      CCP_V5_Q_REG_ISTS_ERROR ≠ 0 ∧
    (pspDevCcpQueueRunMaybe process core q).2.1.u32RegReqHead = q.u32RegReqHead + 32 * k ∧
    (∀ m, ccpDrainN process m
        (ccpDrainStep process
          (ccpDrainN process k
            { core := core, u32RegSts := q.u32RegSts, u32RegIsts := q.u32RegIsts,
              u32ReqHead := q.u32RegReqHead, stopped := false })) =
      ccpDrainStep process
        (ccpDrainN process k
          { core := core, u32RegSts := q.u32RegSts, u32RegIsts := q.u32RegIsts,
            u32ReqHead := q.u32RegReqHead, stopped := false })) := by
  set s0 : QDRAINST :=
    { core := core, u32RegSts := q.u32RegSts, u32RegIsts := q.u32RegIsts,
      u32ReqHead := q.u32RegReqHead, stopped := false } with hs0
  set sk := ccpDrainN process k s0 with hsk
  have hkhead : sk.u32ReqHead = q.u32RegReqHead + 32 * k :=
    ccpDrainN_head process k s0 hpre (by simp only [hs0]; omega)
  have hstep : ccpDrainStep process sk =
      { sk with u32RegSts := CCP_V5_Q_REG_STATUS_ERROR
                u32RegIsts := sk.u32RegIsts ||| CCP_V5_Q_REG_ISTS_ERROR
                stopped := true } := by
    simp only [ccpDrainStep, hkhead, hfail]
  have habs : ∀ m, ccpDrainN process m (ccpDrainStep process sk) = ccpDrainStep process sk := by
    intro m
    exact ccpDrainN_stopped process m _ (by rw [hstep])
  -- The run performs (tail - head) / 32 iterations; the failing one is
  -- the (k+1)-st and absorbs the rest.
  have hsteps : (q.u32RegReqTail - q.u32RegReqHead) / 32 =
      (k + 1) + ((q.u32RegReqTail - q.u32RegReqHead) / 32 - (k + 1)) := by
    rcases hal with ⟨d, hd⟩
    have : (q.u32RegReqTail - q.u32RegReqHead) / 32 = d := by omega
    omega
  have hdrain : ccpDrainN process ((q.u32RegReqTail - q.u32RegReqHead) / 32) s0 =
      ccpDrainStep process sk := by
    rw [hsteps, ccpDrainN_add]
    have hk1 : ccpDrainN process (k + 1) s0 = ccpDrainStep process sk := by
      have : k + 1 = k + 1 := rfl
      rw [ccpDrainN_add process k 1 s0, ← hsk]
      simp only [ccpDrainN]
      rw [if_neg (by rw [hpre]; simp)]
    rw [hk1, habs]
  have hrun : pspDevCcpQueueRunMaybe process core q =
      ((ccpDrainStep process sk).core,
        { q with
            u32RegReqHead := (ccpDrainStep process sk).u32ReqHead
            u32RegCtrl := (q.u32RegCtrl &&& u32Not CCP_V5_Q_REG_CTRL_HALT) |||
              CCP_V5_Q_REG_CTRL_HALT
            u32RegSts := (ccpDrainStep process sk).u32RegSts
            u32RegIsts := ((ccpDrainStep process sk).u32RegIsts |||
                CCP_V5_Q_REG_ISTS_Q_STOP) |||
              (if q.u32RegReqTail = (ccpDrainStep process sk).u32ReqHead then
                CCP_V5_Q_REG_ISTS_Q_EMPTY else 0) },
        if ({ q with
            u32RegReqHead := (ccpDrainStep process sk).u32ReqHead
            u32RegCtrl := (q.u32RegCtrl &&& u32Not CCP_V5_Q_REG_CTRL_HALT) |||
              CCP_V5_Q_REG_CTRL_HALT
            u32RegSts := (ccpDrainStep process sk).u32RegSts
            u32RegIsts := ((ccpDrainStep process sk).u32RegIsts |||
                CCP_V5_Q_REG_ISTS_Q_STOP) |||
              (if q.u32RegReqTail = (ccpDrainStep process sk).u32ReqHead then
                CCP_V5_Q_REG_ISTS_Q_EMPTY else 0) } : CCPQUEUE).u32RegIen &&&
            ({ q with
            u32RegReqHead := (ccpDrainStep process sk).u32ReqHead
            u32RegCtrl := (q.u32RegCtrl &&& u32Not CCP_V5_Q_REG_CTRL_HALT) |||
              CCP_V5_Q_REG_CTRL_HALT
            u32RegSts := (ccpDrainStep process sk).u32RegSts
            u32RegIsts := ((ccpDrainStep process sk).u32RegIsts |||
                CCP_V5_Q_REG_ISTS_Q_STOP) |||
              (if q.u32RegReqTail = (ccpDrainStep process sk).u32ReqHead then
                CCP_V5_Q_REG_ISTS_Q_EMPTY else 0) } : CCPQUEUE).u32RegIsts ≠ 0 then
          [{ idPrio := 0, idDev := 0x15, fAssert := true }] else []) := by
    unfold pspDevCcpQueueRunMaybe
    rw [hen]
    simp only [if_true, ← hs0, hdrain]
  refine ⟨?_, ?_, ?_, habs⟩
  · rw [hrun]
    simp only [hstep]
  · rw [hrun]
    simp only [hstep]
    by_cases he : q.u32RegReqTail = sk.u32ReqHead
    · rw [if_pos he,
        nat_and_or_vanish _ CCP_V5_Q_REG_ISTS_Q_EMPTY CCP_V5_Q_REG_ISTS_ERROR (by decide),
        nat_and_or_vanish _ CCP_V5_Q_REG_ISTS_Q_STOP CCP_V5_Q_REG_ISTS_ERROR (by decide)]
      exact nat_or_bit_and_ne_zero _ CCP_V5_Q_REG_ISTS_ERROR (by decide) (by decide)
    · rw [if_neg he, Nat.or_zero,
        nat_and_or_vanish _ CCP_V5_Q_REG_ISTS_Q_STOP CCP_V5_Q_REG_ISTS_ERROR (by decide)]
      exact nat_or_bit_and_ne_zero _ CCP_V5_Q_REG_ISTS_ERROR (by decide) (by decide)
  · rw [hrun]
    simp only [hstep, hkhead]

/-- A concrete device core whose guest memory holds one descriptor at
address 0 with engine `DES3` (dword 0 = `0x200000`), which the request
processor always rejects. -/
def ccpCexCore : DEVCORE :=
  { Lsb := List.replicate 4096 0, pOsslShaCtx := none,
    localMem := fun a => if a = 2 then 0x20 else 0, cbWrittenLast := 0 }

/-- An enabled queue whose ring spans exactly the one descriptor at
`[0, 32)`. -/
def ccpCexQueue : CCPQUEUE :=
  { ccpInitQueue with fEnabled := true, u32RegReqTail := 32 }

/-- The concrete request dispatcher (the parametric engine arms are
never reached by a `DES3` descriptor). -/
def ccpCexProcess : EngineFn := pspDevCcpReqProcess ccpEngineFail ccpEngineFail ccpEngineFail

/-- Counterexample to C1 as stated: the descriptor at head `0` fails,
the queue status becomes `ERROR`, but the head register ends up still
at `0` — the failing descriptor has *not* been consumed; it is the
claimed `0 + 32` that is wrong. -/
theorem ccp_queue_drain_failure_cex :
    ccpCexProcess ccpCexCore (ccpFetchReq ccpCexCore 0) = none ∧
    (pspDevCcpQueueRunMaybe ccpCexProcess ccpCexCore ccpCexQueue).2.1.u32RegSts =
      CCP_V5_Q_REG_STATUS_ERROR ∧
    (pspDevCcpQueueRunMaybe ccpCexProcess ccpCexCore ccpCexQueue).2.1.u32RegReqHead = 0 ∧
    (pspDevCcpQueueRunMaybe ccpCexProcess ccpCexCore ccpCexQueue).2.1.u32RegReqHead ≠
      0 + 32 := by
  refine ⟨rfl, rfl, rfl, by decide⟩

/-- Witness for the amended C1 at the concrete failing ring above
(`k = 0`). -/
theorem ccp_queue_drain_failure_witness :
    ccpCexQueue.fEnabled = true ∧
    ccpCexQueue.u32RegReqHead + 32 * 0 < ccpCexQueue.u32RegReqTail ∧
    ccpCexQueue.u32RegReqTail < 4294967296 ∧
    (32 ∣ (ccpCexQueue.u32RegReqTail - ccpCexQueue.u32RegReqHead)) ∧
    (pspDevCcpQueueRunMaybe ccpCexProcess ccpCexCore ccpCexQueue).2.1.u32RegSts =
      CCP_V5_Q_REG_STATUS_ERROR ∧
    (pspDevCcpQueueRunMaybe ccpCexProcess ccpCexCore ccpCexQueue).2.1.u32RegReqHead =
      ccpCexQueue.u32RegReqHead + 32 * 0 := by
  have h := ccp_queue_drain_failure ccpCexProcess ccpCexCore ccpCexQueue 0
    rfl (by decide) (by decide) (by decide) rfl rfl
  exact ⟨rfl, by decide, by decide, by decide, h.1, h.2.2.1⟩

/-! ## C8: the interrupt line is not a state invariant -/

/-- A reachable MMIO trace on queue 0: kick `RUN`, poll the control
register (the deferred run sets `Q_STOP | Q_EMPTY`), enable the
`Q_STOP` interrupt (the re-run asserts the line), then write
interrupt-enable back to zero — which runs nothing and deasserts
nothing. -/
def ccpIrqTrace : List CCPMMIOOP :=
  [.write 0x1000 4 1, .read 0x1000 4, .write 0x100c 4 4, .write 0x100c 4 0]

/-- Counterexample to C8 as stated: after the trace above the shared
IRQ line is still asserted although `interrupt-enable AND
interrupt-status` is zero for both queues — the asserted-iff-pending
biconditional fails in a reachable state. -/
theorem ccp_irq_invariant_cex :
    ccpReachable ccpCexProcess (ccpRunOps ccpCexProcess ccpInitState ccpIrqTrace) ∧
    (ccpRunOps ccpCexProcess ccpInitState ccpIrqTrace).irqAsserted = true ∧
    (ccpRunOps ccpCexProcess ccpInitState ccpIrqTrace).q0.u32RegIen &&&
      (ccpRunOps ccpCexProcess ccpInitState ccpIrqTrace).q0.u32RegIsts = 0 ∧
    (ccpRunOps ccpCexProcess ccpInitState ccpIrqTrace).q1.u32RegIen &&&
      (ccpRunOps ccpCexProcess ccpInitState ccpIrqTrace).q1.u32RegIsts = 0 := by
  exact ⟨⟨ccpIrqTrace, rfl⟩, by decide, by decide, by decide⟩

/-- On an enabled queue, the interrupt calls a run emits are exactly
an assert when an enabled interrupt-status bit is pending afterwards. -/
theorem ccpRunMaybe_calls (process : EngineFn) (core : DEVCORE) (q : CCPQUEUE)
    (hq : q.fEnabled = true) :
    (pspDevCcpQueueRunMaybe process core q).2.2 =
      if (pspDevCcpQueueRunMaybe process core q).2.1.u32RegIen &&&
          (pspDevCcpQueueRunMaybe process core q).2.1.u32RegIsts ≠ 0 then
        [{ idPrio := 0, idDev := 0x15, fAssert := true }] else [] := by
  obtain ⟨ctrl, tl, hd, sts, ien, ists, fe⟩ := q
  cases fe with
  | false => simp at hq
  | true => rfl

/-- C8 (amended). The shared IRQ line is updated only per-queue and
only at two points: a queue-executor run emits an assert exactly when
the queue is enabled and `interrupt-enable AND interrupt-status` is
non-zero after draining, an interrupt-status write emits a deassert
exactly when `interrupt-enable AND interrupt-status` is zero after the
clear, and every other register write emits no interrupt call at all —
so the line latches the last of these updates rather than maintaining
the claimed global asserted-iff-pending invariant (refuted by
`ccp_irq_invariant_cex`). -/
theorem ccp_irq_assertion_amended (process : EngineFn) (core : DEVCORE) (q : CCPQUEUE)
    (offRegQ u32Val : Nat) :
    ((pspDevCcpQueueRunMaybe process core q).2.2 =
      if q.fEnabled = true ∧
          (pspDevCcpQueueRunMaybe process core q).2.1.u32RegIen &&&
            (pspDevCcpQueueRunMaybe process core q).2.1.u32RegIsts ≠ 0 then
        [{ idPrio := 0, idDev := 0x15, fAssert := true }] else []) ∧
    ((pspDevCcpQueueRegWriteReg q CCP_V5_Q_REG_ISTS u32Val).2 =
      if q.u32RegIen &&& (q.u32RegIsts &&& u32Not u32Val) = 0 then
        [{ idPrio := 0, idDev := 0x15, fAssert := false }] else []) ∧
    (offRegQ ≠ CCP_V5_Q_REG_ISTS → (pspDevCcpQueueRegWriteReg q offRegQ u32Val).2 = []) := by
  refine ⟨?_, rfl, ?_⟩
  · by_cases hq : q.fEnabled
    · rw [ccpRunMaybe_calls process core q hq, hq]
      simp
    · have hq' : q.fEnabled = false := by simpa using hq
      have h0 : (pspDevCcpQueueRunMaybe process core q).2.2 = [] := by
        unfold pspDevCcpQueueRunMaybe
        rw [hq']
        rfl
      rw [h0, hq']
      simp
  · intro hoff
    unfold pspDevCcpQueueRegWriteReg
    split_ifs <;> rfl

/-- Witness for the amended C8: on the fresh queue a `HEAD` write
emits no interrupt call, and an `ISTS` write (nothing enabled) emits a
deassert. -/
theorem ccp_irq_assertion_amended_witness :
    (pspDevCcpQueueRegWriteReg ccpInitQueue CCP_V5_Q_REG_HEAD 64).2 = [] ∧
    (pspDevCcpQueueRegWriteReg ccpInitQueue CCP_V5_Q_REG_ISTS 1).2 =
      [{ idPrio := 0, idDev := 0x15, fAssert := false }] := by
  refine ⟨(ccp_irq_assertion_amended ccpEngineFail ccpInitState.core ccpInitQueue
    CCP_V5_Q_REG_HEAD 64).2.2 (by decide), ?_⟩
  have h := (ccp_irq_assertion_amended ccpEngineFail ccpInitState.core ccpInitQueue
    CCP_V5_Q_REG_ISTS 1).2.1
  rw [h]
  decide

/-! ## Local-memory and transfer-context lemmas -/

/-- A local-memory write leaves every byte outside its address range
untouched. -/
theorem localWrite_frame :
    ∀ (bs : Bytes) (mem : Nat → Nat) (addr a : Nat),
      (∀ i, i < bs.length → a ≠ (addr + i) % 4294967296) →
      pspDevCcpXferMemLocalWrite mem addr bs a = mem a := by
  intro bs
  induction bs with
  | nil => intro mem addr a _; rfl
  | cons b bs ih =>
    intro mem addr a h
    simp only [pspDevCcpXferMemLocalWrite]
    rw [ih _ (addr + 1) a (fun i hi => by
      have := h (i + 1) (by simpa using Nat.succ_lt_succ hi)
      simpa [Nat.add_assoc, Nat.add_comm 1 i] using this)]
    have h0 := h 0 (by simp)
    rw [if_neg (by simpa using h0)]

/-- Reading back the `i`-th byte of a local-memory write returns the
written byte (the write is at most `2^32` bytes, so the truncated
addresses do not collide). -/
theorem localWrite_getByte :
    ∀ (bs : Bytes) (mem : Nat → Nat) (addr i : Nat),
      i < bs.length → bs.length ≤ 4294967296 →
      pspDevCcpXferMemLocalWrite mem addr bs ((addr + i) % 4294967296) = bs.getD i 0 := by
  intro bs
  induction bs with
  | nil => intro mem addr i hi _; simp at hi
  | cons b bs ih =>
    intro mem addr i hi hlen
    cases i with
    | zero =>
      simp only [pspDevCcpXferMemLocalWrite]
      rw [localWrite_frame bs _ (addr + 1) _ (fun j hj => by
        intro hcol
        have hj' : j < 4294967295 := by
          simp only [List.length_cons] at hlen
          omega
        have hmod : (addr + 0) % 4294967296 = (addr + 1 + j) % 4294967296 := hcol
        have : (1 + j) % 4294967296 = 0 := by
          have h1 : addr % 4294967296 = (addr + (1 + j)) % 4294967296 := by
            rw [← Nat.add_assoc]
            simpa using hmod
          have h2 := Nat.add_mod addr (1 + j) 4294967296
          omega
        omega)]
      simp
    | succ i =>
      simp only [pspDevCcpXferMemLocalWrite]
      have harr : addr + (i + 1) = (addr + 1) + i := by omega
      rw [harr]
      rw [ih _ (addr + 1) i (by simpa using Nat.lt_of_succ_lt_succ hi)
        (by simp only [List.length_cons] at hlen; omega)]
      simp

/-- Mapping `getD` over the index range of a list reproduces the
list. -/
theorem list_map_getD_range (l : List Nat) :
    (List.range l.length).map (fun i => l.getD i 0) = l := by
  refine List.ext_getElem? fun i => ?_
  rw [List.getElem?_map]
  by_cases hi : i < l.length
  · rw [List.getElem?_range hi, show Option.map (fun i => l.getD i 0) (some i) =
      some (l.getD i 0) from rfl]
    rw [List.getD_eq_getElem?_getD, List.getElem?_eq_getElem hi]
    rfl
  · rw [List.getElem?_eq_none (show (List.range l.length).length ≤ i by
      rw [List.length_range]; omega)]
    rw [List.getElem?_eq_none (show l.length ≤ i by omega)]
    rfl

/-- Reading back a whole local-memory write returns the written
bytes. -/
theorem localRead_after_write (bs : Bytes) (mem : Nat → Nat) (addr : Nat)
    (hlen : bs.length ≤ 4294967296) :
    pspDevCcpXferMemLocalRead (pspDevCcpXferMemLocalWrite mem addr bs) addr bs.length = bs := by
  unfold pspDevCcpXferMemLocalRead
  have h : ∀ i, i < bs.length →
      pspDevCcpXferMemLocalWrite mem addr bs ((addr + i) % 4294967296) = bs.getD i 0 :=
    fun i hi => localWrite_getByte bs mem addr i hi hlen
  calc (List.range bs.length).map
        (fun i => pspDevCcpXferMemLocalWrite mem addr bs ((addr + i) % 4294967296))
      = (List.range bs.length).map (fun i => bs.getD i 0) := by
        refine List.map_congr_left fun i hi => ?_
        exact h i (List.mem_range.mp hi)
    _ = bs := list_map_getD_range bs

/-- Reading back a successful `devWrite` returns the written bytes. -/
theorem devWrite_readback (core : DEVCORE) (sp : CCPMEMSPACE) (addr : Nat) (bs : Bytes)
    (core' : DEVCORE) (h : devWrite core sp addr bs = some core')
    (hlen : core.Lsb.length = 4096) (hsz : bs.length ≤ 4294967296) :
    devRead core' sp addr bs.length = some bs := by
  cases sp with
  | sys => simp [devWrite] at h
  | sb =>
    simp only [devWrite] at h
    rcases hw : pspDevCcpXferMemLsbWrite core.Lsb addr bs with _ | lsb'
    · rw [hw] at h; simp at h
    · rw [hw] at h
      simp only [Option.some.injEq] at h
      subst h
      simp only [pspDevCcpXferMemLsbWrite] at hw
      by_cases hb : addr < 4096 ∧ addr + bs.length ≤ 4096
      · rw [if_pos hb] at hw
        simp only [Option.some.injEq] at hw
        subst hw
        simp only [devRead, pspDevCcpXferMemLsbRead]
        rw [if_pos hb]
        have htk : ((listWriteSeg core.Lsb addr bs).drop addr).take bs.length = bs := by
          unfold listWriteSeg
          rw [List.append_assoc, List.drop_left' (List.length_take_of_le (by omega)),
            List.take_left' rfl]
        rw [htk]
      · rw [if_neg hb] at hw; simp at hw
  | loc =>
    simp only [devWrite, Option.some.injEq] at h
    subst h
    simp only [devRead, Option.some.injEq]
    exact localRead_after_write bs core.localMem addr hsz

/-- An exact-size transfer read (the engines always request no more
than the remaining budget, with a non-zero size). -/
theorem xferRead_exact (core : DEVCORE) (ctx : CCPXFERCTX) (cbRead : Nat)
    (hle : cbRead ≤ ctx.cbReadLeft) (h0 : cbRead ≠ 0) :
    pspDevCcpXferCtxRead core ctx cbRead =
      (devRead core ctx.srcSpace ctx.CcpAddrSrc cbRead).map fun bs =>
        (bs, { ctx with cbReadLeft := ctx.cbReadLeft - cbRead,
                        CcpAddrSrc := ctx.CcpAddrSrc + cbRead }) := by
  unfold pspDevCcpXferCtxRead
  rw [Nat.min_eq_left hle]
  rw [if_pos ⟨h0, rfl⟩]
  cases devRead core ctx.srcSpace ctx.CcpAddrSrc cbRead <;> rfl

/-- An exact-size forward transfer write. -/
theorem xferWrite_exact (core : DEVCORE) (ctx : CCPXFERCTX) (bs : Bytes)
    (hle : bs.length ≤ ctx.cbWriteLeft) (h0 : bs.length ≠ 0) (hrev : ctx.fWriteRev = false) :
    pspDevCcpXferCtxWrite core ctx bs =
      (devWrite core ctx.dstSpace ctx.CcpAddrDst bs).map fun c =>
        (c, { ctx with cbWriteLeft := ctx.cbWriteLeft - bs.length,
                       CcpAddrDst := ctx.CcpAddrDst + bs.length }) := by
  unfold pspDevCcpXferCtxWrite
  rw [Nat.min_eq_left hle]
  rw [if_pos ⟨h0, rfl⟩]
  rw [hrev]
  simp only [Bool.false_eq_true, if_false]
  cases devWrite core ctx.dstSpace ctx.CcpAddrDst bs <;> rfl

/-- `devRead` ignores `cbWrittenLast` (it reads only the LSB and local
memory). -/
theorem devRead_cbWrittenLast (core : DEVCORE) (n : Nat) (sp : CCPMEMSPACE) (addr len : Nat) :
    devRead { core with cbWrittenLast := n } sp addr len = devRead core sp addr len := by
  cases sp <;> rfl

/-- `natToLE` produces exactly `n` bytes. -/
theorem natToLE_length : ∀ (n v : Nat), (natToLE n v).length = n := by
  intro n
  induction n with
  | zero => intro v; rfl
  | succ n ih => intro v; simp only [natToLE, List.length_cons, ih]

/-- The little-endian encoding is the reverse of the big-endian one. -/
theorem natToBE_reverse (n v : Nat) : (natToBE n v).reverse = natToLE n v := by
  unfold natToBE
  exact List.reverse_reverse _

/-- `natFromBE` of a reversed buffer is `natFromLE` of the buffer. -/
theorem natFromBE_reverse (bs : Bytes) : natFromBE bs.reverse = natFromLE bs := by
  unfold natFromBE
  rw [List.reverse_reverse]

/-- Unfolding of a successful non-SHA, forward transfer-context
initialisation. -/
theorem xferCtxInit_nonSha (core : DEVCORE) (req : CCP5REQ) (cbWrite : Nat)
    (srcSp dstSp : CCPMEMSPACE)
    (hs : ccpMemSpaceOf req.u16SrcMemType = some srcSp)
    (hd : ccpMemSpaceOf req.u16DstMemType = some dstSp) :
    pspDevCcpXferCtxInit core req false cbWrite false =
      some ({ core with cbWrittenLast := 0 },
        { srcSpace := srcSp, dstSpace := dstSp,
          CcpAddrSrc := CCP_ADDR_CREATE_FROM_HI_LO req.u16AddrSrcHigh req.u32AddrSrcLow,
          cbReadLeft := req.cbSrc,
          CcpAddrDst := CCP_ADDR_CREATE_FROM_HI_LO req.u16AddrDstHigh req.u32AddrDstLow,
          cbWriteLeft := cbWrite, fWriteRev := false }) := by
  unfold pspDevCcpXferCtxInit
  rw [hs, hd]
  rfl

/-! ## C7: the RSA engine -/

/-- C7. The RSA request processor accepts a request only when
`mode == 0` and either `sz == 256` with `cbSrc == 512` or `sz == 512`
with `cbSrc == 1024`; every other mode/size combination fails. On
acceptance, with the key area and the source readable: the exponent is
the little-endian integer formed by the first `sz/2` bytes of the key
area (only half the copied bytes are used), the source bytes are the
little-endian modulus (`cbSrc/2` bytes) followed by the little-endian
message, and — provided the modelled OpenSSL primitive accepts, i.e.
the modulus is exactly `sz` bytes wide (`256^(sz-1) ≤ n < 256^sz`) and
the message is below it —
the processor succeeds and the `sz` bytes at the destination afterwards
are the little-endian encoding of `message ^ exponent mod modulus`
(the big-endian result byte-reversed). The key mem-type hypothesis
restricts to the two arms the C code actually reads from (for any
other kind it silently uses uninitialised stack bytes). -/
theorem ccp_rsa_process_spec (core : DEVCORE) (req : CCP5REQ) (uFunc : Nat)
    (hlen : core.Lsb.length = 4096)
    (hkey : CCP_V5_MEM_TYPE_GET req.u16KeyMemType = CCP_V5_MEM_TYPE_LOCAL ∨
      CCP_V5_MEM_TYPE_GET req.u16KeyMemType = CCP_V5_MEM_TYPE_SB) :
    (¬(CCP_V5_ENGINE_RSA_MODE_GET uFunc = 0 ∧
        ((CCP_V5_ENGINE_RSA_SZ_GET uFunc = 256 ∧ req.cbSrc = 512) ∨
          (CCP_V5_ENGINE_RSA_SZ_GET uFunc = 512 ∧ req.cbSrc = 1024))) →
      pspDevCcpReqRsaProcess core req uFunc = none) ∧
    (∀ (srcSp dstSp : CCPMEMSPACE) (abExp abData : Bytes),
      ccpMemSpaceOf req.u16SrcMemType = some srcSp →
      ccpMemSpaceOf req.u16DstMemType = some dstSp →
      pspDevCcpKeyCopyFromReq core req (CCP_V5_ENGINE_RSA_SZ_GET uFunc) = some abExp →
      devRead core srcSp
        (CCP_ADDR_CREATE_FROM_HI_LO req.u16AddrSrcHigh req.u32AddrSrcLow) req.cbSrc =
        some abData →
      (CCP_V5_ENGINE_RSA_MODE_GET uFunc = 0 ∧
        ((CCP_V5_ENGINE_RSA_SZ_GET uFunc = 256 ∧ req.cbSrc = 512) ∨
          (CCP_V5_ENGINE_RSA_SZ_GET uFunc = 512 ∧ req.cbSrc = 1024))) →
      (¬(256 ^ (CCP_V5_ENGINE_RSA_SZ_GET uFunc - 1) ≤ natFromLE (abData.take (req.cbSrc / 2)) ∧
          natFromLE (abData.take (req.cbSrc / 2)) < 256 ^ CCP_V5_ENGINE_RSA_SZ_GET uFunc ∧
          natFromLE (abData.drop (CCP_V5_ENGINE_RSA_SZ_GET uFunc)) <
            natFromLE (abData.take (req.cbSrc / 2))) →
        pspDevCcpReqRsaProcess core req uFunc = none) ∧
      ((256 ^ (CCP_V5_ENGINE_RSA_SZ_GET uFunc - 1) ≤ natFromLE (abData.take (req.cbSrc / 2)) ∧
          natFromLE (abData.take (req.cbSrc / 2)) < 256 ^ CCP_V5_ENGINE_RSA_SZ_GET uFunc ∧
          natFromLE (abData.drop (CCP_V5_ENGINE_RSA_SZ_GET uFunc)) <
            natFromLE (abData.take (req.cbSrc / 2))) →
        ∀ core2 : DEVCORE,
          devWrite { core with cbWrittenLast := 0 } dstSp
            (CCP_ADDR_CREATE_FROM_HI_LO req.u16AddrDstHigh req.u32AddrDstLow)
            (natToLE (CCP_V5_ENGINE_RSA_SZ_GET uFunc)
              (natFromLE (abData.drop (CCP_V5_ENGINE_RSA_SZ_GET uFunc)) ^
                  natFromLE (abExp.take (CCP_V5_ENGINE_RSA_SZ_GET uFunc / 2)) %
                natFromLE (abData.take (req.cbSrc / 2)))) = some core2 →
          pspDevCcpReqRsaProcess core req uFunc = some core2 ∧
          devRead core2 dstSp
            (CCP_ADDR_CREATE_FROM_HI_LO req.u16AddrDstHigh req.u32AddrDstLow)
            (CCP_V5_ENGINE_RSA_SZ_GET uFunc) =
            some (natToLE (CCP_V5_ENGINE_RSA_SZ_GET uFunc)
              (natFromLE (abData.drop (CCP_V5_ENGINE_RSA_SZ_GET uFunc)) ^
                  natFromLE (abExp.take (CCP_V5_ENGINE_RSA_SZ_GET uFunc / 2)) %
                natFromLE (abData.take (req.cbSrc / 2)))))) := by
  constructor
  · intro hrej
    unfold pspDevCcpReqRsaProcess
    rw [if_neg hrej]
  · intro srcSp dstSp abExp abData hs hd hkc hread haccept
    have hsz : CCP_V5_ENGINE_RSA_SZ_GET uFunc = 256 ∧ req.cbSrc = 512 ∨
        CCP_V5_ENGINE_RSA_SZ_GET uFunc = 512 ∧ req.cbSrc = 1024 := haccept.2
    have hszpos : CCP_V5_ENGINE_RSA_SZ_GET uFunc ≠ 0 := by rcases hsz with ⟨h, _⟩ | ⟨h, _⟩ <;> omega
    have hcb : req.cbSrc = 2 * CCP_V5_ENGINE_RSA_SZ_GET uFunc := by
      rcases hsz with ⟨h1, h2⟩ | ⟨h1, h2⟩ <;> omega
    have hcb0 : req.cbSrc ≠ 0 := by omega
    -- unfold the processor along the given reads
    have hmain : pspDevCcpReqRsaProcess core req uFunc =
        (if 256 ^ (CCP_V5_ENGINE_RSA_SZ_GET uFunc - 1) ≤
              natFromLE (abData.take (req.cbSrc / 2)) ∧
            natFromLE (abData.take (req.cbSrc / 2)) < 256 ^ CCP_V5_ENGINE_RSA_SZ_GET uFunc ∧
            natFromLE (abData.drop (CCP_V5_ENGINE_RSA_SZ_GET uFunc)) <
              natFromLE (abData.take (req.cbSrc / 2)) then
          (devWrite { core with cbWrittenLast := 0 } dstSp
            (CCP_ADDR_CREATE_FROM_HI_LO req.u16AddrDstHigh req.u32AddrDstLow)
            (natToLE (CCP_V5_ENGINE_RSA_SZ_GET uFunc)
              (natFromLE (abData.drop (CCP_V5_ENGINE_RSA_SZ_GET uFunc)) ^
                  natFromLE (abExp.take (CCP_V5_ENGINE_RSA_SZ_GET uFunc / 2)) %
                natFromLE (abData.take (req.cbSrc / 2))))).map id
        else none) := by
      unfold pspDevCcpReqRsaProcess
      rw [if_pos haccept, hkc]
      try dsimp only
      rw [xferCtxInit_nonSha core req (CCP_V5_ENGINE_RSA_SZ_GET uFunc) srcSp dstSp hs hd]
      try dsimp only
      rw [xferRead_exact _ _ _ (by exact Nat.le_refl _) hcb0]
      try dsimp only
      rw [devRead_cbWrittenLast, hread]
      try dsimp only [Option.map]
      rw [natFromBE_reverse]
      split
      · rename_i hcond
        rw [xferWrite_exact _ _ _
            (by rw [List.length_reverse, natToBE, List.length_reverse, natToLE_length])
            (by rw [List.length_reverse, natToBE, List.length_reverse, natToLE_length]
                exact hszpos)
            rfl]
        rw [natToBE_reverse]
        cases devWrite { core with cbWrittenLast := 0 } dstSp
          (CCP_ADDR_CREATE_FROM_HI_LO req.u16AddrDstHigh req.u32AddrDstLow)
          (natToLE (CCP_V5_ENGINE_RSA_SZ_GET uFunc)
            (natFromLE (abData.drop (CCP_V5_ENGINE_RSA_SZ_GET uFunc)) ^
                natFromLE (abExp.take (CCP_V5_ENGINE_RSA_SZ_GET uFunc / 2)) %
              natFromLE (abData.take (req.cbSrc / 2)))) <;> rfl
      · rfl
    constructor
    · intro hrej
      rw [hmain, if_neg hrej]
    · intro hcond core2 hw
      rw [hmain, if_pos hcond, hw]
      refine ⟨rfl, ?_⟩
      have := devWrite_readback { core with cbWrittenLast := 0 } dstSp
        (CCP_ADDR_CREATE_FROM_HI_LO req.u16AddrDstHigh req.u32AddrDstLow) _ core2 hw
        (by exact hlen) (by rw [natToLE_length]; rcases hsz with ⟨h, _⟩ | ⟨h, _⟩ <;> omega)
      rwa [natToLE_length] at this

/-- Guest memory for the RSA witness: exponent `1` at `0x10000`
(little-endian), modulus `2^2047 + 1` at `0x20000` (256 little-endian
bytes), message `2` right after it. -/
def ccpRsaWitMem : Nat → Nat := fun a =>
  if a = 0x10000 then 1
  else if a = 0x20000 then 1
  else if a = 0x20000 + 255 then 128
  else if a = 0x20000 + 256 then 2
  else 0

/-- The device core for the RSA witness. -/
def ccpRsaWitCore : DEVCORE :=
  { Lsb := List.replicate 4096 0, pOsslShaCtx := none,
    localMem := ccpRsaWitMem, cbWrittenLast := 0 }

/-- The RSA witness descriptor: 512 source bytes at `0x20000`
(LOCAL), destination `0x30000` (LOCAL), key at `0x10000` (LOCAL). -/
def ccpRsaWitReq : CCP5REQ :=
  { u32Dw0 := 0
    cbSrc := 512
    u32AddrSrcLow := 0x20000
    u16AddrSrcHigh := 0
    u16SrcMemType := 2
    u32AddrDstLow := 0x30000
    u16AddrDstHigh := 0
    u16DstMemType := 2
    u32AddrKeyLow := 0x10000
    u16AddrKeyHigh := 0
    u16KeyMemType := 2 }

set_option maxRecDepth 100000

/-- Witness for C7: a 2048-bit exponentiation (`uFunc = 2048`, i.e.
`mode 0`, `sz 256`) through the theorem at the concrete request above:
exponent `1`, modulus `2^2047 + 1`, message `2`. -/
theorem ccp_rsa_process_spec_witness :
    ∃ core2 : DEVCORE,
      pspDevCcpReqRsaProcess ccpRsaWitCore ccpRsaWitReq 2048 = some core2 ∧
      devRead core2 CCPMEMSPACE.loc 0x30000 256 =
        some (natToLE 256
          (natFromLE ((pspDevCcpXferMemLocalRead ccpRsaWitMem 0x20000 512).drop 256) ^
              natFromLE ((pspDevCcpXferMemLocalRead ccpRsaWitMem 0x10000 256).take 128) %
            natFromLE ((pspDevCcpXferMemLocalRead ccpRsaWitMem 0x20000 512).take 256))) := by
  have h := (ccp_rsa_process_spec ccpRsaWitCore ccpRsaWitReq 2048
      (List.length_replicate 4096 0) (Or.inl (by decide))).2
      CCPMEMSPACE.loc CCPMEMSPACE.loc
      (pspDevCcpXferMemLocalRead ccpRsaWitMem 0x10000 256)
      (pspDevCcpXferMemLocalRead ccpRsaWitMem 0x20000 512)
      (by decide) (by decide) rfl rfl (by refine ⟨by decide, Or.inl ⟨by decide, by decide⟩⟩)
  obtain ⟨hp, hr⟩ := h.2 ⟨by decide, by decide, by decide⟩ _ rfl
  exact ⟨_, hp, hr⟩

/-! ## Region framing infrastructure

The PASSTHRU loop copies through 4096-byte chunks; to relate the final
destination contents to the original source bytes the writes must be
framed: a write to the destination region must not disturb the source
region, and later chunk writes must not disturb earlier ones. -/

/-- A local-memory (`.loc`) region must not wrap around the 32-bit
address space for plain interval reasoning to apply; the other spaces
need nothing. -/
def regionWf (sp : CCPMEMSPACE) (a n : Nat) : Prop :=
  match sp with
  | .loc => a + n ≤ 4294967296
  | _ => True

/-- Two equal-length regions are separated when they live in different
spaces or in disjoint intervals of the same space. -/
def ptRegionsSep (ssp : CCPMEMSPACE) (sa : Nat) (dsp : CCPMEMSPACE) (da n : Nat) : Prop :=
  ssp ≠ dsp ∨ sa + n ≤ da ∨ da + n ≤ sa

/-- `c'` agrees with `c` everywhere except possibly the `dsp` region
`[lo, lo + n)` (and the `cbWrittenLast` counter). -/
def coreOutside (c c' : DEVCORE) (dsp : CCPMEMSPACE) (lo n : Nat) : Prop :=
  match dsp with
  | .sys => c'.Lsb = c.Lsb ∧ c'.localMem = c.localMem
  | .sb => c'.localMem = c.localMem ∧ c'.Lsb.length = c.Lsb.length ∧
      ∀ j, j < lo ∨ lo + n ≤ j → c'.Lsb[j]? = c.Lsb[j]?
  | .loc => c'.Lsb = c.Lsb ∧
      ∀ a, a < lo ∨ lo + n ≤ a → c'.localMem a = c.localMem a

theorem coreOutside_refl (c : DEVCORE) (dsp : CCPMEMSPACE) (lo n : Nat) :
    coreOutside c c dsp lo n := by
  cases dsp <;> simp [coreOutside]

/-- Framing is transitive for nested regions. -/
theorem coreOutside_trans (c1 c2 c3 : DEVCORE) (dsp : CCPMEMSPACE) (lo n lo' n' : Nat)
    (h12 : coreOutside c1 c2 dsp lo' n') (h23 : coreOutside c2 c3 dsp lo'' n''')
    (hsub : lo ≤ lo') (hsub2 : lo' + n' ≤ lo + n) (hsub3 : lo ≤ lo'') (hsub4 : lo'' + n''' ≤ lo + n) :
    coreOutside c1 c3 dsp lo n := by
  cases dsp with
  | sys => exact ⟨h23.1.trans h12.1, h23.2.trans h12.2⟩
  | sb =>
    refine ⟨h23.1.trans h12.1, h23.2.1.trans h12.2.1, fun j hj => ?_⟩
    rw [h23.2.2 j (by omega), h12.2.2 j (by omega)]
  | loc =>
    refine ⟨h23.1.trans h12.1, fun a ha => ?_⟩
    rw [h23.2 a (by omega), h12.2 a (by omega)]

/-- A successful `devWrite` frames: it changes only the written region
of the written space. -/
theorem devWrite_outside (core : DEVCORE) (sp : CCPMEMSPACE) (addr : Nat) (bs : Bytes)
    (core' : DEVCORE) (h : devWrite core sp addr bs = some core')
    (hwf : regionWf sp addr bs.length) (hlen : core.Lsb.length = 4096) :
    coreOutside core core' sp addr bs.length := by
  cases sp with
  | sys => simp [devWrite] at h
  | sb =>
    simp only [devWrite] at h
    rcases hw : pspDevCcpXferMemLsbWrite core.Lsb addr bs with _ | lsb'
    · rw [hw] at h; simp at h
    · rw [hw] at h
      simp only [Option.some.injEq] at h
      subst h
      simp only [pspDevCcpXferMemLsbWrite] at hw
      by_cases hb : addr < 4096 ∧ addr + bs.length ≤ 4096
      · rw [if_pos hb] at hw
        simp only [Option.some.injEq] at hw
        subst hw
        refine ⟨rfl, listWriteSeg_length _ _ _ (by omega), fun j hj => ?_⟩
        rcases hj with hj | hj
        · exact listWriteSeg_getElem_lt _ _ _ _ (by omega) hj
        · exact listWriteSeg_getElem_ge _ _ _ _ (by omega) hj
      · rw [if_neg hb] at hw; simp at hw
  | loc =>
    simp only [devWrite, Option.some.injEq] at h
    subst h
    refine ⟨rfl, fun a ha => ?_⟩
    refine localWrite_frame bs core.localMem addr a fun i hi => ?_
    have : (addr + i) % 4294967296 = addr + i := Nat.mod_eq_of_lt (by
      simp only [regionWf] at hwf
      omega)
    omega

/-- Reads over a region see only that region: framing transfers reads
of a disjoint (or different-space) region unchanged. -/
theorem devRead_frame (c c' : DEVCORE) (dsp : CCPMEMSPACE) (lo n : Nat)
    (hout : coreOutside c c' dsp lo n)
    (sp : CCPMEMSPACE) (b k : Nat)
    (hwf : regionWf sp b k)
    (hsep : sp ≠ dsp ∨ b + k ≤ lo ∨ lo + n ≤ b) :
    devRead c' sp b k = devRead c sp b k := by
  cases sp with
  | sys => rfl
  | sb =>
    cases dsp with
    | sys => simp only [devRead, pspDevCcpXferMemLsbRead, hout.1]
    | loc => simp only [devRead, pspDevCcpXferMemLsbRead, hout.1]
    | sb =>
      have hdisj : b + k ≤ lo ∨ lo + n ≤ b := by
        rcases hsep with h | h
        · exact absurd rfl h
        · exact h
      simp only [devRead, pspDevCcpXferMemLsbRead]
      by_cases hb : b < 4096 ∧ b + k ≤ 4096
      · rw [if_pos hb, if_pos hb]
        congr 1
        refine List.ext_getElem? fun i => ?_
        by_cases hik : i < k
        · rw [List.getElem?_take_of_lt hik, List.getElem?_take_of_lt hik,
            List.getElem?_drop, List.getElem?_drop]
          exact hout.2.2 (b + i) (by omega)
        · rw [List.getElem?_eq_none (by simp only [List.length_take]; omega),
            List.getElem?_eq_none (by simp only [List.length_take]; omega)]
      · rw [if_neg hb, if_neg hb]
  | loc =>
    cases dsp with
    | sys => simp only [devRead, pspDevCcpXferMemLocalRead, hout.2]
    | sb => simp only [devRead, pspDevCcpXferMemLocalRead, hout.1]
    | loc =>
      have hdisj : b + k ≤ lo ∨ lo + n ≤ b := by
        rcases hsep with h | h
        · exact absurd rfl h
        · exact h
      simp only [devRead, pspDevCcpXferMemLocalRead, Option.some.injEq]
      refine List.map_congr_left fun i hi => ?_
      have hik : i < k := List.mem_range.mp hi
      have hmod : (b + i) % 4294967296 = b + i := Nat.mod_eq_of_lt (by
        simp only [regionWf] at hwf
        omega)
      rw [hmod]
      exact hout.2 (b + i) (by omega)

/-- A read of `m + k` bytes splits into its prefix. -/
theorem devRead_split_take (core : DEVCORE) (sp : CCPMEMSPACE) (a m k : Nat) (S : Bytes)
    (h : devRead core sp a (m + k) = some S) :
    devRead core sp a m = some (S.take m) ∨ (sp = .sb ∧ m = 0 ∧ 4096 ≤ a) := by
  cases sp with
  | sys => simp [devRead] at h
  | loc =>
    left
    simp only [devRead, pspDevCcpXferMemLocalRead, Option.some.injEq] at h ⊢
    rw [← h]
    refine List.ext_getElem? fun i => ?_
    rw [List.getElem?_map]
    by_cases him : i < m
    · rw [List.getElem?_range him, List.getElem?_take_of_lt him, List.getElem?_map,
        List.getElem?_range (by omega)]
    · rw [List.getElem?_eq_none (by rw [List.length_range]; omega),
        List.getElem?_eq_none (by simp only [List.length_take]; omega)]
      rfl
  | sb =>
    simp only [devRead, pspDevCcpXferMemLsbRead] at h ⊢
    by_cases hb : a < 4096 ∧ a + (m + k) ≤ 4096
    · rw [if_pos hb] at h
      left
      rw [if_pos (by omega)]
      simp only [Option.some.injEq] at h ⊢
      rw [← h, List.take_take]
      congr 1
      omega
    · rw [if_neg hb] at h; simp at h

/-- A read of `m + k` bytes splits into its suffix (non-trivial
suffix). -/
theorem devRead_split_drop (core : DEVCORE) (sp : CCPMEMSPACE) (a m k : Nat) (S : Bytes)
    (h : devRead core sp a (m + k) = some S) (hk : k ≠ 0) :
    devRead core sp (a + m) k = some (S.drop m) := by
  cases sp with
  | sys => simp [devRead] at h
  | loc =>
    simp only [devRead, pspDevCcpXferMemLocalRead, Option.some.injEq] at h ⊢
    rw [← h]
    refine List.ext_getElem? fun i => ?_
    rw [List.getElem?_map, List.getElem?_drop, List.getElem?_map]
    by_cases hik : i < k
    · rw [List.getElem?_range hik, List.getElem?_range (by omega)]
      show some (core.localMem ((a + m + i) % 4294967296)) =
        some (core.localMem ((a + (m + i)) % 4294967296))
      rw [Nat.add_assoc]
    · rw [List.getElem?_eq_none (by rw [List.length_range]; omega),
        List.getElem?_eq_none (by rw [List.length_range]; omega)]
      rfl
  | sb =>
    simp only [devRead, pspDevCcpXferMemLsbRead] at h ⊢
    by_cases hb : a < 4096 ∧ a + (m + k) ≤ 4096
    · rw [if_pos hb] at h
      rw [if_pos (by omega)]
      simp only [Option.some.injEq] at h ⊢
      rw [← h, List.drop_take, List.drop_drop]
      congr 1
      omega
    · rw [if_neg hb] at h; simp at h

/-- Adjacent reads join. -/
theorem devRead_join (core : DEVCORE) (sp : CCPMEMSPACE) (a m k : Nat) (X Y : Bytes)
    (h1 : devRead core sp a m = some X) (h2 : devRead core sp (a + m) k = some Y) :
    devRead core sp a (m + k) = some (X ++ Y) := by
  cases sp with
  | sys => simp [devRead] at h1
  | loc =>
    simp only [devRead, pspDevCcpXferMemLocalRead, Option.some.injEq] at h1 h2 ⊢
    rw [← h1, ← h2]
    have hra : List.range (m + k) = List.range m ++ (List.range k).map (fun x => m + x) :=
      List.range_add m k
    rw [hra, List.map_append, List.map_map]
    congr 1
    refine List.map_congr_left fun i _ => ?_
    simp only [Function.comp_apply]
    rw [Nat.add_assoc]
  | sb =>
    simp only [devRead, pspDevCcpXferMemLsbRead] at h1 h2 ⊢
    by_cases hb1 : a < 4096 ∧ a + m ≤ 4096
    · rw [if_pos hb1] at h1
      by_cases hb2 : a + m < 4096 ∧ a + m + k ≤ 4096
      · rw [if_pos hb2] at h2
        rw [if_pos (by omega)]
        simp only [Option.some.injEq] at h1 h2 ⊢
        rw [← h1, ← h2, List.take_add, List.drop_drop]
      · rw [if_neg hb2] at h2; simp at h2
    · rw [if_neg hb1] at h1; simp at h1

/-- A successful read returns exactly the requested number of bytes. -/
theorem devRead_length (core : DEVCORE) (sp : CCPMEMSPACE) (a n : Nat) (S : Bytes)
    (h : devRead core sp a n = some S) (hlen : core.Lsb.length = 4096) : S.length = n := by
  cases sp with
  | sys => simp [devRead] at h
  | sb =>
    simp only [devRead, pspDevCcpXferMemLsbRead] at h
    by_cases hb : a < 4096 ∧ a + n ≤ 4096
    · rw [if_pos hb] at h
      simp only [Option.some.injEq] at h
      rw [← h]
      simp only [List.length_take, List.length_drop, hlen]
      omega
    · rw [if_neg hb] at h; simp at h
  | loc =>
    simp only [devRead, pspDevCcpXferMemLocalRead, Option.some.injEq] at h
    rw [← h, List.length_map, List.length_range]

theorem coreOutside_length (c c' : DEVCORE) (dsp : CCPMEMSPACE) (lo n : Nat)
    (h : coreOutside c c' dsp lo n) : c'.Lsb.length = c.Lsb.length := by
  cases dsp with
  | sys => rw [h.1]
  | sb => exact h.2.1
  | loc => rw [h.1]

theorem coreOutside_mono (c c' : DEVCORE) (dsp : CCPMEMSPACE) (lo n lo' n' : Nat)
    (h : coreOutside c c' dsp lo' n') (h1 : lo ≤ lo') (h2 : lo' + n' ≤ lo + n) :
    coreOutside c c' dsp lo n :=
  coreOutside_trans c c' c' dsp lo n lo' n' h (coreOutside_refl c' dsp lo' n') h1 h2
    (by omega) (by omega)

theorem ptRegionsSep_shift (ssp dsp : CCPMEMSPACE) (sa da n c rest : Nat)
    (h : ptRegionsSep ssp sa dsp da n) (hcr : c + rest ≤ n) :
    ptRegionsSep ssp (sa + c) dsp (da + c) rest := by
  rcases h with h | h | h
  · exact Or.inl h
  · exact Or.inr (Or.inl (by omega))
  · exact Or.inr (Or.inr (by omega))

theorem regionWf_sub (sp : CCPMEMSPACE) (a n b k : Nat) (h : regionWf sp a n)
    (h1 : a ≤ b) (h2 : b + k ≤ a + n) : regionWf sp b k := by
  cases sp
  · trivial
  · trivial
  · simp only [regionWf] at h ⊢
    omega

/-- The NOOP PASSTHRU loop copies the source region to the destination
region: if the source holds `S` and the regions are separated, a
successful run leaves exactly `S` at the destination, touching nothing
else. -/
theorem ccpPassthruLoop_noop (cbLeft : Nat) :
    ∀ (core : DEVCORE) (ctx : CCPXFERCTX) (S : Bytes) (core2 : DEVCORE) (ctx2 : CCPXFERCTX),
      ctx.fWriteRev = false →
      ctx.cbReadLeft = cbLeft → ctx.cbWriteLeft = cbLeft →
      core.Lsb.length = 4096 →
      regionWf ctx.srcSpace ctx.CcpAddrSrc cbLeft →
      regionWf ctx.dstSpace ctx.CcpAddrDst cbLeft →
      ptRegionsSep ctx.srcSpace ctx.CcpAddrSrc ctx.dstSpace ctx.CcpAddrDst cbLeft →
      devRead core ctx.srcSpace ctx.CcpAddrSrc cbLeft = some S →
      ccpPassthruLoop core ctx cbLeft = some (core2, ctx2) →
      (cbLeft ≠ 0 → devRead core2 ctx.dstSpace ctx.CcpAddrDst cbLeft = some S) ∧
      coreOutside core core2 ctx.dstSpace ctx.CcpAddrDst cbLeft ∧
      core2.Lsb.length = 4096 := by
  induction cbLeft using Nat.strong_induction_on with
  | _ cbLeft ih =>
    intro core ctx S core2 ctx2 hrev hrd hwr hlen hwfs hwfd hsep hS hloop
    by_cases h0 : cbLeft = 0
    · subst h0
      unfold ccpPassthruLoop at hloop
      rw [if_pos rfl] at hloop
      simp only [Option.some.injEq, Prod.mk.injEq] at hloop
      obtain ⟨hc, -⟩ := hloop
      subst hc
      exact ⟨fun h => absurd rfl h, coreOutside_refl _ _ _ _, hlen⟩
    · -- one chunk of c = min cbLeft 4096 bytes, then the rest
      unfold ccpPassthruLoop at hloop
      rw [if_neg h0] at hloop
      set c := min cbLeft 4096 with hcdef
      have hc0 : c ≠ 0 := by omega
      have hcle : c ≤ cbLeft := by omega
      set rest := cbLeft - c with hrestdef
      have hSlen : S.length = cbLeft := devRead_length core _ _ _ S hS hlen
      have hS' : devRead core ctx.srcSpace ctx.CcpAddrSrc (c + rest) = some S := by
        rw [show c + rest = cbLeft by omega]
        exact hS
      have hchunk : devRead core ctx.srcSpace ctx.CcpAddrSrc c = some (S.take c) := by
        rcases devRead_split_take core _ _ c rest S hS' with h | ⟨-, hc, -⟩
        · exact h
        · exact absurd hc hc0
      dsimp only at hloop
      rw [xferRead_exact core ctx c (by omega) hc0, hchunk] at hloop
      dsimp only [Option.map] at hloop
      have htklen : (S.take c).length = c := by
        rw [List.length_take]
        omega
      rw [xferWrite_exact core
          { srcSpace := ctx.srcSpace, dstSpace := ctx.dstSpace,
            CcpAddrSrc := ctx.CcpAddrSrc + c, cbReadLeft := ctx.cbReadLeft - c,
            CcpAddrDst := ctx.CcpAddrDst, cbWriteLeft := ctx.cbWriteLeft,
            fWriteRev := ctx.fWriteRev }
          (S.take c)
          (by show (S.take c).length ≤ ctx.cbWriteLeft
              rw [htklen, hwr]
              exact hcle)
          (by rw [htklen]; exact hc0)
          (by exact hrev)] at hloop
      dsimp only at hloop
      rw [htklen] at hloop
      rcases hw : devWrite core ctx.dstSpace ctx.CcpAddrDst (S.take c) with _ | core1
      · rw [hw] at hloop
        simp at hloop
      · rw [hw] at hloop
        dsimp only [Option.map] at hloop
        have hout1 : coreOutside core core1 ctx.dstSpace ctx.CcpAddrDst c := by
          have := devWrite_outside core _ _ _ core1 hw
            (by rw [htklen]; exact regionWf_sub _ _ cbLeft _ _ hwfd (by omega) (by omega)) hlen
          rwa [htklen] at this
        have hlen1 : core1.Lsb.length = 4096 := by
          rw [coreOutside_length core core1 _ _ _ hout1]
          exact hlen
        have hrb1 : devRead core1 ctx.dstSpace ctx.CcpAddrDst c = some (S.take c) := by
          have := devWrite_readback core _ _ _ core1 hw hlen (by rw [htklen]; omega)
          rwa [htklen] at this
        by_cases hrest0 : rest = 0
        · -- last chunk: the recursion is the base case
          rw [show cbLeft - c = 0 from by omega] at hloop
          unfold ccpPassthruLoop at hloop
          rw [if_pos rfl] at hloop
          simp only [Option.some.injEq, Prod.mk.injEq] at hloop
          obtain ⟨hc2, -⟩ := hloop
          subst hc2
          refine ⟨fun _ => ?_, ?_, hlen1⟩
          · have hTS : S.take c = S := List.take_of_length_le (by omega)
            rw [hTS] at hrb1
            rw [show cbLeft = c from by omega]
            exact hrb1
          · exact coreOutside_mono core core1 _ _ cbLeft _ c hout1 (by omega) (by omega)
        · -- recurse on the remaining bytes
          have hrestlt : rest < cbLeft := by omega
          have hsuffix : devRead core1 ctx.srcSpace (ctx.CcpAddrSrc + c) rest =
              some (S.drop c) := by
            rw [devRead_frame core core1 ctx.dstSpace ctx.CcpAddrDst c hout1
              ctx.srcSpace (ctx.CcpAddrSrc + c) rest
              (regionWf_sub ctx.srcSpace ctx.CcpAddrSrc cbLeft (ctx.CcpAddrSrc + c) rest
                hwfs (by omega) (by omega))
              (by
                rcases hsep with h | h | h
                · exact Or.inl h
                · exact Or.inr (Or.inl (by omega))
                · exact Or.inr (Or.inr (by omega)))]
            exact devRead_split_drop core _ _ c rest S hS' hrest0
          have hloop' : ccpPassthruLoop core1
              { ctx with cbReadLeft := ctx.cbReadLeft - c, CcpAddrSrc := ctx.CcpAddrSrc + c,
                         cbWriteLeft := ctx.cbWriteLeft - c, CcpAddrDst := ctx.CcpAddrDst + c }
              rest = some (core2, ctx2) := by
            rw [hrestdef]
            exact hloop
          have hrec := ih rest hrestlt core1
            { ctx with cbReadLeft := ctx.cbReadLeft - c, CcpAddrSrc := ctx.CcpAddrSrc + c,
                       cbWriteLeft := ctx.cbWriteLeft - c, CcpAddrDst := ctx.CcpAddrDst + c }
            (S.drop c) core2 ctx2 hrev (by show ctx.cbReadLeft - c = rest; omega)
            (by show ctx.cbWriteLeft - c = rest; omega)
            hlen1
            (regionWf_sub ctx.srcSpace ctx.CcpAddrSrc cbLeft (ctx.CcpAddrSrc + c) rest
              hwfs (by omega) (by omega))
            (regionWf_sub ctx.dstSpace ctx.CcpAddrDst cbLeft (ctx.CcpAddrDst + c) rest
              hwfd (by omega) (by omega))
            (ptRegionsSep_shift ctx.srcSpace ctx.dstSpace ctx.CcpAddrSrc ctx.CcpAddrDst
              cbLeft c rest hsep (by omega))
            hsuffix hloop'
          obtain ⟨hread2, hout2, hlen2⟩ := hrec
          refine ⟨fun _ => ?_, ?_, hlen2⟩
          · have hpart1 : devRead core2 ctx.dstSpace ctx.CcpAddrDst c = some (S.take c) := by
              rw [devRead_frame core1 core2 ctx.dstSpace (ctx.CcpAddrDst + c) rest hout2
                ctx.dstSpace ctx.CcpAddrDst c
                (regionWf_sub ctx.dstSpace ctx.CcpAddrDst cbLeft ctx.CcpAddrDst c
                  hwfd (by omega) (by omega))
                (Or.inr (Or.inl (by omega)))]
              exact hrb1
            have hjoin := devRead_join core2 ctx.dstSpace ctx.CcpAddrDst c rest
              (S.take c) (S.drop c) hpart1 (hread2 hrest0)
            rw [show c + rest = cbLeft from by omega, List.take_append_drop] at hjoin
            exact hjoin
          · have hout2' : coreOutside core1 core2 ctx.dstSpace (ctx.CcpAddrDst + c) rest :=
              hout2
            refine coreOutside_trans core core1 core2 ctx.dstSpace ctx.CcpAddrDst cbLeft
              ctx.CcpAddrDst c hout1 hout2' (by omega) (by omega) (by omega) (by omega)

/-- Unfolding of a successful non-SHA, reverse transfer-context
initialisation: the write cursor starts at the top of the window. -/
theorem xferCtxInit_nonSha_rev (core : DEVCORE) (req : CCP5REQ) (cbWrite : Nat)
    (srcSp dstSp : CCPMEMSPACE)
    (hs : ccpMemSpaceOf req.u16SrcMemType = some srcSp)
    (hd : ccpMemSpaceOf req.u16DstMemType = some dstSp) :
    pspDevCcpXferCtxInit core req false cbWrite true =
      some ({ core with cbWrittenLast := 0 },
        { srcSpace := srcSp, dstSpace := dstSp,
          CcpAddrSrc := CCP_ADDR_CREATE_FROM_HI_LO req.u16AddrSrcHigh req.u32AddrSrcLow,
          cbReadLeft := req.cbSrc,
          CcpAddrDst := CCP_ADDR_CREATE_FROM_HI_LO req.u16AddrDstHigh req.u32AddrDstLow + cbWrite,
          cbWriteLeft := cbWrite, fWriteRev := true }) := by
  unfold pspDevCcpXferCtxInit
  rw [hs, hd]
  rfl

/-- An exact-size reverse transfer write delegates to the
reverse-writing loop. -/
theorem xferWrite_exact_rev (core : DEVCORE) (ctx : CCPXFERCTX) (bs : Bytes)
    (hle : bs.length ≤ ctx.cbWriteLeft) (h0 : bs.length ≠ 0) (hrev : ctx.fWriteRev = true) :
    pspDevCcpXferCtxWrite core ctx bs =
      (ccpWriteRevLoop core ctx.dstSpace ctx.CcpAddrDst bs).map fun p =>
        (p.1, { ctx with CcpAddrDst := p.2 }) := by
  unfold pspDevCcpXferCtxWrite
  rw [Nat.min_eq_left hle]
  rw [if_pos ⟨h0, rfl⟩]
  rw [hrev]
  simp only [if_true]
  cases hw : ccpWriteRevLoop core ctx.dstSpace ctx.CcpAddrDst bs with
  | none => rfl
  | some p => cases p; rfl

/-- The reverse-write loop, entered with the cursor at the top of the
window `[a, a + |bs|)`, lands the bytes of `bs` in reverse order in the
window, ends with the cursor at `a`, and changes nothing else. -/
theorem ccpWriteRevLoop_readback (bs : Bytes) :
    ∀ (core : DEVCORE) (sp : CCPMEMSPACE) (a : Nat) (core' : DEVCORE) (addr' : Nat),
      core.Lsb.length = 4096 →
      regionWf sp a bs.length →
      ccpWriteRevLoop core sp (a + bs.length) bs = some (core', addr') →
      addr' = a ∧ (bs ≠ [] → devRead core' sp a bs.length = some bs.reverse) ∧
      coreOutside core core' sp a bs.length ∧ core'.Lsb.length = 4096 := by
  induction bs with
  | nil =>
    intro core sp a core' addr' hlen hwf h
    simp only [ccpWriteRevLoop, List.length_nil, Nat.add_zero, Option.some.injEq,
      Prod.mk.injEq] at h
    obtain ⟨hc, ha⟩ := h
    subst hc
    subst ha
    exact ⟨rfl, fun hne => absurd rfl hne, coreOutside_refl _ _ _ _, hlen⟩
  | cons b bs ih =>
    intro core sp a core' addr' hlen hwf h
    simp only [List.length_cons] at hwf ⊢
    simp only [ccpWriteRevLoop, List.length_cons] at h
    rw [show a + (bs.length + 1) - 1 = a + bs.length from by omega] at h
    rcases hw : devWrite core sp (a + bs.length) [b] with _ | core1
    · rw [hw] at h
      simp at h
    · rw [hw] at h
      dsimp only at h
      have hout1 : coreOutside core core1 sp (a + bs.length) 1 :=
        devWrite_outside core sp (a + bs.length) [b] core1 hw
          (regionWf_sub sp a (bs.length + 1) (a + bs.length) 1 hwf (by omega) (by omega)) hlen
      have hlen1 : core1.Lsb.length = 4096 :=
        (coreOutside_length core core1 sp (a + bs.length) 1 hout1).trans hlen
      have hrb1 : devRead core1 sp (a + bs.length) 1 = some [b] :=
        devWrite_readback core sp (a + bs.length) [b] core1 hw hlen
          (by simp only [List.length_cons, List.length_nil]; omega)
      have hrec := ih core1 sp a core' addr' hlen1
        (regionWf_sub sp a (bs.length + 1) a bs.length hwf (by omega) (by omega)) h
      obtain ⟨haddr, hread, hout2, hlen2⟩ := hrec
      have hrb1' : devRead core' sp (a + bs.length) 1 = some [b] := by
        rw [devRead_frame core1 core' sp a bs.length hout2 sp (a + bs.length) 1
          (regionWf_sub sp a (bs.length + 1) (a + bs.length) 1 hwf (by omega) (by omega))
          (Or.inr (Or.inr (by omega)))]
        exact hrb1
      refine ⟨haddr, fun _ => ?_, ?_, hlen2⟩
      · rw [List.reverse_cons]
        rcases hbs : bs with _ | ⟨b0, bs0⟩
        · subst hbs
          simp only [List.length_nil, Nat.add_zero] at hrb1' ⊢
          simpa using hrb1'
        · rw [← hbs]
          have hbne : bs ≠ [] := by rw [hbs]; exact List.cons_ne_nil b0 bs0
          exact devRead_join core' sp a bs.length 1 bs.reverse [b] (hread hbne) hrb1'
      · exact coreOutside_trans core core1 core' sp a (bs.length + 1) (a + bs.length) 1
          hout1 hout2 (by omega) (by omega) (by omega) (by omega)

/-- C6. The PASSTHRU request processor accepts a descriptor only when
the bitwise sub-function is NOOP, the reflect sub-function is 0, and
the byteswap sub-function is NOOP or is 256BIT with `cbSrc == 32`; any
other sub-function combination fails the request. On a 256BIT byteswap
acceptance with the source region holding the 32 bytes `S`, the 32
destination bytes afterwards are `S` reversed; on a NOOP byteswap
acceptance with the source region holding `S` and source and
destination regions separated, the `cbSrc` destination bytes afterwards
equal `S`. -/
theorem ccp_passthru_process_spec (core : DEVCORE) (pReq : CCP5REQ) (uFunc : Nat)
    (hlen : core.Lsb.length = 4096) :
    (¬ (CCP_V5_ENGINE_PASSTHRU_BITWISE_GET uFunc = CCP_V5_ENGINE_PASSTHRU_BITWISE_NOOP ∧
        (CCP_V5_ENGINE_PASSTHRU_BYTESWAP_GET uFunc = CCP_V5_ENGINE_PASSTHRU_BYTESWAP_NOOP ∨
          (CCP_V5_ENGINE_PASSTHRU_BYTESWAP_GET uFunc = CCP_V5_ENGINE_PASSTHRU_BYTESWAP_256BIT ∧
            pReq.cbSrc = 32)) ∧
        CCP_V5_ENGINE_PASSTHRU_REFLECT_GET uFunc = 0) →
      pspDevCcpReqPassthruProcess core pReq uFunc = none) ∧
    (∀ (ssp dsp : CCPMEMSPACE) (S : Bytes) (core2 : DEVCORE),
      CCP_V5_ENGINE_PASSTHRU_BITWISE_GET uFunc = CCP_V5_ENGINE_PASSTHRU_BITWISE_NOOP →
      CCP_V5_ENGINE_PASSTHRU_BYTESWAP_GET uFunc = CCP_V5_ENGINE_PASSTHRU_BYTESWAP_NOOP →
      CCP_V5_ENGINE_PASSTHRU_REFLECT_GET uFunc = 0 →
      ccpMemSpaceOf pReq.u16SrcMemType = some ssp →
      ccpMemSpaceOf pReq.u16DstMemType = some dsp →
      pReq.cbSrc ≠ 0 →
      regionWf ssp (CCP_ADDR_CREATE_FROM_HI_LO pReq.u16AddrSrcHigh pReq.u32AddrSrcLow)
        pReq.cbSrc →
      regionWf dsp (CCP_ADDR_CREATE_FROM_HI_LO pReq.u16AddrDstHigh pReq.u32AddrDstLow)
        pReq.cbSrc →
      ptRegionsSep ssp (CCP_ADDR_CREATE_FROM_HI_LO pReq.u16AddrSrcHigh pReq.u32AddrSrcLow)
        dsp (CCP_ADDR_CREATE_FROM_HI_LO pReq.u16AddrDstHigh pReq.u32AddrDstLow) pReq.cbSrc →
      devRead core ssp (CCP_ADDR_CREATE_FROM_HI_LO pReq.u16AddrSrcHigh pReq.u32AddrSrcLow)
        pReq.cbSrc = some S →
      pspDevCcpReqPassthruProcess core pReq uFunc = some core2 →
      devRead core2 dsp (CCP_ADDR_CREATE_FROM_HI_LO pReq.u16AddrDstHigh pReq.u32AddrDstLow)
        pReq.cbSrc = some S) ∧
    (∀ (ssp dsp : CCPMEMSPACE) (S : Bytes) (core2 : DEVCORE),
      CCP_V5_ENGINE_PASSTHRU_BITWISE_GET uFunc = CCP_V5_ENGINE_PASSTHRU_BITWISE_NOOP →
      CCP_V5_ENGINE_PASSTHRU_BYTESWAP_GET uFunc = CCP_V5_ENGINE_PASSTHRU_BYTESWAP_256BIT →
      CCP_V5_ENGINE_PASSTHRU_REFLECT_GET uFunc = 0 →
      pReq.cbSrc = 32 →
      ccpMemSpaceOf pReq.u16SrcMemType = some ssp →
      ccpMemSpaceOf pReq.u16DstMemType = some dsp →
      regionWf dsp (CCP_ADDR_CREATE_FROM_HI_LO pReq.u16AddrDstHigh pReq.u32AddrDstLow) 32 →
      devRead core ssp (CCP_ADDR_CREATE_FROM_HI_LO pReq.u16AddrSrcHigh pReq.u32AddrSrcLow)
        32 = some S →
      pspDevCcpReqPassthruProcess core pReq uFunc = some core2 →
      devRead core2 dsp (CCP_ADDR_CREATE_FROM_HI_LO pReq.u16AddrDstHigh pReq.u32AddrDstLow)
        32 = some S.reverse) := by
  refine ⟨fun hno => ?_, fun ssp dsp S core2 hbw hby hrf hsrc hdst hne hwfs hwfd hsep hS hp => ?_,
    fun ssp dsp S core2 hbw hby hrf hcb hsrc hdst hwfd hS hp => ?_⟩
  · simp only [pspDevCcpReqPassthruProcess]
    rw [if_neg hno]
  · -- NOOP byteswap: plain copy through the forward loop.
    simp only [pspDevCcpReqPassthruProcess] at hp
    rw [if_pos ⟨hbw, Or.inl hby, hrf⟩] at hp
    rw [hby] at hp
    rw [show (decide (CCP_V5_ENGINE_PASSTHRU_BYTESWAP_NOOP =
        CCP_V5_ENGINE_PASSTHRU_BYTESWAP_256BIT)) = false from by decide] at hp
    rw [xferCtxInit_nonSha core pReq pReq.cbSrc ssp dsp hsrc hdst] at hp
    dsimp only at hp
    rcases hl : ccpPassthruLoop { core with cbWrittenLast := 0 }
        { srcSpace := ssp, dstSpace := dsp,
          CcpAddrSrc := CCP_ADDR_CREATE_FROM_HI_LO pReq.u16AddrSrcHigh pReq.u32AddrSrcLow,
          cbReadLeft := pReq.cbSrc,
          CcpAddrDst := CCP_ADDR_CREATE_FROM_HI_LO pReq.u16AddrDstHigh pReq.u32AddrDstLow,
          cbWriteLeft := pReq.cbSrc, fWriteRev := false } pReq.cbSrc with _ | p
    · rw [hl] at hp
      simp at hp
    · rw [hl] at hp
      dsimp only at hp
      simp only [Option.some.injEq] at hp
      have hnoop := ccpPassthruLoop_noop pReq.cbSrc { core with cbWrittenLast := 0 }
        { srcSpace := ssp, dstSpace := dsp,
          CcpAddrSrc := CCP_ADDR_CREATE_FROM_HI_LO pReq.u16AddrSrcHigh pReq.u32AddrSrcLow,
          cbReadLeft := pReq.cbSrc,
          CcpAddrDst := CCP_ADDR_CREATE_FROM_HI_LO pReq.u16AddrDstHigh pReq.u32AddrDstLow,
          cbWriteLeft := pReq.cbSrc, fWriteRev := false } S p.1 p.2
        rfl rfl rfl hlen hwfs hwfd hsep (by rw [devRead_cbWrittenLast]; exact hS) hl
      rw [← hp]
      exact hnoop.1 hne
  · -- 256BIT byteswap: a single chunk through the reverse-writing loop.
    simp only [pspDevCcpReqPassthruProcess] at hp
    rw [if_pos ⟨hbw, Or.inr ⟨hby, hcb⟩, hrf⟩] at hp
    rw [hby, hcb] at hp
    rw [show (decide (CCP_V5_ENGINE_PASSTHRU_BYTESWAP_256BIT =
        CCP_V5_ENGINE_PASSTHRU_BYTESWAP_256BIT)) = true from by decide] at hp
    rw [xferCtxInit_nonSha_rev core pReq 32 ssp dsp hsrc hdst] at hp
    dsimp only at hp
    rw [hcb] at hp
    unfold ccpPassthruLoop at hp
    rw [if_neg (by omega : ¬(32 = 0))] at hp
    simp only [show min 32 4096 = 32 from rfl] at hp
    rw [xferRead_exact { core with cbWrittenLast := 0 }
        { srcSpace := ssp, dstSpace := dsp,
          CcpAddrSrc := CCP_ADDR_CREATE_FROM_HI_LO pReq.u16AddrSrcHigh pReq.u32AddrSrcLow,
          cbReadLeft := 32,
          CcpAddrDst := CCP_ADDR_CREATE_FROM_HI_LO pReq.u16AddrDstHigh pReq.u32AddrDstLow + 32,
          cbWriteLeft := 32, fWriteRev := true } 32 (Nat.le_refl 32) (by omega)] at hp
    rw [show devRead { core with cbWrittenLast := 0 } ssp
        (CCP_ADDR_CREATE_FROM_HI_LO pReq.u16AddrSrcHigh pReq.u32AddrSrcLow) 32 =
        some S from by rw [devRead_cbWrittenLast]; exact hS] at hp
    dsimp only [Option.map] at hp
    have hSlen : S.length = 32 :=
      devRead_length core ssp _ 32 S hS hlen
    rw [xferWrite_exact_rev { core with cbWrittenLast := 0 }
        { srcSpace := ssp, dstSpace := dsp,
          CcpAddrSrc := CCP_ADDR_CREATE_FROM_HI_LO pReq.u16AddrSrcHigh pReq.u32AddrSrcLow + 32,
          cbReadLeft := 32 - 32,
          CcpAddrDst := CCP_ADDR_CREATE_FROM_HI_LO pReq.u16AddrDstHigh pReq.u32AddrDstLow + 32,
          cbWriteLeft := 32, fWriteRev := true } S
        (by show S.length ≤ 32; omega) (by omega) rfl] at hp
    dsimp only at hp
    rcases hw : ccpWriteRevLoop { core with cbWrittenLast := 0 } dsp
        (CCP_ADDR_CREATE_FROM_HI_LO pReq.u16AddrDstHigh pReq.u32AddrDstLow + 32) S
        with _ | q
    · rw [hw] at hp
      simp at hp
    · rw [hw] at hp
      dsimp only [Option.map] at hp
      unfold ccpPassthruLoop at hp
      rw [if_pos (by omega : 32 - 32 = 0)] at hp
      simp only [Option.some.injEq, Prod.mk.injEq] at hp
      have hrev := ccpWriteRevLoop_readback S { core with cbWrittenLast := 0 } dsp
        (CCP_ADDR_CREATE_FROM_HI_LO pReq.u16AddrDstHigh pReq.u32AddrDstLow) q.1 q.2
        hlen (by rw [hSlen]; exact hwfd)
        (by rw [hSlen]; exact hw)
      obtain ⟨-, hread, -, -⟩ := hrev
      have hSne : S ≠ [] := by
        intro hnil
        rw [hnil] at hSlen
        simp at hSlen
      rw [← hp, ← hSlen]
      exact hread hSne

/-- A reverse write into local memory never fails. -/
theorem ccpWriteRevLoop_loc_some (bs : Bytes) :
    ∀ (core : DEVCORE) (a : Nat), ∃ p, ccpWriteRevLoop core CCPMEMSPACE.loc a bs = some p := by
  induction bs with
  | nil => exact fun core a => ⟨(core, a), rfl⟩
  | cons b bs ih =>
    intro core a
    obtain ⟨p, hp⟩ := ih
      { core with localMem := pspDevCcpXferMemLocalWrite core.localMem (a - 1) [b]
                  cbWrittenLast := core.cbWrittenLast + 1 } (a - 1)
    exact ⟨p, hp⟩

/-- Local memory for the PASSTHRU witness: bytes 1,2,3,4 at `0x100`,
zero elsewhere. -/
def ccpPtWitMem : Nat → Nat := fun a =>
  if a = 0x100 then 1 else if a = 0x101 then 2
  else if a = 0x102 then 3 else if a = 0x103 then 4 else 0

/-- The device core for the PASSTHRU witness. -/
def ccpPtWitCore : DEVCORE :=
  { Lsb := List.replicate 4096 0, pOsslShaCtx := none,
    localMem := ccpPtWitMem, cbWrittenLast := 0 }

/-- The PASSTHRU witness descriptor: 4 source bytes at `0x100` (LOCAL)
to destination `0x200` (LOCAL). -/
def ccpPtWitReq : CCP5REQ :=
  { u32Dw0 := 0
    cbSrc := 4
    u32AddrSrcLow := 0x100
    u16AddrSrcHigh := 0
    u16SrcMemType := 2
    u32AddrDstLow := 0x200
    u16AddrDstHigh := 0
    u16DstMemType := 2
    u32AddrKeyLow := 0
    u16AddrKeyHigh := 0
    u16KeyMemType := 2 }

/-- The 256-bit byteswap witness descriptor: 32 source bytes at `0x100`
(LOCAL) to destination `0x200` (LOCAL). -/
def ccpPtWitReq32 : CCP5REQ :=
  { u32Dw0 := 0
    cbSrc := 32
    u32AddrSrcLow := 0x100
    u16AddrSrcHigh := 0
    u16SrcMemType := 2
    u32AddrDstLow := 0x200
    u16AddrDstHigh := 0
    u16DstMemType := 2
    u32AddrKeyLow := 0
    u16AddrKeyHigh := 0
    u16KeyMemType := 2 }

/-- Witness for C6: `uFunc = 1` (byteswap 1) is rejected; a NOOP copy
(`uFunc = 0`) of 4 bytes lands the source bytes at the destination; a
256-bit byteswap (`uFunc = 2`) of 32 bytes lands the reversed source
bytes at the destination. -/
theorem ccp_passthru_process_spec_witness :
    pspDevCcpReqPassthruProcess ccpPtWitCore ccpPtWitReq 1 = none ∧
    (∃ core2, pspDevCcpReqPassthruProcess ccpPtWitCore ccpPtWitReq 0 = some core2 ∧
      devRead core2 CCPMEMSPACE.loc 0x200 4 =
        some (pspDevCcpXferMemLocalRead ccpPtWitMem 0x100 4)) ∧
    (∃ core2, pspDevCcpReqPassthruProcess ccpPtWitCore ccpPtWitReq32 2 = some core2 ∧
      devRead core2 CCPMEMSPACE.loc 0x200 32 =
        some (pspDevCcpXferMemLocalRead ccpPtWitMem 0x100 32).reverse) := by
  refine ⟨?_, ?_, ?_⟩
  · exact (ccp_passthru_process_spec ccpPtWitCore ccpPtWitReq 1
      (List.length_replicate 4096 0)).1 (by decide)
  · have hp : pspDevCcpReqPassthruProcess ccpPtWitCore ccpPtWitReq 0 =
        some { Lsb := List.replicate 4096 0, pOsslShaCtx := none,
               localMem := pspDevCcpXferMemLocalWrite ccpPtWitMem 0x200
                 (pspDevCcpXferMemLocalRead ccpPtWitMem 0x100 4),
               cbWrittenLast := 4 } := by
      simp only [pspDevCcpReqPassthruProcess]
      rw [if_pos (by decide)]
      rw [show (decide (CCP_V5_ENGINE_PASSTHRU_BYTESWAP_GET 0 =
          CCP_V5_ENGINE_PASSTHRU_BYTESWAP_256BIT)) = false from by decide]
      rw [xferCtxInit_nonSha ccpPtWitCore ccpPtWitReq ccpPtWitReq.cbSrc .loc .loc rfl rfl]
      dsimp only
      rw [show ccpPtWitReq.cbSrc = 4 from rfl]
      rw [show CCP_ADDR_CREATE_FROM_HI_LO ccpPtWitReq.u16AddrSrcHigh ccpPtWitReq.u32AddrSrcLow =
          0x100 from rfl]
      rw [show CCP_ADDR_CREATE_FROM_HI_LO ccpPtWitReq.u16AddrDstHigh ccpPtWitReq.u32AddrDstLow =
          0x200 from rfl]
      unfold ccpPassthruLoop
      rw [if_neg (by omega : ¬(4 = 0)), show min 4 4096 = 4 from rfl]
      rw [show ({ Lsb := ccpPtWitCore.Lsb
                  pOsslShaCtx := ccpPtWitCore.pOsslShaCtx
                  localMem := ccpPtWitCore.localMem
                  cbWrittenLast := 0 } : DEVCORE) = ccpPtWitCore from rfl]
      simp only []
      rw [show pspDevCcpXferCtxRead ccpPtWitCore
          { srcSpace := .loc, dstSpace := .loc, CcpAddrSrc := 0x100, cbReadLeft := 4,
            CcpAddrDst := 0x200, cbWriteLeft := 4, fWriteRev := false } 4 =
          some (pspDevCcpXferMemLocalRead ccpPtWitMem 0x100 4,
            { srcSpace := .loc, dstSpace := .loc, CcpAddrSrc := 0x104, cbReadLeft := 0,
              CcpAddrDst := 0x200, cbWriteLeft := 4, fWriteRev := false }) from rfl]
      dsimp only
      rw [show pspDevCcpXferCtxWrite ccpPtWitCore
          { srcSpace := .loc, dstSpace := .loc, CcpAddrSrc := 0x104, cbReadLeft := 0,
            CcpAddrDst := 0x200, cbWriteLeft := 4, fWriteRev := false }
          (pspDevCcpXferMemLocalRead ccpPtWitMem 0x100 4) =
          some ({ Lsb := List.replicate 4096 0, pOsslShaCtx := none,
                  localMem := pspDevCcpXferMemLocalWrite ccpPtWitMem 0x200
                    (pspDevCcpXferMemLocalRead ccpPtWitMem 0x100 4),
                  cbWrittenLast := 4 },
            { srcSpace := .loc, dstSpace := .loc, CcpAddrSrc := 0x104, cbReadLeft := 0,
              CcpAddrDst := 0x204, cbWriteLeft := 0, fWriteRev := false }) from rfl]
      dsimp only
      unfold ccpPassthruLoop
      rw [if_pos rfl]
    refine ⟨_, hp, ?_⟩
    exact (ccp_passthru_process_spec ccpPtWitCore ccpPtWitReq 0
        (List.length_replicate 4096 0)).2.1 .loc .loc
      (pspDevCcpXferMemLocalRead ccpPtWitMem 0x100 4) _
      (by decide) (by decide) (by decide) rfl rfl (by decide)
      (by decide : (0x100 : Nat) + ccpPtWitReq.cbSrc ≤ 4294967296)
      (by decide : (0x200 : Nat) + ccpPtWitReq.cbSrc ≤ 4294967296)
      (Or.inr (Or.inl (by decide))) rfl hp
  · obtain ⟨p, hwv⟩ := ccpWriteRevLoop_loc_some
      (pspDevCcpXferMemLocalRead ccpPtWitMem 0x100 32) ccpPtWitCore 0x220
    have hp : pspDevCcpReqPassthruProcess ccpPtWitCore ccpPtWitReq32 2 = some p.1 := by
      simp only [pspDevCcpReqPassthruProcess]
      rw [if_pos (by decide)]
      rw [show (decide (CCP_V5_ENGINE_PASSTHRU_BYTESWAP_GET 2 =
          CCP_V5_ENGINE_PASSTHRU_BYTESWAP_256BIT)) = true from by decide]
      rw [xferCtxInit_nonSha_rev ccpPtWitCore ccpPtWitReq32 ccpPtWitReq32.cbSrc .loc .loc rfl rfl]
      dsimp only
      rw [show ccpPtWitReq32.cbSrc = 32 from rfl]
      rw [show CCP_ADDR_CREATE_FROM_HI_LO ccpPtWitReq32.u16AddrSrcHigh
          ccpPtWitReq32.u32AddrSrcLow = 0x100 from rfl]
      rw [show CCP_ADDR_CREATE_FROM_HI_LO ccpPtWitReq32.u16AddrDstHigh
          ccpPtWitReq32.u32AddrDstLow = 0x200 from rfl]
      rw [show (0x200 + 32 : Nat) = 0x220 from rfl]
      unfold ccpPassthruLoop
      rw [if_neg (by omega : ¬(32 = 0)), show min 32 4096 = 32 from rfl]
      rw [show ({ Lsb := ccpPtWitCore.Lsb
                  pOsslShaCtx := ccpPtWitCore.pOsslShaCtx
                  localMem := ccpPtWitCore.localMem
                  cbWrittenLast := 0 } : DEVCORE) = ccpPtWitCore from rfl]
      simp only []
      rw [show pspDevCcpXferCtxRead ccpPtWitCore
          { srcSpace := .loc, dstSpace := .loc, CcpAddrSrc := 0x100, cbReadLeft := 32,
            CcpAddrDst := 0x220, cbWriteLeft := 32, fWriteRev := true } 32 =
          some (pspDevCcpXferMemLocalRead ccpPtWitMem 0x100 32,
            { srcSpace := .loc, dstSpace := .loc, CcpAddrSrc := 0x120, cbReadLeft := 0,
              CcpAddrDst := 0x220, cbWriteLeft := 32, fWriteRev := true }) from rfl]
      dsimp only
      rw [xferWrite_exact_rev ccpPtWitCore
          { srcSpace := .loc, dstSpace := .loc, CcpAddrSrc := 0x120, cbReadLeft := 0,
            CcpAddrDst := 0x220, cbWriteLeft := 32, fWriteRev := true }
          (pspDevCcpXferMemLocalRead ccpPtWitMem 0x100 32)
          (by decide) (by decide) rfl]
      rw [hwv]
      dsimp only [Option.map]
      unfold ccpPassthruLoop
      rw [if_pos (by decide : (32 : Nat) - 32 = 0)]
    refine ⟨p.1, hp, ?_⟩
    exact (ccp_passthru_process_spec ccpPtWitCore ccpPtWitReq32 2
        (List.length_replicate 4096 0)).2.2 .loc .loc
      (pspDevCcpXferMemLocalRead ccpPtWitMem 0x100 32) p.1
      (by decide) (by decide) (by decide) rfl rfl rfl
      (by decide : (0x200 : Nat) + 32 ≤ 4294967296) rfl hp

/-! ## C5: the SHA engine -/

/-- A SHA round maps an 8-word state to an 8-word state (and any other
shape to itself). -/
theorem shaRound256_length (st : List Nat) (kw : Nat × Nat) :
    (shaRound256 st kw).length = st.length := by
  unfold shaRound256
  split
  · rfl
  · rfl

theorem shaRound512_length (st : List Nat) (kw : Nat × Nat) :
    (shaRound512 st kw).length = st.length := by
  unfold shaRound512
  split
  · rfl
  · rfl

theorem foldl_shaRound256_length (l : List (Nat × Nat)) :
    ∀ st : List Nat, (l.foldl shaRound256 st).length = st.length := by
  induction l with
  | nil => intro st; rfl
  | cons a l ih => intro st; rw [List.foldl_cons, ih, shaRound256_length]

theorem foldl_shaRound512_length (l : List (Nat × Nat)) :
    ∀ st : List Nat, (l.foldl shaRound512 st).length = st.length := by
  induction l with
  | nil => intro st; rfl
  | cons a l ih => intro st; rw [List.foldl_cons, ih, shaRound512_length]

theorem shaCompress256_length (h : List Nat) (block : Bytes) :
    (shaCompress256 h block).length = h.length := by
  unfold shaCompress256
  rw [List.length_map, List.length_zip, foldl_shaRound256_length, Nat.min_self]

theorem shaCompress512_length (h : List Nat) (block : Bytes) :
    (shaCompress512 h block).length = h.length := by
  unfold shaCompress512
  rw [List.length_map, List.length_zip, foldl_shaRound512_length, Nat.min_self]

theorem foldl_shaCompress256_length (l : List Bytes) :
    ∀ h : List Nat, (l.foldl shaCompress256 h).length = h.length := by
  induction l with
  | nil => intro h; rfl
  | cons a l ih => intro h; rw [List.foldl_cons, ih, shaCompress256_length]

theorem foldl_shaCompress512_length (l : List Bytes) :
    ∀ h : List Nat, (l.foldl shaCompress512 h).length = h.length := by
  induction l with
  | nil => intro h; rfl
  | cons a l ih => intro h; rw [List.foldl_cons, ih, shaCompress512_length]

theorem beBytes_length (n v : Nat) : (beBytes n v).length = n := by
  unfold beBytes
  rw [List.length_map, List.length_range]

theorem flatten_map_beBytes_length (n : Nat) :
    ∀ H : List Nat, ((H.map (beBytes n)).flatten).length = n * H.length := by
  intro H
  induction H with
  | nil => simp
  | cons h H ih =>
    rw [List.map_cons, List.flatten_cons, List.length_append, beBytes_length, ih,
      List.length_cons, Nat.mul_succ]
    omega

/-- SHA-256 digests are 32 bytes. -/
theorem sha256_length (msg : Bytes) : (sha256 msg).length = 32 := by
  unfold sha256
  rw [flatten_map_beBytes_length, foldl_shaCompress256_length]
  rfl

/-- SHA-384 digests are 48 bytes. -/
theorem sha384_length (msg : Bytes) : (sha384 msg).length = 48 := by
  unfold sha384
  rw [flatten_map_beBytes_length, List.length_take, foldl_shaCompress512_length]
  rfl

/-- The SHA update loop over a local-memory source never fails and
accumulates exactly the `cbLeft` source bytes, advancing only the read
side of the context. -/
theorem ccpShaUpdateLoop_loc (cbLeft : Nat) :
    ∀ (core : DEVCORE) (ctx : CCPXFERCTX) (acc : Bytes),
      ctx.srcSpace = CCPMEMSPACE.loc →
      ctx.cbReadLeft = cbLeft →
      ccpShaUpdateLoop core ctx acc cbLeft =
        some (acc ++ pspDevCcpXferMemLocalRead core.localMem ctx.CcpAddrSrc cbLeft,
          { ctx with cbReadLeft := ctx.cbReadLeft - cbLeft
                     CcpAddrSrc := ctx.CcpAddrSrc + cbLeft }) := by
  induction cbLeft using Nat.strong_induction_on with
  | _ cbLeft ih =>
    intro core ctx acc hsrc hrd
    obtain ⟨ssp, dsp, sa, rd, da, wr, fr⟩ := ctx
    dsimp only at hsrc hrd ⊢
    subst hsrc
    subst hrd
    by_cases h0 : rd = 0
    · subst h0
      unfold ccpShaUpdateLoop
      rw [if_pos rfl]
      simp only [pspDevCcpXferMemLocalRead, List.range_zero, List.map_nil, List.append_nil,
        Nat.sub_zero, Nat.add_zero]
    · unfold ccpShaUpdateLoop
      rw [if_neg h0]
      dsimp only
      set c := min rd 256 with hcdef
      have hc0 : c ≠ 0 := by omega
      have hcle : c ≤ rd := by omega
      rw [xferRead_exact core
        { srcSpace := CCPMEMSPACE.loc, dstSpace := dsp, CcpAddrSrc := sa, cbReadLeft := rd,
          CcpAddrDst := da, cbWriteLeft := wr, fWriteRev := fr } c (by show c ≤ rd; omega) hc0]
      rw [show devRead core CCPMEMSPACE.loc sa c =
          some (pspDevCcpXferMemLocalRead core.localMem sa c) from rfl]
      dsimp only [Option.map]
      rw [ih (rd - c) (by omega) core
        { srcSpace := CCPMEMSPACE.loc, dstSpace := dsp, CcpAddrSrc := sa + c,
          cbReadLeft := rd - c, CcpAddrDst := da, cbWriteLeft := wr, fWriteRev := fr }
        (acc ++ pspDevCcpXferMemLocalRead core.localMem sa c) rfl rfl]
      dsimp only
      have hjoin : pspDevCcpXferMemLocalRead core.localMem sa c ++
          pspDevCcpXferMemLocalRead core.localMem (sa + c) (rd - c) =
          pspDevCcpXferMemLocalRead core.localMem sa rd := by
        have h := devRead_join core CCPMEMSPACE.loc sa c (rd - c)
          (pspDevCcpXferMemLocalRead core.localMem sa c)
          (pspDevCcpXferMemLocalRead core.localMem (sa + c) (rd - c))
          rfl rfl
        rw [show c + (rd - c) = rd from by omega] at h
        simpa [devRead, Option.some.injEq] using h.symm
      rw [List.append_assoc, hjoin]
      rw [show sa + c + (rd - c) = sa + rd from by omega,
        show rd - c - (rd - c) = rd - rd from by omega]

/-- A LOCAL mem-type selects the local-memory space. -/
theorem ccpMemSpaceOf_local (v : Nat)
    (h : CCP_V5_MEM_TYPE_GET v = CCP_V5_MEM_TYPE_LOCAL) :
    ccpMemSpaceOf v = some CCPMEMSPACE.loc := by
  unfold ccpMemSpaceOf
  rw [h]
  rfl

/-- Unfolding of a successful SHA transfer-context initialisation: the
write side targets the LSB slot named by the source mem-type, with the
reverse-write cursor at the top of the window. -/
theorem xferCtxInit_sha (core : DEVCORE) (req : CCP5REQ) (cbWrite : Nat)
    (srcSp : CCPMEMSPACE)
    (hs : ccpMemSpaceOf req.u16SrcMemType = some srcSp)
    (hid : CCP_V5_MEM_LSB_CTX_ID_GET req.u16SrcMemType < 128) :
    pspDevCcpXferCtxInit core req true cbWrite true =
      some ({ core with cbWrittenLast := 0 },
        { srcSpace := srcSp, dstSpace := CCPMEMSPACE.sb,
          CcpAddrSrc := CCP_ADDR_CREATE_FROM_HI_LO req.u16AddrSrcHigh req.u32AddrSrcLow,
          cbReadLeft := req.cbSrc,
          CcpAddrDst := CCP_V5_MEM_LSB_CTX_ID_GET req.u16SrcMemType * 32 + cbWrite,
          cbWriteLeft := cbWrite, fWriteRev := true }) := by
  unfold pspDevCcpXferCtxInit
  rw [hs]
  dsimp only
  rw [if_pos hid]
  rfl

/-- A reverse write into the LSB succeeds whenever the window is in
bounds. -/
theorem ccpWriteRevLoop_sb_some (bs : Bytes) :
    ∀ (core : DEVCORE) (a : Nat),
      core.Lsb.length = 4096 → a ≤ 4096 → bs.length ≤ a →
      ∃ p, ccpWriteRevLoop core CCPMEMSPACE.sb a bs = some p := by
  induction bs with
  | nil => exact fun core a _ _ _ => ⟨(core, a), rfl⟩
  | cons b bs ih =>
    intro core a hlen ha hba
    simp only [List.length_cons] at hba
    have hw : devWrite core CCPMEMSPACE.sb (a - 1) [b] =
        some { core with Lsb := listWriteSeg core.Lsb (a - 1) [b] } := by
      simp only [devWrite, pspDevCcpXferMemLsbWrite]
      rw [if_pos (by simp only [List.length_cons, List.length_nil]; omega)]
    simp only [ccpWriteRevLoop]
    rw [hw]
    dsimp only
    exact ih { core with Lsb := listWriteSeg core.Lsb (a - 1) [b] } (a - 1)
      (by rw [listWriteSeg_length core.Lsb [b] (a - 1)
            (by simp only [List.length_cons, List.length_nil]; omega)]
          exact hlen)
      (by omega) (by omega)

/-- A non-eom SHA descriptor over a local-memory source streams its
`cbSrc` source bytes into the digest context (creating it, for the
descriptor type, when absent), leaving the rest of the core unchanged
and zeroing `cbWrittenLast`. -/
theorem ccpSha_step_mid (core : DEVCORE) (req : CCP5REQ) (uFunc : Nat) (fInit : Bool)
    (t s : Nat) (acc : Bytes)
    (htype : CCP_V5_ENGINE_SHA_TYPE_GET uFunc = t)
    (ht2 : t = CCP_V5_ENGINE_SHA_TYPE_256 ∨ t = CCP_V5_ENGINE_SHA_TYPE_384)
    (hmem : CCP_V5_MEM_TYPE_GET req.u16SrcMemType = CCP_V5_MEM_TYPE_LOCAL)
    (hslot : CCP_V5_MEM_LSB_CTX_ID_GET req.u16SrcMemType = s)
    (hsb : s * 32 + (if t = CCP_V5_ENGINE_SHA_TYPE_256 then 32 else 48) ≤ 4096)
    (hctx : core.pOsslShaCtx = none ∧ acc = [] ∨
      core.pOsslShaCtx = some { shaType := t, acc := acc }) :
    pspDevCcpReqShaProcess core req uFunc fInit false =
      some { core with
        pOsslShaCtx := some { shaType := t
                              acc := acc ++ pspDevCcpXferMemLocalRead core.localMem
                                (CCP_ADDR_CREATE_FROM_HI_LO req.u16AddrSrcHigh
                                  req.u32AddrSrcLow) req.cbSrc }
        cbWrittenLast := 0 } := by
  have h32 : 32 ≤ (if t = CCP_V5_ENGINE_SHA_TYPE_256 then 32 else 48) := by
    rcases ht2 with h | h
    · rw [h, if_pos rfl]
    · rw [h]
      rw [if_neg (by decide)]
      omega
  have hid : CCP_V5_MEM_LSB_CTX_ID_GET req.u16SrcMemType < 128 := by
    rw [hslot]
    omega
  simp only [pspDevCcpReqShaProcess]
  rw [htype]
  rw [if_pos ht2]
  rw [xferCtxInit_sha core req (if t = CCP_V5_ENGINE_SHA_TYPE_256 then 32 else 48)
    CCPMEMSPACE.loc (ccpMemSpaceOf_local _ hmem) hid]
  dsimp only
  rcases hctx with ⟨hnone, hacc⟩ | hsome
  · subst hacc
    rw [hnone]
    dsimp only
    rw [ccpShaUpdateLoop_loc req.cbSrc
      { Lsb := core.Lsb
        pOsslShaCtx := none
        localMem := core.localMem
        cbWrittenLast := 0 }
      { srcSpace := CCPMEMSPACE.loc, dstSpace := CCPMEMSPACE.sb,
        CcpAddrSrc := CCP_ADDR_CREATE_FROM_HI_LO req.u16AddrSrcHigh req.u32AddrSrcLow,
        cbReadLeft := req.cbSrc,
        CcpAddrDst := CCP_V5_MEM_LSB_CTX_ID_GET req.u16SrcMemType * 32 +
          (if t = CCP_V5_ENGINE_SHA_TYPE_256 then 32 else 48),
        cbWriteLeft := if t = CCP_V5_ENGINE_SHA_TYPE_256 then 32 else 48,
        fWriteRev := true } [] rfl rfl]
    dsimp only
    rfl
  · rw [hsome]
    dsimp only
    rw [ccpShaUpdateLoop_loc req.cbSrc
      { Lsb := core.Lsb
        pOsslShaCtx := some { shaType := t, acc := acc }
        localMem := core.localMem
        cbWrittenLast := 0 }
      { srcSpace := CCPMEMSPACE.loc, dstSpace := CCPMEMSPACE.sb,
        CcpAddrSrc := CCP_ADDR_CREATE_FROM_HI_LO req.u16AddrSrcHigh req.u32AddrSrcLow,
        cbReadLeft := req.cbSrc,
        CcpAddrDst := CCP_V5_MEM_LSB_CTX_ID_GET req.u16SrcMemType * 32 +
          (if t = CCP_V5_ENGINE_SHA_TYPE_256 then 32 else 48),
        cbWriteLeft := if t = CCP_V5_ENGINE_SHA_TYPE_256 then 32 else 48,
        fWriteRev := true } acc rfl rfl]
    dsimp only
    rfl

/-- Finalised digests have the width declared by the SHA type. -/
theorem ccpShaFinal_length (t : Nat)
    (ht2 : t = CCP_V5_ENGINE_SHA_TYPE_256 ∨ t = CCP_V5_ENGINE_SHA_TYPE_384) (X : Bytes) :
    (ccpShaFinal t X).length = (if t = CCP_V5_ENGINE_SHA_TYPE_256 then 32 else 48) := by
  unfold ccpShaFinal
  rcases ht2 with h | h
  · rw [h, if_pos rfl, if_pos rfl, sha256_length]
  · rw [h, if_neg (by decide), if_neg (by decide), sha384_length]

/-- An eom SHA descriptor over a local-memory source streams its bytes
into the context, finalises, writes the byte-reversed digest into LSB
slot `s` and frees the context, touching local memory not at all and
the LSB only inside the slot window. -/
theorem ccpSha_step_eom (core : DEVCORE) (req : CCP5REQ) (uFunc : Nat) (fInit : Bool)
    (t s : Nat) (acc : Bytes)
    (htype : CCP_V5_ENGINE_SHA_TYPE_GET uFunc = t)
    (ht2 : t = CCP_V5_ENGINE_SHA_TYPE_256 ∨ t = CCP_V5_ENGINE_SHA_TYPE_384)
    (hmem : CCP_V5_MEM_TYPE_GET req.u16SrcMemType = CCP_V5_MEM_TYPE_LOCAL)
    (hslot : CCP_V5_MEM_LSB_CTX_ID_GET req.u16SrcMemType = s)
    (hsb : s * 32 + (if t = CCP_V5_ENGINE_SHA_TYPE_256 then 32 else 48) ≤ 4096)
    (hctx : core.pOsslShaCtx = none ∧ acc = [] ∨
      core.pOsslShaCtx = some { shaType := t, acc := acc })
    (hlen : core.Lsb.length = 4096) :
    ∃ core',
      pspDevCcpReqShaProcess core req uFunc fInit true = some core' ∧
      core'.pOsslShaCtx = none ∧
      core'.localMem = core.localMem ∧
      core'.Lsb.length = 4096 ∧
      devRead core' CCPMEMSPACE.sb (s * 32)
          (if t = CCP_V5_ENGINE_SHA_TYPE_256 then 32 else 48) =
        some (ccpShaFinal t (acc ++ pspDevCcpXferMemLocalRead core.localMem
          (CCP_ADDR_CREATE_FROM_HI_LO req.u16AddrSrcHigh req.u32AddrSrcLow)
          req.cbSrc)).reverse := by
  have h32 : 32 ≤ (if t = CCP_V5_ENGINE_SHA_TYPE_256 then 32 else 48) := by
    rcases ht2 with h | h
    · rw [h, if_pos rfl]
    · rw [h]
      rw [if_neg (by decide)]
      omega
  have hid : CCP_V5_MEM_LSB_CTX_ID_GET req.u16SrcMemType < 128 := by
    rw [hslot]
    omega
  rcases hctx with ⟨hnone, hacc⟩ | hsome
  · subst hacc
    obtain ⟨⟨p1, p2⟩, hw⟩ := ccpWriteRevLoop_sb_some
      (ccpShaFinal t ([] ++ pspDevCcpXferMemLocalRead core.localMem
        (CCP_ADDR_CREATE_FROM_HI_LO req.u16AddrSrcHigh req.u32AddrSrcLow) req.cbSrc))
      { Lsb := core.Lsb
        pOsslShaCtx := some { shaType := t
                              acc := [] ++ pspDevCcpXferMemLocalRead core.localMem
                                (CCP_ADDR_CREATE_FROM_HI_LO req.u16AddrSrcHigh
                                  req.u32AddrSrcLow) req.cbSrc }
        localMem := core.localMem
        cbWrittenLast := 0 }
      (CCP_V5_MEM_LSB_CTX_ID_GET req.u16SrcMemType * 32 +
        (if t = CCP_V5_ENGINE_SHA_TYPE_256 then 32 else 48))
      hlen
      (by rw [hslot]; omega)
      (by rw [ccpShaFinal_length t ht2]; omega)
    have heval : pspDevCcpReqShaProcess core req uFunc fInit true =
        some { p1 with pOsslShaCtx := none } := by
      simp only [pspDevCcpReqShaProcess]
      rw [htype]
      rw [if_pos ht2]
      rw [xferCtxInit_sha core req (if t = CCP_V5_ENGINE_SHA_TYPE_256 then 32 else 48)
        CCPMEMSPACE.loc (ccpMemSpaceOf_local _ hmem) hid]
      dsimp only
      rw [hnone]
      dsimp only
      rw [ccpShaUpdateLoop_loc req.cbSrc
        { Lsb := core.Lsb
          pOsslShaCtx := none
          localMem := core.localMem
          cbWrittenLast := 0 }
        { srcSpace := CCPMEMSPACE.loc, dstSpace := CCPMEMSPACE.sb,
          CcpAddrSrc := CCP_ADDR_CREATE_FROM_HI_LO req.u16AddrSrcHigh req.u32AddrSrcLow,
          cbReadLeft := req.cbSrc,
          CcpAddrDst := CCP_V5_MEM_LSB_CTX_ID_GET req.u16SrcMemType * 32 +
            (if t = CCP_V5_ENGINE_SHA_TYPE_256 then 32 else 48),
          cbWriteLeft := if t = CCP_V5_ENGINE_SHA_TYPE_256 then 32 else 48,
          fWriteRev := true } [] rfl rfl]
      dsimp only
      rw [if_pos trivial]
      rw [List.take_left' (ccpShaFinal_length t ht2 _)]
      rw [xferWrite_exact_rev
        { Lsb := core.Lsb
          pOsslShaCtx := some { shaType := t
                                acc := [] ++ pspDevCcpXferMemLocalRead core.localMem
                                  (CCP_ADDR_CREATE_FROM_HI_LO req.u16AddrSrcHigh
                                    req.u32AddrSrcLow) req.cbSrc }
          localMem := core.localMem
          cbWrittenLast := 0 }
        { srcSpace := CCPMEMSPACE.loc, dstSpace := CCPMEMSPACE.sb,
          CcpAddrSrc := CCP_ADDR_CREATE_FROM_HI_LO req.u16AddrSrcHigh req.u32AddrSrcLow +
            req.cbSrc,
          cbReadLeft := req.cbSrc - req.cbSrc,
          CcpAddrDst := CCP_V5_MEM_LSB_CTX_ID_GET req.u16SrcMemType * 32 +
            (if t = CCP_V5_ENGINE_SHA_TYPE_256 then 32 else 48),
          cbWriteLeft := if t = CCP_V5_ENGINE_SHA_TYPE_256 then 32 else 48,
          fWriteRev := true }
        (ccpShaFinal t ([] ++ pspDevCcpXferMemLocalRead core.localMem
          (CCP_ADDR_CREATE_FROM_HI_LO req.u16AddrSrcHigh req.u32AddrSrcLow) req.cbSrc))
        (le_of_eq (ccpShaFinal_length t ht2 _))
        (by rw [ccpShaFinal_length t ht2]; omega) rfl]
      rw [hw]
      dsimp only [Option.map]
    have hrball := ccpWriteRevLoop_readback
      (ccpShaFinal t ([] ++ pspDevCcpXferMemLocalRead core.localMem
        (CCP_ADDR_CREATE_FROM_HI_LO req.u16AddrSrcHigh req.u32AddrSrcLow) req.cbSrc))
      { Lsb := core.Lsb
        pOsslShaCtx := some { shaType := t
                              acc := [] ++ pspDevCcpXferMemLocalRead core.localMem
                                (CCP_ADDR_CREATE_FROM_HI_LO req.u16AddrSrcHigh
                                  req.u32AddrSrcLow) req.cbSrc }
        localMem := core.localMem
        cbWrittenLast := 0 }
      CCPMEMSPACE.sb (s * 32) p1 p2 hlen trivial
      (by rw [ccpShaFinal_length t ht2, ← hslot]; exact hw)
    refine ⟨{ p1 with pOsslShaCtx := none }, heval, rfl, ?_, ?_, ?_⟩
    · exact hrball.2.2.1.1
    · exact hrball.2.2.2
    · have hrb := hrball.2.1
      have hne : ccpShaFinal t ([] ++ pspDevCcpXferMemLocalRead core.localMem
          (CCP_ADDR_CREATE_FROM_HI_LO req.u16AddrSrcHigh req.u32AddrSrcLow) req.cbSrc) ≠
          [] := by
        intro hnil
        have hl := ccpShaFinal_length t ht2 ([] ++ pspDevCcpXferMemLocalRead core.localMem
          (CCP_ADDR_CREATE_FROM_HI_LO req.u16AddrSrcHigh req.u32AddrSrcLow) req.cbSrc)
        rw [hnil] at hl
        simp only [List.length_nil] at hl
        omega
      have h := hrb hne
      rw [ccpShaFinal_length t ht2] at h
      exact h
  · obtain ⟨⟨p1, p2⟩, hw⟩ := ccpWriteRevLoop_sb_some
      (ccpShaFinal t (acc ++ pspDevCcpXferMemLocalRead core.localMem
        (CCP_ADDR_CREATE_FROM_HI_LO req.u16AddrSrcHigh req.u32AddrSrcLow) req.cbSrc))
      { Lsb := core.Lsb
        pOsslShaCtx := some { shaType := t
                              acc := acc ++ pspDevCcpXferMemLocalRead core.localMem
                                (CCP_ADDR_CREATE_FROM_HI_LO req.u16AddrSrcHigh
                                  req.u32AddrSrcLow) req.cbSrc }
        localMem := core.localMem
        cbWrittenLast := 0 }
      (CCP_V5_MEM_LSB_CTX_ID_GET req.u16SrcMemType * 32 +
        (if t = CCP_V5_ENGINE_SHA_TYPE_256 then 32 else 48))
      hlen
      (by rw [hslot]; omega)
      (by rw [ccpShaFinal_length t ht2]; omega)
    have heval : pspDevCcpReqShaProcess core req uFunc fInit true =
        some { p1 with pOsslShaCtx := none } := by
      simp only [pspDevCcpReqShaProcess]
      rw [htype]
      rw [if_pos ht2]
      rw [xferCtxInit_sha core req (if t = CCP_V5_ENGINE_SHA_TYPE_256 then 32 else 48)
        CCPMEMSPACE.loc (ccpMemSpaceOf_local _ hmem) hid]
      dsimp only
      rw [hsome]
      dsimp only
      rw [ccpShaUpdateLoop_loc req.cbSrc
        { Lsb := core.Lsb
          pOsslShaCtx := some { shaType := t, acc := acc }
          localMem := core.localMem
          cbWrittenLast := 0 }
        { srcSpace := CCPMEMSPACE.loc, dstSpace := CCPMEMSPACE.sb,
          CcpAddrSrc := CCP_ADDR_CREATE_FROM_HI_LO req.u16AddrSrcHigh req.u32AddrSrcLow,
          cbReadLeft := req.cbSrc,
          CcpAddrDst := CCP_V5_MEM_LSB_CTX_ID_GET req.u16SrcMemType * 32 +
            (if t = CCP_V5_ENGINE_SHA_TYPE_256 then 32 else 48),
          cbWriteLeft := if t = CCP_V5_ENGINE_SHA_TYPE_256 then 32 else 48,
          fWriteRev := true } acc rfl rfl]
      dsimp only
      rw [if_pos trivial]
      rw [List.take_left' (ccpShaFinal_length t ht2 _)]
      rw [xferWrite_exact_rev
        { Lsb := core.Lsb
          pOsslShaCtx := some { shaType := t
                                acc := acc ++ pspDevCcpXferMemLocalRead core.localMem
                                  (CCP_ADDR_CREATE_FROM_HI_LO req.u16AddrSrcHigh
                                    req.u32AddrSrcLow) req.cbSrc }
          localMem := core.localMem
          cbWrittenLast := 0 }
        { srcSpace := CCPMEMSPACE.loc, dstSpace := CCPMEMSPACE.sb,
          CcpAddrSrc := CCP_ADDR_CREATE_FROM_HI_LO req.u16AddrSrcHigh req.u32AddrSrcLow +
            req.cbSrc,
          cbReadLeft := req.cbSrc - req.cbSrc,
          CcpAddrDst := CCP_V5_MEM_LSB_CTX_ID_GET req.u16SrcMemType * 32 +
            (if t = CCP_V5_ENGINE_SHA_TYPE_256 then 32 else 48),
          cbWriteLeft := if t = CCP_V5_ENGINE_SHA_TYPE_256 then 32 else 48,
          fWriteRev := true }
        (ccpShaFinal t (acc ++ pspDevCcpXferMemLocalRead core.localMem
          (CCP_ADDR_CREATE_FROM_HI_LO req.u16AddrSrcHigh req.u32AddrSrcLow) req.cbSrc))
        (le_of_eq (ccpShaFinal_length t ht2 _))
        (by rw [ccpShaFinal_length t ht2]; omega) rfl]
      rw [hw]
      dsimp only [Option.map]
    have hrball := ccpWriteRevLoop_readback
      (ccpShaFinal t (acc ++ pspDevCcpXferMemLocalRead core.localMem
        (CCP_ADDR_CREATE_FROM_HI_LO req.u16AddrSrcHigh req.u32AddrSrcLow) req.cbSrc))
      { Lsb := core.Lsb
        pOsslShaCtx := some { shaType := t
                              acc := acc ++ pspDevCcpXferMemLocalRead core.localMem
                                (CCP_ADDR_CREATE_FROM_HI_LO req.u16AddrSrcHigh
                                  req.u32AddrSrcLow) req.cbSrc }
        localMem := core.localMem
        cbWrittenLast := 0 }
      CCPMEMSPACE.sb (s * 32) p1 p2 hlen trivial
      (by rw [ccpShaFinal_length t ht2, ← hslot]; exact hw)
    refine ⟨{ p1 with pOsslShaCtx := none }, heval, rfl, ?_, ?_, ?_⟩
    · exact hrball.2.2.1.1
    · exact hrball.2.2.2
    · have hrb := hrball.2.1
      have hne : ccpShaFinal t (acc ++ pspDevCcpXferMemLocalRead core.localMem
          (CCP_ADDR_CREATE_FROM_HI_LO req.u16AddrSrcHigh req.u32AddrSrcLow) req.cbSrc) ≠
          [] := by
        intro hnil
        have hl := ccpShaFinal_length t ht2 (acc ++ pspDevCcpXferMemLocalRead core.localMem
          (CCP_ADDR_CREATE_FROM_HI_LO req.u16AddrSrcHigh req.u32AddrSrcLow) req.cbSrc)
        rw [hnil] at hl
        simp only [List.length_nil] at hl
        omega
      have h := hrb hne
      rw [ccpShaFinal_length t ht2] at h
      exact h

/-- Submit a sequence of SHA descriptors (with their init and eom
flags) to the SHA engine in order, stopping at the first failure. -/
def ccpShaRunParts (uFunc : Nat) : DEVCORE → List (CCP5REQ × Bool × Bool) → Option DEVCORE
  | core, [] => some core
  | core, (req, fi, fe) :: rest =>
    match pspDevCcpReqShaProcess core req uFunc fi fe with
    | none => none
    | some core' => ccpShaRunParts uFunc core' rest

/-- Invariant run of a SHA descriptor sequence: from a context holding
`acc`, non-eom descriptors accumulate their source chunks and the final
eom descriptor lands the byte-reversed digest of everything in the LSB
slot. -/
theorem ccpShaParts_run (uFunc t s : Nat)
    (htype : CCP_V5_ENGINE_SHA_TYPE_GET uFunc = t)
    (ht2 : t = CCP_V5_ENGINE_SHA_TYPE_256 ∨ t = CCP_V5_ENGINE_SHA_TYPE_384)
    (hsb : s * 32 + (if t = CCP_V5_ENGINE_SHA_TYPE_256 then 32 else 48) ≤ 4096) :
    ∀ (mids : List (CCP5REQ × Bool)) (core : DEVCORE) (acc : Bytes)
      (lastReq : CCP5REQ) (li : Bool),
      (∀ r ∈ mids.map Prod.fst ++ [lastReq],
        CCP_V5_MEM_TYPE_GET r.u16SrcMemType = CCP_V5_MEM_TYPE_LOCAL ∧
        CCP_V5_MEM_LSB_CTX_ID_GET r.u16SrcMemType = s) →
      core.Lsb.length = 4096 →
      (core.pOsslShaCtx = none ∧ acc = [] ∨
        core.pOsslShaCtx = some { shaType := t, acc := acc }) →
      ∃ core',
        ccpShaRunParts uFunc core
          (mids.map (fun q => (q.1, q.2, false)) ++ [(lastReq, li, true)]) = some core' ∧
        core'.pOsslShaCtx = none ∧
        core'.Lsb.length = 4096 ∧
        devRead core' CCPMEMSPACE.sb (s * 32)
            (if t = CCP_V5_ENGINE_SHA_TYPE_256 then 32 else 48) =
          some (ccpShaFinal t (acc ++
            ((mids.map Prod.fst ++ [lastReq]).map fun r =>
              pspDevCcpXferMemLocalRead core.localMem
                (CCP_ADDR_CREATE_FROM_HI_LO r.u16AddrSrcHigh r.u32AddrSrcLow)
                r.cbSrc).flatten)).reverse := by
  intro mids
  induction mids with
  | nil =>
    intro core acc lastReq li hr hlen hctx
    have hlast := hr lastReq (by simp)
    obtain ⟨core', heval, hnone', hmem', hlen', hread⟩ :=
      ccpSha_step_eom core lastReq uFunc li t s acc htype ht2 hlast.1 hlast.2 hsb hctx hlen
    refine ⟨core', ?_, hnone', hlen', ?_⟩
    · simp only [List.map_nil, List.nil_append, ccpShaRunParts]
      rw [heval]
    · simp only [List.map_nil, List.nil_append, List.map_cons, List.flatten_cons,
        List.flatten_nil, List.append_nil]
      exact hread
  | cons q mids ih =>
    intro core acc lastReq li hr hlen hctx
    have hq := hr q.1 (by simp)
    have hmid := ccpSha_step_mid core q.1 uFunc q.2 t s acc htype ht2 hq.1 hq.2 hsb hctx
    obtain ⟨core', hrun, h1, h2, h3⟩ := ih
      { core with
        pOsslShaCtx := some { shaType := t
                              acc := acc ++ pspDevCcpXferMemLocalRead core.localMem
                                (CCP_ADDR_CREATE_FROM_HI_LO q.1.u16AddrSrcHigh
                                  q.1.u32AddrSrcLow) q.1.cbSrc }
        cbWrittenLast := 0 }
      (acc ++ pspDevCcpXferMemLocalRead core.localMem
        (CCP_ADDR_CREATE_FROM_HI_LO q.1.u16AddrSrcHigh q.1.u32AddrSrcLow) q.1.cbSrc)
      lastReq li
      (fun r hrm => hr r (by
        simp only [List.map_cons, List.cons_append, List.mem_cons]
        exact Or.inr hrm))
      hlen (Or.inr rfl)
    refine ⟨core', ?_, h1, h2, ?_⟩
    · simp only [List.map_cons, List.cons_append, ccpShaRunParts]
      rw [hmid]
      exact hrun
    · simp only [List.map_cons, List.cons_append, List.flatten_cons]
      rw [← List.append_assoc]
      exact h3

/-- C5. SHA descriptors with a SHA type other than SHA-256 or SHA-384
fail. For a message split into an arbitrary chunk sequence of
local-memory sources submitted as successive SHA descriptors sharing
one SHA type (SHA-256 or SHA-384) and one source LSB-context-id `s`,
with eom on the last descriptor only and starting with no digest
context: the run succeeds, and afterwards LSB slot `s` holds the
byte-reversed SHA-2 digest (of the declared width) of the concatenated
source bytes, and the digest context has been freed. (The init flag of
the descriptors is ignored by the code; the context is created lazily,
so the theorem holds for arbitrary init flags.) -/
theorem ccp_sha_process_spec :
    (∀ (core : DEVCORE) (req : CCP5REQ) (uFunc : Nat) (fInit fEom : Bool),
      CCP_V5_ENGINE_SHA_TYPE_GET uFunc ≠ CCP_V5_ENGINE_SHA_TYPE_256 →
      CCP_V5_ENGINE_SHA_TYPE_GET uFunc ≠ CCP_V5_ENGINE_SHA_TYPE_384 →
      pspDevCcpReqShaProcess core req uFunc fInit fEom = none) ∧
    (∀ (uFunc t s : Nat) (mids : List (CCP5REQ × Bool)) (lastReq : CCP5REQ) (li : Bool)
      (core : DEVCORE),
      CCP_V5_ENGINE_SHA_TYPE_GET uFunc = t →
      (t = CCP_V5_ENGINE_SHA_TYPE_256 ∨ t = CCP_V5_ENGINE_SHA_TYPE_384) →
      (∀ r ∈ mids.map Prod.fst ++ [lastReq],
        CCP_V5_MEM_TYPE_GET r.u16SrcMemType = CCP_V5_MEM_TYPE_LOCAL ∧
        CCP_V5_MEM_LSB_CTX_ID_GET r.u16SrcMemType = s) →
      s * 32 + (if t = CCP_V5_ENGINE_SHA_TYPE_256 then 32 else 48) ≤ 4096 →
      core.pOsslShaCtx = none →
      core.Lsb.length = 4096 →
      ∃ core',
        ccpShaRunParts uFunc core
          (mids.map (fun q => (q.1, q.2, false)) ++ [(lastReq, li, true)]) = some core' ∧
        core'.pOsslShaCtx = none ∧
        devRead core' CCPMEMSPACE.sb (s * 32)
            (if t = CCP_V5_ENGINE_SHA_TYPE_256 then 32 else 48) =
          some (ccpShaFinal t
            (((mids.map Prod.fst ++ [lastReq]).map fun r =>
              pspDevCcpXferMemLocalRead core.localMem
                (CCP_ADDR_CREATE_FROM_HI_LO r.u16AddrSrcHigh r.u32AddrSrcLow)
                r.cbSrc).flatten)).reverse) := by
  constructor
  · intro core req uFunc fInit fEom h1 h2
    simp only [pspDevCcpReqShaProcess]
    rw [if_neg (fun h => h.elim h1 h2)]
  · intro uFunc t s mids lastReq li core htype ht2 hr hsb hctx0 hlen
    obtain ⟨core', h1, h2, h3, h4⟩ := ccpShaParts_run uFunc t s htype ht2 hsb mids core []
      lastReq li hr hlen (Or.inl ⟨hctx0, rfl⟩)
    exact ⟨core', h1, h2, h4⟩

/-- Local memory for the SHA witness: the bytes of "abc" at `0x100`. -/
def ccpShaWitMem : Nat → Nat := fun a =>
  if a = 0x100 then 97 else if a = 0x101 then 98 else if a = 0x102 then 99 else 0

/-- The device core for the SHA witness. -/
def ccpShaWitCore : DEVCORE :=
  { Lsb := List.replicate 4096 0, pOsslShaCtx := none,
    localMem := ccpShaWitMem, cbWrittenLast := 0 }

/-- First SHA witness descriptor: 2 bytes at `0x100`, LOCAL source,
LSB-context-id 7 (`u16SrcMemType = 30`). -/
def ccpShaWitReq1 : CCP5REQ :=
  { u32Dw0 := 0
    cbSrc := 2
    u32AddrSrcLow := 0x100
    u16AddrSrcHigh := 0
    u16SrcMemType := 30
    u32AddrDstLow := 0
    u16AddrDstHigh := 0
    u16DstMemType := 0
    u32AddrKeyLow := 0
    u16AddrKeyHigh := 0
    u16KeyMemType := 0 }

/-- Second SHA witness descriptor: 1 byte at `0x102`. -/
def ccpShaWitReq2 : CCP5REQ :=
  { u32Dw0 := 0
    cbSrc := 1
    u32AddrSrcLow := 0x102
    u16AddrSrcHigh := 0
    u16SrcMemType := 30
    u32AddrDstLow := 0
    u16AddrDstHigh := 0
    u16DstMemType := 0
    u32AddrKeyLow := 0
    u16AddrKeyHigh := 0
    u16KeyMemType := 0 }

/-- Witness for C5: the message "abc" split as "ab" ++ "c", SHA-256
(`uFunc = 3072`), slot 7: the run succeeds and slot 7 holds the
reversed digest of the three concatenated bytes. -/
theorem ccp_sha_process_spec_witness :
    ∃ core',
      ccpShaRunParts 3072 ccpShaWitCore
        ([(ccpShaWitReq1, true)].map (fun q => (q.1, q.2, false)) ++
          [(ccpShaWitReq2, false, true)]) = some core' ∧
      core'.pOsslShaCtx = none ∧
      devRead core' CCPMEMSPACE.sb (7 * 32)
          (if (3 : Nat) = CCP_V5_ENGINE_SHA_TYPE_256 then 32 else 48) =
        some (ccpShaFinal 3
          ((([(ccpShaWitReq1, true)].map Prod.fst ++ [ccpShaWitReq2]).map fun r =>
            pspDevCcpXferMemLocalRead ccpShaWitMem
              (CCP_ADDR_CREATE_FROM_HI_LO r.u16AddrSrcHigh r.u32AddrSrcLow)
              r.cbSrc).flatten)).reverse :=
  ccp_sha_process_spec.2 3072 3 7 [(ccpShaWitReq1, true)] ccpShaWitReq2 false ccpShaWitCore
    (by decide) (Or.inl (by decide)) (by decide) (by decide) rfl
    (List.length_replicate 4096 0)
